import Mathlib

/-!
# yt-transcribe: descriptor capture (fakestdio) and segment selection

A shallow embedding of `src/fakestdio/fakestdio.go` (`New`, `ReadAndRestore`)
over an explicit model of the process descriptor table, the kernel pipes and
the two background drain goroutines; of `New` from `src/fakestdio/windows.go`
over the Windows standard handle slots; of `Whisper.Transcribe` from
`src/whisper/whisper.go`, as a function of the outcomes of its foreign calls;
and of `Whisper.GetSegments` from `src/main.go`.

Modelling conventions

* A descriptor table is a list indexed by descriptor number; new descriptors
  take the lowest free number, as `pipe(2)` and `dup(2)` do.
* Every system call takes an optional injected errno (resource exhaustion,
  interruption, ...). A call can also fail on its own (`EBADF`, `EPIPE`). A
  failed call leaves the kernel state unchanged.
* A write to a pipe whose read end is closed fails with `EPIPE`; on descriptor
  1 or 2 the Go runtime then raises `SIGPIPE` and the process dies
  (`World.killed`); nothing runs in a dead process.
* A Go slice is `Option (List _)`: `none` is the nil slice.
* The goroutines started by `New` are tasks in the world. They run only when
  the schedule says so (`Event.read`) or when the foreground blocks on their
  channel (`recv`), so a schedule fixes one interleaving of the foreground with
  the two drain goroutines. Pipes are unbounded. `os.File` finalizers are not
  run: the table is taken as the calls of the package leave it.
* `log.Println` in the drain goroutine writes one line to descriptor 2
  (`os.Stderr`), after `io.Copy` has returned an error and before the send on
  the channel. The text of the line (it starts with the time) comes from the
  schedule.
-/

namespace YtTranscribe

/-! ## Kernel model -/

/-- Error numbers returned by system calls. -/
inductive Errno
  | EBADF | EMFILE | ENFILE | EINTR | EINVAL | EBUSY | EPIPE
  deriving DecidableEq, Repr

/-- Go error values that occur in the package. -/
inductive GoError
  /-- A bare `syscall.Errno`, as `unix.Dup`, `unix.Dup2` and `unix.Close` return it. -/
  | errno (e : Errno)
  /-- An `*os.SyscallError` naming the system call, as `os.Pipe` returns it. -/
  | syscallError (call : String) (e : Errno)
  /-- The error `os.ErrClosed`: use of an `*os.File` after `Close`. -/
  | closed
  /-- An error built by `fmt.Errorf`. -/
  | errorf (msg : String)
  deriving DecidableEq, Repr

/-- What a descriptor refers to (an open file description). -/
inductive Target
  /-- Something that was open before the session: a terminal, a file, a socket. -/
  | file (id : Nat)
  /-- The read end of pipe `p`. -/
  | pipeR (p : Nat)
  /-- The write end of pipe `p`. -/
  | pipeW (p : Nat)
  deriving DecidableEq, Repr

abbrev Bytes := List Nat

abbrev FdTable := List (Option Target)

/-- The target of descriptor `fd`, `none` when it is closed. -/
def lookup : FdTable → Nat → Option Target
  | [], _ => none
  | x :: _, 0 => x
  | _ :: t, n + 1 => lookup t n

/-- Rebind descriptor `fd` (to `none`: close it), growing the table when needed. -/
def setFd : FdTable → Nat → Option Target → FdTable
  | [], 0, v => [v]
  | [], n + 1, v => none :: setFd [] n v
  | _ :: t, 0, v => v :: t
  | x :: t, n + 1, v => x :: setFd t n v

/-- The lowest descriptor number that is not open. -/
def lowestFree : FdTable → Nat
  | [] => 0
  | none :: _ => 0
  | some _ :: t => lowestFree t + 1

/-- The open descriptors from position `base` on, in increasing order. -/
def openFdsFrom (base : Nat) : FdTable → List Nat
  | [] => []
  | none :: t => openFdsFrom (base + 1) t
  | some _ :: t => base :: openFdsFrom (base + 1) t

/-- The set of open descriptors, as an increasing list. -/
def openFds (t : FdTable) : List Nat := openFdsFrom 0 t

/-- Kernel state: the descriptor table and, per pipe, the bytes written and not yet read. -/
structure OS where
  fds : FdTable
  pipes : List Bytes
  deriving DecidableEq, Repr

def stdoutFd : Nat := 1

def stderrFd : Nat := 2

/-- Replace the buffer of pipe `p`. -/
def setPipe : List Bytes → Nat → Bytes → List Bytes
  | [], _, _ => []
  | _ :: t, 0, v => v :: t
  | x :: t, n + 1, v => x :: setPipe t n v

/-- The buffer of pipe `p`. -/
def pipeBuf : List Bytes → Nat → Bytes
  | [], _ => []
  | x :: _, 0 => x
  | _ :: t, n + 1 => pipeBuf t n

/-- The call `pipe2(2)`: a new pipe, its read end on the lowest free descriptor, its write
end on the next one. Returns the state, the read descriptor and the write descriptor. -/
def sysPipe (os : OS) (fault : Option Errno) : Except Errno (OS × Nat × Nat) :=
  match fault with
  | some e => .error e
  | none =>
    let p := os.pipes.length
    let r := lowestFree os.fds
    let t1 := setFd os.fds r (some (.pipeR p))
    let w := lowestFree t1
    let t2 := setFd t1 w (some (.pipeW p))
    .ok ({ fds := t2, pipes := os.pipes ++ [[]] }, r, w)

/-- The call `dup(2)`: the lowest free descriptor becomes a second reference to the target
of `fd`. -/
def sysDup (os : OS) (fd : Nat) (fault : Option Errno) : Except Errno (OS × Nat) :=
  match fault with
  | some e => .error e
  | none =>
    match lookup os.fds fd with
    | none => .error .EBADF
    | some tgt =>
      let d := lowestFree os.fds
      .ok ({ os with fds := setFd os.fds d (some tgt) }, d)

/-- The call `dup2(2)`, which `unix.Dup2` is on darwin and the BSDs: descriptor `newfd` is
rebound to the target of `oldfd`; whatever `newfd` referred to is silently dropped. On
Linux `unix.Dup2` is `dup3(oldfd, newfd, 0)`, which differs in one case: it fails with
`EINVAL` when `oldfd = newfd`; that failure is one of the injected ones. -/
def sysDup2 (os : OS) (oldfd newfd : Nat) (fault : Option Errno) : Except Errno OS :=
  match fault with
  | some e => .error e
  | none =>
    match lookup os.fds oldfd with
    | none => .error .EBADF
    | some tgt => .ok { os with fds := setFd os.fds newfd (some tgt) }

/-- The call `close(2)`. -/
def sysClose (os : OS) (fd : Nat) (fault : Option Errno) : Except Errno OS :=
  match fault with
  | some e => .error e
  | none =>
    match lookup os.fds fd with
    | none => .error .EBADF
    | some _ => .ok { os with fds := setFd os.fds fd none }

/-- Whether some descriptor still refers to the write end of pipe `p`. -/
def hasWriter (t : FdTable) (p : Nat) : Bool := t.contains (some (.pipeW p))

/-- Whether some descriptor still refers to the read end of pipe `p`. -/
def hasReader (t : FdTable) (p : Nat) : Bool := t.contains (some (.pipeR p))

/-- The call `write(2)`: bytes written to the write end of a pipe are appended to the pipe,
or refused with `EPIPE` when no read end is open; bytes written to anything else leave the
model. -/
def sysWrite (os : OS) (fd : Nat) (b : Bytes) : Except Errno OS :=
  match lookup os.fds fd with
  | some (.pipeW p) =>
    if hasReader os.fds p then
      .ok { os with pipes := setPipe os.pipes p (pipeBuf os.pipes p ++ b) }
    else .error .EPIPE
  | some (.file _) => .ok os
  | _ => .error .EBADF

/-- The result of one `Read` call on an `*os.File`. -/
inductive ReadResult
  /-- The call returned `n > 0` bytes and a nil error. -/
  | data (b : Bytes)
  /-- The call returned `io.EOF`. -/
  | eof
  /-- The call returned another error. -/
  | err (e : GoError)
  deriving DecidableEq, Repr

/-- The call `read(2)` on `fd`: `none` when the call would block. A pipe hands over
everything it holds; an empty pipe is at end of stream once no write end is open. -/
def sysRead (os : OS) (fd : Nat) : OS × Option ReadResult :=
  match lookup os.fds fd with
  | some (.pipeR p) =>
    match pipeBuf os.pipes p with
    | [] => if hasWriter os.fds p then (os, none) else (os, some .eof)
    | b :: bs => ({ os with pipes := setPipe os.pipes p [] }, some (.data (b :: bs)))
  | some (.file _) => (os, none)
  | _ => (os, some (.err (.errno .EBADF)))

/-! ## Go runtime model: drain goroutines, channels, files -/

/-- The loop of `bytes.Buffer.ReadFrom`, which `io.Copy(&b, reader)` runs: append what
each `Read` returns until one returns `io.EOF` (reported as a nil error) or another error.
The result is the buffer and the error `io.Copy` returns; `none` while the next `Read`
has not returned. -/
def readFrom : Bytes → List ReadResult → Option (Bytes × Option GoError)
  | _, [] => none
  | acc, .data b :: rs => readFrom (acc ++ b) rs
  | acc, .eof :: _ => some (acc, none)
  | acc, .err e :: _ => some (acc, some e)

/-- What a drain goroutine does once `io.Copy` has returned. -/
structure Delivery where
  /-- The value of `b.Bytes()` sent on the channel. -/
  sent : Bytes
  /-- The error passed to `log.Println`, if any. -/
  logged : Option GoError
  deriving DecidableEq, Repr

/-- The body of the goroutine started by `New`, as a function of the results of the `Read`
calls its reader makes: `io.Copy`, `log.Println` on error, one send on the channel. -/
def drain (reads : List ReadResult) : Option Delivery :=
  match readFrom [] reads with
  | none => none
  | some (b, err) => some { sent := b, logged := err }

/-- A drain goroutine together with the `*os.File` it reads and the channel it sends on. -/
structure Task where
  /-- The descriptor number held by the `*os.File`. -/
  fd : Nat
  /-- Whether `Close` has been called on the `*os.File`. -/
  closed : Bool
  /-- The results of the `Read` calls made so far, oldest first. -/
  reads : List ReadResult
  /-- Whether the goroutine has made its `log.Println` call. -/
  logged : Bool := false
  deriving DecidableEq, Repr

/-- The process: kernel state, the drain goroutines, and whether a signal has killed it. -/
structure World where
  os : OS
  tasks : List Task
  killed : Bool := false
  deriving DecidableEq, Repr

/-- A write to descriptor `fd` by code of the process that drops the error, as
`log.Println` and the foreign library do. `EPIPE` on descriptor 1 or 2 kills the process. -/
def World.write (w : World) (fd : Nat) (b : Bytes) : World :=
  match sysWrite w.os fd b with
  | .ok os1 => { w with os := os1 }
  | .error e =>
    if e = .EPIPE ∧ (fd = stdoutFd ∨ fd = stderrFd) then { w with killed := true } else w

/-- Whether the goroutine stands between `io.Copy`, returned with an error, and
`log.Println`. -/
def Task.logPending (t : Task) : Bool :=
  match drain t.reads with
  | some d => d.logged.isSome && !t.logged
  | none => false

/-- The call `log.Println(err)` of goroutine `i`, when that is its next step: one line
written to descriptor 2. -/
def World.logNow (w : World) (i : Nat) (line : Bytes) : World :=
  match w.tasks[i]? with
  | none => w
  | some t =>
    if t.logPending then
      World.write { w with tasks := w.tasks.set i { t with logged := true } } stderrFd line
    else w

/-- One `Read` call of the goroutine, when it has not finished. After `Close` on the
`*os.File` every `Read` fails with `os.ErrClosed` and reads nothing, whatever the pipe still
holds. Otherwise the call gives the injected error, else what `read(2)` gives (nothing when
it would block). -/
def Task.step (os : OS) (t : Task) (fault : Option Errno) : OS × Task :=
  if (drain t.reads).isSome then (os, t)
  else if t.closed then (os, { t with reads := t.reads ++ [.err .closed] })
  else
    match fault with
    | some e => (os, { t with reads := t.reads ++ [.err (.errno e)] })
    | none =>
      match sysRead os t.fd with
      | (os1, some r) => (os1, { t with reads := t.reads ++ [r] })
      | (os1, none) => (os1, t)

/-- The receive `<-ch` in the foreground: the goroutine behind the channel runs until it
sends. At most two more `Read` calls can return (pending data, then end of stream or an
error); if it is still reading after that, it is blocked and nothing else runs, so the
receive never returns (`none`). After a failed `io.Copy` the goroutine writes its log line
before it sends; if that write kills the process the receive does not return either. -/
def recv (w : World) (ch : Nat) (line : Bytes) : Option (World × Bytes) :=
  match w.tasks[ch]? with
  | none => none
  | some t =>
    let (os1, t1) := t.step w.os none
    let (os2, t2) := t1.step os1 none
    match drain t2.reads with
    | some d =>
      let w2 := World.logNow { w with os := os2, tasks := w.tasks.set ch t2 } ch line
      if w2.killed then none else some (w2, d.sent)
    | none => none

/-- The method `(*os.File).Close` on the file owned by task `r`: the file is marked closed
and its descriptor is closed. -/
def fileClose (w : World) (r : Nat) (fault : Option Errno) : World × Option GoError :=
  match w.tasks[r]? with
  | none => (w, some .closed)
  | some t =>
    if t.closed then (w, some .closed)
    else
      let tasks1 := w.tasks.set r { t with closed := true }
      match sysClose w.os t.fd fault with
      | .ok os1 => ({ w with os := os1, tasks := tasks1 }, none)
      | .error e => ({ w with tasks := tasks1 }, some (.errno e))

/-- What happens in the process beside the foreground goroutine. -/
inductive Event
  /-- Some code (Go or foreign) writes `b` to descriptor `fd`. -/
  | write (fd : Nat) (b : Bytes)
  /-- The scheduler lets drain goroutine `task` make one `Read` call. -/
  | read (task : Nat) (fault : Option Errno)
  /-- The scheduler lets drain goroutine `task` make its `log.Println` call, which writes
  `line`. -/
  | log (task : Nat) (line : Bytes)
  deriving DecidableEq, Repr

/-- The effect of one event on the process. Nothing happens in a killed process. -/
def Event.apply (w : World) (ev : Event) : World :=
  if w.killed then w
  else
    match ev with
    | .write fd b => w.write fd b
    | .read i fault =>
      match w.tasks[i]? with
      | none => w
      | some t =>
        let (os1, t1) := t.step w.os fault
        { w with os := os1, tasks := w.tasks.set i t1 }
    | .log i line => w.logNow i line

/-- Run a schedule of events. -/
def run (w : World) (evs : List Event) : World := evs.foldl Event.apply w

/-! ## fakestdio.go -/

/-- The struct `FakeStdOutErr`. A reader is the index of the task that owns the
`*os.File` (`none` is the nil pointer); a channel is the index of the task that sends on
it. -/
structure FakeStdOutErr where
  origStdout : Nat
  stdoutReader : Option Nat
  stdoutCh : Nat
  origStderr : Nat
  stderrReader : Option Nat
  stderrCh : Nat
  deriving DecidableEq, Repr

/-- The six calls of `New` that can fail, in program order. -/
inductive NewStep
  | pipeOut | dupOut | dup2Out | pipeErr | dupErr | dup2Err
  deriving DecidableEq, Repr

/-- Injected errnos for the six calls of `New`. -/
structure NewFaults where
  pipeOut : Option Errno
  dupOut : Option Errno
  dup2Out : Option Errno
  pipeErr : Option Errno
  dupErr : Option Errno
  dup2Err : Option Errno
  deriving DecidableEq, Repr

def NewFaults.none : NewFaults := ⟨.none, .none, .none, .none, .none, .none⟩

/-- The function `os.Pipe`: errors are wrapped in an `os.SyscallError` that names the call
(`pipe2` on Linux). -/
def osPipe (os : OS) (fault : Option Errno) : Except GoError (OS × Nat × Nat) :=
  match sysPipe os fault with
  | .ok r => .ok r
  | .error e => .error (.syscallError "pipe2" e)

/-- The function `New`, instrumented: an error comes with the step that returned it. -/
def NewAt (w : World) (f : NewFaults) : World × Except (NewStep × GoError) FakeStdOutErr :=
  match osPipe w.os f.pipeOut with
  | .error err => (w, .error (.pipeOut, err))
  | .ok (os1, stdoutReader, stdoutWriter) =>
  match sysDup os1 stdoutFd f.dupOut with
  | .error e => ({ w with os := os1 }, .error (.dupOut, .errno e))
  | .ok (os2, origStdout) =>
  match sysDup2 os2 stdoutWriter stdoutFd f.dup2Out with
  | .error e => ({ w with os := os2 }, .error (.dup2Out, .errno e))
  | .ok os3 =>
  let stdoutCh := w.tasks.length
  let tasks1 := w.tasks ++ [{ fd := stdoutReader, closed := false, reads := [] }]
  match osPipe os3 f.pipeErr with
  | .error err => ({ w with os := os3, tasks := tasks1 }, .error (.pipeErr, err))
  | .ok (os4, stderrReader, stderrWriter) =>
  match sysDup os4 stderrFd f.dupErr with
  | .error e => ({ w with os := os4, tasks := tasks1 }, .error (.dupErr, .errno e))
  | .ok (os5, origStderr) =>
  match sysDup2 os5 stderrWriter stderrFd f.dup2Err with
  | .error e => ({ w with os := os5, tasks := tasks1 }, .error (.dup2Err, .errno e))
  | .ok os6 =>
  let stderrCh := tasks1.length
  let tasks2 := tasks1 ++ [{ fd := stderrReader, closed := false, reads := [] }]
  ({ w with os := os6, tasks := tasks2 },
   .ok { origStdout := origStdout, stdoutReader := some stdoutCh, stdoutCh := stdoutCh,
         origStderr := origStderr, stderrReader := some stderrCh, stderrCh := stderrCh })

/-- The function `New`: `(*FakeStdOutErr, error)` is `.ok sf` or `.error err` (nil session). -/
def New (w : World) (f : NewFaults) : World × Except GoError FakeStdOutErr :=
  match NewAt w f with
  | (w1, .ok sf) => (w1, .ok sf)
  | (w1, .error (_, err)) => (w1, .error err)

/-- The environment of one call of `ReadAndRestore`: injected errnos for its eight system
calls, in program order, and what the rest of the process (the drain goroutines above all)
does between the first four of them. Once the foreground blocks on a channel, the goroutine
behind it runs to its send; `logLine` is the line its `log.Println` writes then. -/
structure RestoreFaults where
  closeOutReader : Option Errno
  closeErrReader : Option Errno
  closeStdout : Option Errno
  closeStderr : Option Errno
  dup2Out : Option Errno
  closeOrigOut : Option Errno
  dup2Err : Option Errno
  closeOrigErr : Option Errno
  /-- Events after `stdoutReader.Close()` has returned. -/
  afterOutClose : List Event := []
  /-- Events after `stderrReader.Close()` has returned. -/
  afterErrClose : List Event := []
  /-- Events after `unix.Close(unix.Stdout)`. -/
  afterCloseStdout : List Event := []
  /-- Events after `unix.Close(unix.Stderr)`, before the first receive. -/
  afterCloseStderr : List Event := []
  /-- The line that a `log.Println(err)` made during the receives writes. -/
  logLine : Bytes := [108, 111, 103, 10]
  deriving DecidableEq, Repr

/-- Every system call succeeds and the goroutines run only once the foreground blocks on
their channels. -/
def RestoreFaults.none : RestoreFaults :=
  { closeOutReader := .none, closeErrReader := .none, closeStdout := .none,
    closeStderr := .none, dup2Out := .none, closeOrigOut := .none, dup2Err := .none,
    closeOrigErr := .none }

/-- A call whose error the caller drops: the state after it, changed or not. -/
def ignoreErr (os : OS) (r : Except Errno OS) : OS :=
  match r with
  | .ok os1 => os1
  | .error _ => os

/-- What `ReadAndRestore` leaves and returns. -/
structure Ret where
  world : World
  sf : FakeStdOutErr
  stdout : Option Bytes
  stderr : Option Bytes
  err : Option GoError
  deriving DecidableEq, Repr

/-- The method `ReadAndRestore`; `none` when it does not return: a channel receive blocks
for ever, or the process is killed. -/
def ReadAndRestore (w : World) (sf : FakeStdOutErr) (f : RestoreFaults) : Option Ret :=
  match sf.stdoutReader, sf.stderrReader with
  | some r1, some r2 =>
    let w1 := run (fileClose w r1 f.closeOutReader).1 f.afterOutClose
    let sf1 := { sf with stdoutReader := Option.none }
    let w2 := run (fileClose w1 r2 f.closeErrReader).1 f.afterErrClose
    let sf2 := { sf1 with stderrReader := Option.none }
    let w3 := run { w2 with os := ignoreErr w2.os (sysClose w2.os stdoutFd f.closeStdout) }
      f.afterCloseStdout
    let w4 := run { w3 with os := ignoreErr w3.os (sysClose w3.os stderrFd f.closeStderr) }
      f.afterCloseStderr
    if w4.killed then Option.none
    else
    match recv w4 sf2.stdoutCh f.logLine with
    | Option.none => Option.none
    | some (w5, stdoutBuf) =>
    match recv w5 sf2.stderrCh f.logLine with
    | Option.none => Option.none
    | some (w6, stderrBuf) =>
    let os7 := ignoreErr w6.os (sysDup2 w6.os sf2.origStdout stdoutFd f.dup2Out)
    let os8 := ignoreErr os7 (sysClose os7 sf2.origStdout f.closeOrigOut)
    let os9 := ignoreErr os8 (sysDup2 os8 sf2.origStderr stderrFd f.dup2Err)
    let os10 := ignoreErr os9 (sysClose os9 sf2.origStderr f.closeOrigErr)
    some { world := { w6 with os := os10 }, sf := sf2,
           stdout := some stdoutBuf, stderr := some stderrBuf, err := Option.none }
  | _, _ =>
    some { world := w, sf := sf, stdout := Option.none, stderr := Option.none,
           err := some (.errorf "ReadAndRestore from closed FakeStdio") }

/-- The usual table: descriptors 0, 1 and 2 open on three different things. -/
def stdWorld : World :=
  { os := { fds := [some (.file 0), some (.file 1), some (.file 2)], pipes := [] }, tasks := [] }

/-! ## Auxiliary definitions used in the statements -/

/-- The concatenation of the chunks read before the first end of stream or error. -/
def dataOf : List ReadResult → Bytes
  | [] => []
  | .data b :: rs => b ++ dataOf rs
  | .eof :: _ => []
  | .err _ :: _ => []

/-- The task once it has sent: as it is when it had finished, else with the failed `Read`
that a closed file gives. -/
def Task.finish (t : Task) : Task :=
  if (drain t.reads).isSome then t else { t with reads := t.reads ++ [.err .closed] }

/-- The effect of `close(2)`, its error dropped, on the descriptor table. -/
def closeFds (t : FdTable) (fd : Nat) (fault : Option Errno) : FdTable :=
  match fault with
  | some _ => t
  | none =>
    match lookup t fd with
    | none => t
    | some _ => setFd t fd none

/-- The effect of `dup2(2)`, its error dropped, on the descriptor table. -/
def dup2Fds (t : FdTable) (oldfd newfd : Nat) (fault : Option Errno) : FdTable :=
  match fault with
  | some _ => t
  | none =>
    match lookup t oldfd with
    | none => t
    | some tgt => setFd t newfd (some tgt)

/-- The effect on the descriptor table of the eight system calls of `ReadAndRestore`, in
program order, when the two reader files hold descriptors `ra` and `rb`. -/
def restoreFds (t : FdTable) (ra rb : Nat) (sf : FakeStdOutErr) (f : RestoreFaults) :
    FdTable :=
  let t1 := closeFds t ra f.closeOutReader
  let t2 := closeFds t1 rb f.closeErrReader
  let t3 := closeFds t2 stdoutFd f.closeStdout
  let t4 := closeFds t3 stderrFd f.closeStderr
  let t7 := dup2Fds t4 sf.origStdout stdoutFd f.dup2Out
  let t8 := closeFds t7 sf.origStdout f.closeOrigOut
  let t9 := dup2Fds t8 sf.origStderr stderrFd f.dup2Err
  closeFds t9 sf.origStderr f.closeOrigErr

/-- The process when `ReadAndRestore`, called with both readers set, reaches its first
receive: the two reader files and descriptors 1 and 2 are closed (lines 117-123), and what
the plan schedules in between has happened. -/
def closeAll (w : World) (r1 r2 : Nat) (f : RestoreFaults) : World :=
  let w1 := run (fileClose w r1 f.closeOutReader).1 f.afterOutClose
  let w2 := run (fileClose w1 r2 f.closeErrReader).1 f.afterErrClose
  let w3 := run { w2 with os := ignoreErr w2.os (sysClose w2.os stdoutFd f.closeStdout) }
    f.afterCloseStdout
  run { w3 with os := ignoreErr w3.os (sysClose w3.os stderrFd f.closeStderr) }
    f.afterCloseStderr

/-- The rest of `ReadAndRestore` from its first receive on (lines 127-136), for the session
`sf` with its readers already nil. -/
def receiveAndRestore (w4 : World) (sf : FakeStdOutErr) (f : RestoreFaults) : Option Ret :=
  if w4.killed then none
  else
    match recv w4 sf.stdoutCh f.logLine with
    | none => none
    | some (w5, stdoutBuf) =>
    match recv w5 sf.stderrCh f.logLine with
    | none => none
    | some (w6, stderrBuf) =>
    let os7 := ignoreErr w6.os (sysDup2 w6.os sf.origStdout stdoutFd f.dup2Out)
    let os8 := ignoreErr os7 (sysClose os7 sf.origStdout f.closeOrigOut)
    let os9 := ignoreErr os8 (sysDup2 os8 sf.origStderr stderrFd f.dup2Err)
    let os10 := ignoreErr os9 (sysClose os9 sf.origStderr f.closeOrigErr)
    some { world := { w6 with os := os10 }, sf := sf,
           stdout := some stdoutBuf, stderr := some stderrBuf, err := none }

/-- A plan of `ReadAndRestore` in which the goroutines run only once the foreground blocks
on their channels, and `unix.Close(unix.Stderr)` is not made to fail. -/
def RestoreFaults.atReceive (f : RestoreFaults) : Prop :=
  f.afterOutClose = [] ∧ f.afterErrClose = [] ∧ f.afterCloseStdout = [] ∧
  f.afterCloseStderr = [] ∧ f.closeStderr = Option.none

/-- A whole session: `New`, the events of the active phase, `ReadAndRestore`. The result is
`none` when `New` fails or `ReadAndRestore` never returns. -/
def capture (w : World) (nf : NewFaults) (evs : List Event) (f : RestoreFaults) : Option Ret :=
  match New w nf with
  | (w1, .ok sf) => ReadAndRestore (run w1 evs) sf f
  | (_, .error _) => none

/-- The session states the package can produce: finalized (a reader is nil), or live with
each reader being the file that the goroutine behind the matching channel reads. -/
def Paired (w : World) (sf : FakeStdOutErr) : Prop :=
  (sf.stdoutReader = none ∨ sf.stderrReader = none) ∨
  (sf.stdoutReader = some sf.stdoutCh ∧ sf.stderrReader = some sf.stderrCh ∧
    sf.stdoutCh < w.tasks.length ∧ sf.stderrCh < w.tasks.length)

instance (w : World) (sf : FakeStdOutErr) : Decidable (Paired w sf) := by
  unfold Paired
  infer_instance

/-- Every pipe end in the descriptor table belongs to a pipe that exists. -/
def OS.wf (os : OS) : Bool :=
  os.fds.all (fun x =>
    match x with
    | some (.pipeR p) => decide (p < os.pipes.length)
    | some (.pipeW p) => decide (p < os.pipes.length)
    | _ => true)

/-- A table with descriptors 0 and 1 open and descriptor 2 closed. -/
def noStderrWorld : World :=
  { os := { fds := [some (.file 0), some (.file 1)], pipes := [] }, tasks := [] }

/-- Task `c` exists, its file is closed, and the chunks it has read concatenate to `D`. -/
def ClosedWith (tasks : List Task) (c : Nat) (D : Bytes) : Prop :=
  ∃ u, tasks[c]? = some u ∧ u.closed = true ∧ dataOf u.reads = D

/-- The world that `New` leaves when called on `stdWorld`: pipe 0 on descriptors 3 and 4,
the duplicate of stdout on 5, pipe 1 on 6 and 7, the duplicate of stderr on 8. -/
def liveWorld : World :=
  { os := { fds := [some (.file 0), some (.pipeW 0), some (.pipeW 1), some (.pipeR 0),
                    some (.pipeW 0), some (.file 1), some (.pipeR 1), some (.pipeW 1),
                    some (.file 2)],
            pipes := [[], []] },
    tasks := [⟨3, false, [], false⟩, ⟨6, false, [], false⟩] }

/-- The session that `New` returns when called on `stdWorld`. -/
def liveSession : FakeStdOutErr :=
  { origStdout := 5, stdoutReader := some 0, stdoutCh := 0,
    origStderr := 8, stderrReader := some 1, stderrCh := 1 }

/-- What `ReadAndRestore` leaves and returns on `liveWorld` and `liveSession`. -/
def doneRet : Ret :=
  { world :=
      { os := { fds := [some (.file 0), some (.file 1), some (.file 2), none, some (.pipeW 0),
                        none, none, some (.pipeW 1), none],
                pipes := [[], []] },
        tasks := [⟨3, true, [.err .closed], true⟩, ⟨6, true, [.err .closed], true⟩] },
    sf := { origStdout := 5, stdoutReader := none, stdoutCh := 0,
            origStderr := 8, stderrReader := none, stderrCh := 1 },
    stdout := some [], stderr := some [], err := none }

/-- How a read loop ends: `none` is end of stream, `some e` is a read error. -/
def lastRead : Option GoError → ReadResult
  | none => .eof
  | some e => .err e

/-- The injected errno of a step of `New`. -/
def NewFaults.get (f : NewFaults) : NewStep → Option Errno
  | .pipeOut => f.pipeOut
  | .dupOut => f.dupOut
  | .dup2Out => f.dup2Out
  | .pipeErr => f.pipeErr
  | .dupErr => f.dupErr
  | .dup2Err => f.dup2Err

/-- The position of a step of `New` in program order. -/
def NewStep.index : NewStep → Nat
  | .pipeOut => 0
  | .dupOut => 1
  | .dup2Out => 2
  | .pipeErr => 3
  | .dupErr => 4
  | .dup2Err => 5

/-- The error value that the call made at a step returns for errno `e`: `os.Pipe` wraps it
in an `os.SyscallError`, `unix.Dup` and `unix.Dup2` return it bare. -/
def NewStep.callError (s : NewStep) (e : Errno) : GoError :=
  match s with
  | .pipeOut => .syscallError "pipe2" e
  | .pipeErr => .syscallError "pipe2" e
  | _ => .errno e

/-- The number of descriptors that the calls of `New` before a step have handed out: two by
each `os.Pipe`, one by each `unix.Dup`; `unix.Dup2` rebinds a descriptor and hands out
none. -/
def NewStep.acquired : NewStep → Nat
  | .pipeOut => 0
  | .dupOut => 2
  | .dup2Out => 3
  | .pipeErr => 3
  | .dupErr => 5
  | .dup2Err => 6

/-- The three steps of `New` that set up the stdout pipe. -/
def NewStep.isStdoutStep : NewStep → Bool
  | .pipeOut => true
  | .dupOut => true
  | .dup2Out => true
  | _ => false

/-- Fault plan: the creation of the stdout pipe fails with `EMFILE`. -/
def pipeOutFails : NewFaults := { NewFaults.none with pipeOut := some .EMFILE }

/-- Fault plan: the `Dup` of the original stdout descriptor fails with `EMFILE`. -/
def dupOutFails : NewFaults := { NewFaults.none with dupOut := some .EMFILE }

/-- Fault plan: the `Dup2` onto the stdout descriptor fails with `EMFILE`. -/
def dup2OutFails : NewFaults := { NewFaults.none with dup2Out := some .EMFILE }

/-- Fault plan: the creation of the stderr pipe fails with `EMFILE`. -/
def pipeErrFails : NewFaults := { NewFaults.none with pipeErr := some .EMFILE }

/-- The world `New` leaves on `stdWorld` when the `Dup` of stdout fails: the stdout pipe is
open on descriptors 3 and 4. -/
def pipedWorld : World :=
  { os := { fds := [some (.file 0), some (.file 1), some (.file 2), some (.pipeR 0),
                    some (.pipeW 0)],
            pipes := [[]] },
    tasks := [] }

/-- The world `New` leaves on `stdWorld` when the `Dup2` onto stdout fails: the stdout pipe
is open on 3 and 4, the duplicate of stdout on 5. -/
def dupedWorld : World :=
  { os := { fds := [some (.file 0), some (.file 1), some (.file 2), some (.pipeR 0),
                    some (.pipeW 0), some (.file 1)],
            pipes := [[]] },
    tasks := [] }

/-- The world `New` leaves on `stdWorld` when the creation of the stderr pipe fails:
descriptor 1 is the write end of the stdout pipe and the stdout goroutine is running. -/
def halfWorld : World :=
  { os := { fds := [some (.file 0), some (.pipeW 0), some (.file 2), some (.pipeR 0),
                    some (.pipeW 0), some (.file 1)],
            pipes := [[]] },
    tasks := [⟨3, false, [], false⟩] }

/-- What a successful `New` leaves behind on a table in which descriptors 1 and 2 were open:
the six new descriptors are distinct, were free, and the table is the old one except at
them and at 1 and 2. -/
structure Installed (w w1 : World) (sf : FakeStdOutErr) (r wfd r2 wfd2 : Nat) : Prop where
  tasks : w1.tasks = w.tasks ++ [⟨r, false, [], false⟩] ++ [⟨r2, false, [], false⟩]
  session : sf = { origStdout := sf.origStdout, stdoutReader := some w.tasks.length,
                   stdoutCh := w.tasks.length, origStderr := sf.origStderr,
                   stderrReader := some (w.tasks.length + 1), stderrCh := w.tasks.length + 1 }
  pipes : w1.os.pipes = w.os.pipes ++ [[]] ++ [[]]
  nodup : [stdoutFd, stderrFd, r, wfd, sf.origStdout, r2, wfd2, sf.origStderr].Nodup
  free : ∀ x ∈ [r, wfd, sf.origStdout, r2, wfd2, sf.origStderr], lookup w.os.fds x = none
  table : ∀ x, lookup w1.os.fds x =
    if x = stdoutFd then some (.pipeW w.os.pipes.length)
    else if x = stderrFd then some (.pipeW (w.os.pipes.length + 1))
    else if x = r then some (.pipeR w.os.pipes.length)
    else if x = wfd then some (.pipeW w.os.pipes.length)
    else if x = sf.origStdout then lookup w.os.fds stdoutFd
    else if x = r2 then some (.pipeR (w.os.pipes.length + 1))
    else if x = wfd2 then some (.pipeW (w.os.pipes.length + 1))
    else if x = sf.origStderr then lookup w.os.fds stderrFd
    else lookup w.os.fds x
  alive : w1.killed = w.killed

/-- The bytes written to descriptor `fd` by a schedule, in write order. -/
def written (fd : Nat) : List Event → Bytes
  | [] => []
  | .write fd1 b :: rest => if fd1 = fd then b ++ written fd rest else written fd rest
  | .read _ _ :: rest => written fd rest
  | .log _ _ :: rest => written fd rest

/-- The events of a session's active phase that C1 speaks of: writes to descriptor 1 or 2,
and reads by the session's two drain goroutines that are not made to fail. -/
def Event.inSession (sf : FakeStdOutErr) : Event → Prop
  | .write fd _ => fd = stdoutFd ∨ fd = stderrFd
  | .read i fault => (i = sf.stdoutCh ∨ i = sf.stderrCh) ∧ fault = none
  | .log _ _ => False

/-- The state of an active session: the process is alive, the table is `T`, both goroutines
are reading, and what
each has read followed by what its pipe still holds is `a1` (stdout) and `a2` (stderr). -/
def Active (T : FdTable) (p c1 c2 r r2 : Nat) (W : World) (a1 a2 : Bytes) : Prop :=
  W.killed = false ∧ W.os.fds = T ∧ p + 1 < W.os.pipes.length ∧
  ∃ t1 t2, W.tasks[c1]? = some t1 ∧ W.tasks[c2]? = some t2 ∧
    t1.fd = r ∧ t1.closed = false ∧ readFrom [] t1.reads = none ∧
    dataOf t1.reads ++ pipeBuf W.os.pipes p = a1 ∧
    t2.fd = r2 ∧ t2.closed = false ∧ readFrom [] t2.reads = none ∧
    dataOf t2.reads ++ pipeBuf W.os.pipes (p + 1) = a2

/-! ## fakestdio/windows.go -/

/-- The standard handle slots of a Windows process, named as the `windows.STD_*_HANDLE`
constants. -/
inductive StdHandle
  | STD_INPUT_HANDLE | STD_OUTPUT_HANDLE | STD_ERROR_HANDLE
  deriving DecidableEq, Repr

/-- Windows kernel state: the handle table and the pipes (`objs`, a handle value being an
index of the table), and the handle value held in each of the three standard slots. -/
structure WinOS where
  objs : OS
  stdIn : Nat
  stdOut : Nat
  stdErr : Nat
  deriving DecidableEq, Repr

/-- The handle value held in a standard slot. -/
def WinOS.slot (os : WinOS) : StdHandle → Nat
  | .STD_INPUT_HANDLE => os.stdIn
  | .STD_OUTPUT_HANDLE => os.stdOut
  | .STD_ERROR_HANDLE => os.stdErr

/-- What a standard slot refers to: the object behind the handle it holds. -/
def WinOS.target (os : WinOS) (which : StdHandle) : Option Target :=
  lookup os.objs.fds (os.slot which)

/-- The call `windows.GetStdHandle`: the handle held in the slot. -/
def GetStdHandle (os : WinOS) (which : StdHandle) (fault : Option Errno) : Except Errno Nat :=
  match fault with
  | some e => .error e
  | none => .ok (os.slot which)

/-- The call `windows.SetStdHandle`: the slot now holds `h`. -/
def SetStdHandle (os : WinOS) (which : StdHandle) (h : Nat) (fault : Option Errno) :
    Except Errno WinOS :=
  match fault with
  | some e => .error e
  | none =>
    match which with
    | .STD_INPUT_HANDLE => .ok { os with stdIn := h }
    | .STD_OUTPUT_HANDLE => .ok { os with stdOut := h }
    | .STD_ERROR_HANDLE => .ok { os with stdErr := h }

/-- The function `os.Pipe` on Windows: two new handles on a new pipe. -/
def winPipe (os : WinOS) (fault : Option Errno) : Except GoError (WinOS × Nat × Nat) :=
  match sysPipe os.objs fault with
  | .ok (objs1, r, w) => .ok ({ os with objs := objs1 }, r, w)
  | .error e => .error (.syscallError "pipe" e)

/-- The Windows process: kernel state and the drain goroutines. -/
structure WinWorld where
  os : WinOS
  tasks : List Task
  deriving DecidableEq, Repr

/-- The six calls of the Windows `New` that can fail, in program order. -/
inductive WinStep
  | pipeOut | getOut | setOut | pipeErr | getErr | setErr
  deriving DecidableEq, Repr

/-- Injected errors for the six calls of the Windows `New`. -/
structure WinFaults where
  pipeOut : Option Errno
  getOut : Option Errno
  setOut : Option Errno
  pipeErr : Option Errno
  getErr : Option Errno
  setErr : Option Errno
  deriving DecidableEq, Repr

def WinFaults.none : WinFaults := ⟨.none, .none, .none, .none, .none, .none⟩

/-- The function `New` of `windows.go`, instrumented with the failing step. Both
`SetStdHandle` calls name `STD_ERROR_HANDLE`, as lines 41 and 67 of the source do. -/
def Windows.NewAt (w : WinWorld) (f : WinFaults) :
    WinWorld × Except (WinStep × GoError) FakeStdOutErr :=
  match winPipe w.os f.pipeOut with
  | .error err => (w, .error (.pipeOut, err))
  | .ok (os1, stdoutReader, stdoutWriter) =>
  match GetStdHandle os1 .STD_OUTPUT_HANDLE f.getOut with
  | .error e => ({ w with os := os1 }, .error (.getOut, .errno e))
  | .ok origStdout =>
  match SetStdHandle os1 .STD_ERROR_HANDLE stdoutWriter f.setOut with
  | .error e => ({ w with os := os1 }, .error (.setOut, .errno e))
  | .ok os3 =>
  let stdoutCh := w.tasks.length
  let tasks1 := w.tasks ++ [{ fd := stdoutReader, closed := false, reads := [] }]
  match winPipe os3 f.pipeErr with
  | .error err => ({ os := os3, tasks := tasks1 }, .error (.pipeErr, err))
  | .ok (os4, stderrReader, stderrWriter) =>
  match GetStdHandle os4 .STD_ERROR_HANDLE f.getErr with
  | .error e => ({ os := os4, tasks := tasks1 }, .error (.getErr, .errno e))
  | .ok origStderr =>
  match SetStdHandle os4 .STD_ERROR_HANDLE stderrWriter f.setErr with
  | .error e => ({ os := os4, tasks := tasks1 }, .error (.setErr, .errno e))
  | .ok os6 =>
  let stderrCh := tasks1.length
  let tasks2 := tasks1 ++ [{ fd := stderrReader, closed := false, reads := [] }]
  ({ os := os6, tasks := tasks2 },
   .ok { origStdout := origStdout, stdoutReader := some stdoutCh, stdoutCh := stdoutCh,
         origStderr := origStderr, stderrReader := some stderrCh, stderrCh := stderrCh })

/-- The function `New` of `windows.go`. -/
def Windows.New (w : WinWorld) (f : WinFaults) : WinWorld × Except GoError FakeStdOutErr :=
  match Windows.NewAt w f with
  | (w1, .ok sf) => (w1, .ok sf)
  | (w1, .error (_, err)) => (w1, .error err)

/-- The claim's wording of the rebinding, for the Windows state: the standard-output slot
refers to the write end of pipe `p` and the standard-error slot to the write end of pipe
`q`. -/
def Windows.Rebound (w : WinWorld) (p q : Nat) : Prop :=
  w.os.target .STD_OUTPUT_HANDLE = some (.pipeW p) ∧
  w.os.target .STD_ERROR_HANDLE = some (.pipeW q)

/-- The same wording for the Unix state: descriptor 1 refers to the write end of pipe `p`
and descriptor 2 to the write end of pipe `q`. -/
def Rebound (w : World) (p q : Nat) : Prop :=
  lookup w.os.fds stdoutFd = some (.pipeW p) ∧ lookup w.os.fds stderrFd = some (.pipeW q)

/-- The correspondence of the claim between a Unix and a Windows state: stdout and the
standard-output slot refer to the same thing, and so do stderr and the standard-error
slot. -/
def SameStd (u : World) (w : WinWorld) : Prop :=
  lookup u.os.fds stdoutFd = w.os.target .STD_OUTPUT_HANDLE ∧
  lookup u.os.fds stderrFd = w.os.target .STD_ERROR_HANDLE

instance (u : World) (w : WinWorld) : Decidable (SameStd u w) := by
  unfold SameStd
  infer_instance

instance (w : WinWorld) (p q : Nat) : Decidable (Windows.Rebound w p q) := by
  unfold Windows.Rebound
  infer_instance

instance (w : World) (p q : Nat) : Decidable (Rebound w p q) := by
  unfold Rebound
  infer_instance

/-- The usual Windows process: handles 0, 1 and 2 open on three different things and held
in the input, output and error slots. -/
def winStdWorld : WinWorld :=
  { os := { objs := { fds := [some (.file 0), some (.file 1), some (.file 2)], pipes := [] },
            stdIn := 0, stdOut := 1, stdErr := 2 },
    tasks := [] }

/-- The world that the Windows `New` leaves when called on `winStdWorld`: pipe 0 on handles
3 and 4, pipe 1 on handles 5 and 6, the output slot still on handle 1, the error slot on
handle 6. -/
def winLiveWorld : WinWorld :=
  { os := { objs := { fds := [some (.file 0), some (.file 1), some (.file 2), some (.pipeR 0),
                              some (.pipeW 0), some (.pipeR 1), some (.pipeW 1)],
                      pipes := [[], []] },
            stdIn := 0, stdOut := 1, stdErr := 6 },
    tasks := [⟨3, false, [], false⟩, ⟨5, false, [], false⟩] }

/-- The session that the Windows `New` returns when called on `winStdWorld`: `origStderr`
is handle 4, the write end of the stdout pipe. -/
def winLiveSession : FakeStdOutErr :=
  { origStdout := 1, stdoutReader := some 0, stdoutCh := 0,
    origStderr := 4, stderrReader := some 1, stderrCh := 1 }

/-! ## main.go: segment selection -/

/-- The struct `whisper.Segment`; a `time.Duration` is a count of nanoseconds. -/
structure Segment where
  Text : String
  Start : Int
  End : Int
  deriving DecidableEq, Repr

/-- The method `Duration.Microseconds`: integer division by 1000, truncated toward zero. -/
def Microseconds (d : Int) : Int := Int.tdiv d 1000

/-- The built-in `append` with one element: the result is never nil. -/
def goAppend {α : Type} (s : Option (List α)) (x : α) : Option (List α) :=
  some (s.getD [] ++ [x])

/-- The struct `Whisper` of `main.go`, reduced to the field `GetSegments` reads. -/
structure Whisper where
  segments : List Segment
  deriving DecidableEq, Repr

/-- One iteration of the loop in `GetSegments`. -/
def getSegmentsStep (start stop : Int) (texts : Option (List String)) (seg : Segment) :
    Option (List String) :=
  let segStart := Microseconds seg.Start
  if segStart ≥ start ∧ segStart < stop then goAppend texts seg.Text else texts

/-- The method `Whisper.GetSegments`: `texts` starts as the empty, non-nil slice. -/
def Whisper.GetSegments (w : Whisper) (start stop : Int) : Option (List String) :=
  w.segments.foldl (getSegmentsStep start stop) (some [])

/-- The claim's wording of `GetSegments`: the texts of the segments whose start, in
microseconds, lies in the half-open interval, in their original order. -/
def selectTexts (segs : List Segment) (start stop : Int) : List String :=
  (segs.filter (fun seg => decide (start ≤ Microseconds seg.Start ∧ Microseconds seg.Start < stop))).map
    (fun seg => seg.Text)

/-! ## whisper/whisper.go -/

/-- The struct `Whisper` of package `whisper`. -/
structure whisper.Whisper where
  Model : String
  Quiet : Bool
  Stream : Bool
  deriving DecidableEq, Repr

/-- What the C getters return for one segment: text, and start and end in units of 10 ms. -/
structure CSegment where
  text : String
  t0 : Int
  t1 : Int
  deriving DecidableEq, Repr

/-- The outcomes of the foreign calls of one `Transcribe`, and what goes on in the process
(writes by the library, reads by the drain goroutines) while each call runs. -/
structure Foreign where
  /-- Whether `whisper_init_from_file` returned a non-nil context. -/
  initOk : Bool
  initEvents : List Event
  /-- The two lines that `fmt.Printf` formats when `Quiet` is not set. -/
  systemInfoLine : Bytes
  threadsLine : Bytes
  /-- The value returned by `whisper_full`. -/
  fullRes : Int
  fullEvents : List Event
  countEvents : List Event
  /-- The segments behind `whisper_full_n_segments` and the three getters. -/
  segs : List CSegment
  deriving DecidableEq, Repr

/-- A call on package `fakestdio`. -/
inductive StdioCall
  | New
  | ReadAndRestore
  deriving DecidableEq, Repr

/-- How `Transcribe` ends. -/
inductive Ending
  /-- It returns the segments and a nil error. -/
  | ok (segments : List Segment)
  /-- It returns nil segments and an error. -/
  | fail (err : GoError)
  /-- A run-time panic: `&samples[0]` on an empty slice, or a method call on a nil
  `stdio`. -/
  | panicked
  /-- The call of `ReadAndRestore` does not return. -/
  | hung
  deriving DecidableEq, Repr

/-- One run of `Transcribe`: the process it leaves, the calls it made on `fakestdio` in
order, the session variable `stdio` at the end, and how it ended. -/
structure TranscribeRun where
  world : World
  calls : List StdioCall
  stdio : Option FakeStdOutErr
  ending : Ending
  deriving DecidableEq, Repr

/-- Arithmetic of `int64`: the value wraps. -/
def wrap64 (x : Int) : Int := (x + 2 ^ 63) % 2 ^ 64 - 2 ^ 63

/-- The expression `time.Duration(t) * time.Millisecond * 10`. -/
def tenMs (t : Int) : Int := wrap64 (wrap64 (t * 1000000) * 10)

/-- The loop that builds the segments from the C getters. -/
def buildSegments (segs : List CSegment) : List Segment :=
  segs.map (fun s => { Text := s.text, Start := tenMs s.t0, End := tenMs s.t1 })

/-- The part of `Transcribe` from the call of `whisper_full_n_segments` on (lines 86-107). -/
def transcribeTail (b : whisper.Whisper) (w : World) (calls : List StdioCall)
    (stdio : Option FakeStdOutErr) (rf : RestoreFaults) (c : Foreign) : TranscribeRun :=
  let w1 := run w c.countEvents
  match b.Quiet, stdio with
  | true, some sf =>
    match ReadAndRestore w1 sf rf with
    | none => { world := w1, calls := calls ++ [.ReadAndRestore], stdio := some sf,
                ending := .hung }
    | some r =>
      match r.err with
      | some err => { world := r.world, calls := calls ++ [.ReadAndRestore], stdio := some r.sf,
                      ending := .fail err }
      | none => { world := r.world, calls := calls ++ [.ReadAndRestore], stdio := some r.sf,
                  ending := .ok (buildSegments c.segs) }
  | true, none =>
    { world := w1, calls := calls ++ [.ReadAndRestore], stdio := none, ending := .panicked }
  | false, _ => { world := w1, calls := calls, stdio := stdio, ending := .ok (buildSegments c.segs) }

/-- The part of `Transcribe` from the call of `whisper_init_from_file` on (lines 55-107),
with `stdio` as the first part left it. -/
def transcribeBody (b : whisper.Whisper) (nSamples : Nat) (w : World) (calls : List StdioCall)
    (stdio : Option FakeStdOutErr) (rf : RestoreFaults) (c : Foreign) : TranscribeRun :=
  let w1 := run w c.initEvents
  if c.initOk = false then
    { world := w1, calls := calls, stdio := stdio,
      ending := .fail (.errorf "unable to init context") }
  else
    let w2 := if b.Quiet = false
      then run w1 [.write stdoutFd c.systemInfoLine, .write stdoutFd c.threadsLine]
      else w1
    if nSamples = 0 then
      { world := w2, calls := calls, stdio := stdio, ending := .panicked }
    else
      let w3 := run w2 c.fullEvents
      if c.fullRes ≠ 0 then
        { world := w3, calls := calls, stdio := stdio,
          ending := .fail (.errorf ("Failure to convert, code " ++ toString c.fullRes)) }
      else transcribeTail b w3 calls stdio rf c

/-- The method `(*Whisper).Transcribe` on `nSamples` samples, in process `w`, with the given
outcomes of the system calls and of the foreign calls. -/
def whisper.Whisper.Transcribe (b : whisper.Whisper) (nSamples : Nat) (w : World)
    (nf : NewFaults) (rf : RestoreFaults) (c : Foreign) : TranscribeRun :=
  if b.Quiet = true then
    match New w nf with
    | (w1, .error err) => { world := w1, calls := [.New], stdio := none, ending := .fail err }
    | (w1, .ok sf) => transcribeBody b nSamples w1 [.New] (some sf) rf c
  else transcribeBody b nSamples w [] none rf c

/-- Outcomes of the foreign calls in which `whisper_init_from_file` returns nil. -/
def initFails : Foreign :=
  { initOk := false, initEvents := [], systemInfoLine := [], threadsLine := [], fullRes := 0,
    fullEvents := [], countEvents := [], segs := [] }

/-- Outcomes of the foreign calls in which `whisper_full` returns 1. -/
def fullFails : Foreign :=
  { initOk := true, initEvents := [], systemInfoLine := [], threadsLine := [], fullRes := 1,
    fullEvents := [], countEvents := [], segs := [] }

/-- Outcomes of the foreign calls in which every call succeeds and there is one segment. -/
def allGood : Foreign :=
  { initOk := true, initEvents := [], systemInfoLine := [], threadsLine := [], fullRes := 0,
    fullEvents := [], countEvents := [], segs := [⟨"hi", 0, 150⟩] }

/-! ## Theorems -/

/-! ### Descriptor table lemmas -/

theorem lookup_nil (x : Nat) : lookup [] x = none := by
  cases x <;> rfl

theorem lookup_setFd (t : FdTable) (fd x : Nat) (v : Option Target) :
    lookup (setFd t fd v) x = if x = fd then v else lookup t x := by
  induction fd generalizing t x with
  | zero =>
    cases t <;> cases x <;> simp [setFd, lookup, lookup_nil]
  | succ n ih =>
    cases t <;> cases x <;> simp [setFd, lookup, lookup_nil, ih]

theorem lookup_lowestFree (t : FdTable) : lookup t (lowestFree t) = none := by
  induction t with
  | nil => rfl
  | cons a rest ih =>
    cases a with
    | none => rfl
    | some v => simpa [lowestFree, lookup] using ih

theorem lowestFree_ne (t : FdTable) (x : Nat) (v : Target) (h : lookup t x = some v) :
    lowestFree t ≠ x := by
  intro hx
  rw [← hx, lookup_lowestFree] at h
  exact Option.noConfusion h

theorem mem_openFdsFrom (base : Nat) (t : FdTable) (x : Nat) :
    x ∈ openFdsFrom base t ↔ base ≤ x ∧ lookup t (x - base) ≠ none := by
  induction t generalizing base with
  | nil => simp [openFdsFrom, lookup_nil]
  | cons a rest ih =>
    cases a with
    | none =>
      simp only [openFdsFrom, ih]
      constructor
      · rintro ⟨h1, h2⟩
        refine ⟨by omega, ?_⟩
        have : x - base = (x - (base + 1)) + 1 := by omega
        rw [this]
        simpa [lookup] using h2
      · rintro ⟨h1, h2⟩
        rcases Nat.eq_or_lt_of_le h1 with h | h
        · subst h
          simp [lookup] at h2
        · have : x - base = (x - (base + 1)) + 1 := by omega
          rw [this] at h2
          exact ⟨by omega, by simpa [lookup] using h2⟩
    | some v =>
      simp only [openFdsFrom, List.mem_cons, ih]
      constructor
      · rintro (h | ⟨h1, h2⟩)
        · subst h
          simp [lookup]
        · refine ⟨by omega, ?_⟩
          have : x - base = (x - (base + 1)) + 1 := by omega
          rw [this]
          simpa [lookup] using h2
      · rintro ⟨h1, h2⟩
        rcases Nat.eq_or_lt_of_le h1 with h | h
        · exact Or.inl h.symm
        · right
          have : x - base = (x - (base + 1)) + 1 := by omega
          rw [this] at h2
          exact ⟨by omega, by simpa [lookup] using h2⟩

theorem mem_openFds (t : FdTable) (x : Nat) : x ∈ openFds t ↔ lookup t x ≠ none := by
  simp [openFds, mem_openFdsFrom]

theorem lookup_mem (t : FdTable) (x : Nat) (v : Target) (h : lookup t x = some v) :
    some v ∈ t := by
  induction t generalizing x with
  | nil => simp [lookup_nil] at h
  | cons a rest ih =>
    cases x with
    | zero =>
      simp only [lookup] at h
      simp [h]
    | succ n =>
      simp only [lookup] at h
      exact List.mem_cons_of_mem _ (ih n h)

/-! ### System calls whose error is dropped -/

theorem lookup_ignoreErr_close (os : OS) (fd x : Nat) (fault : Option Errno) :
    lookup (ignoreErr os (sysClose os fd fault)).fds x =
      if fault = none ∧ x = fd then none else lookup os.fds x := by
  cases fault with
  | some e => simp [sysClose, ignoreErr]
  | none =>
    cases h : lookup os.fds fd with
    | none =>
      by_cases hx : x = fd
      · subst hx
        simp [sysClose, ignoreErr, h]
      · simp [sysClose, ignoreErr, h, hx]
    | some v => simp [sysClose, ignoreErr, h, lookup_setFd]

theorem pipes_ignoreErr_close (os : OS) (fd : Nat) (fault : Option Errno) :
    (ignoreErr os (sysClose os fd fault)).pipes = os.pipes := by
  cases fault with
  | some e => simp [sysClose, ignoreErr]
  | none => cases h : lookup os.fds fd <;> simp [sysClose, ignoreErr, h]

theorem lookup_ignoreErr_dup2 (os : OS) (old new x : Nat) (fault : Option Errno) :
    lookup (ignoreErr os (sysDup2 os old new fault)).fds x =
      if fault = none ∧ x = new ∧ lookup os.fds old ≠ none then lookup os.fds old
      else lookup os.fds x := by
  cases fault with
  | some e => simp [sysDup2, ignoreErr]
  | none =>
    cases h : lookup os.fds old with
    | none => simp [sysDup2, ignoreErr, h]
    | some v => simp [sysDup2, ignoreErr, h, lookup_setFd]

theorem pipes_ignoreErr_dup2 (os : OS) (old new : Nat) (fault : Option Errno) :
    (ignoreErr os (sysDup2 os old new fault)).pipes = os.pipes := by
  cases fault with
  | some e => simp [sysDup2, ignoreErr]
  | none => cases h : lookup os.fds old <;> simp [sysDup2, ignoreErr, h]

theorem fds_ignoreErr_close (os : OS) (fd : Nat) (fault : Option Errno) :
    (ignoreErr os (sysClose os fd fault)).fds = closeFds os.fds fd fault := by
  cases fault with
  | some e => rfl
  | none => cases h : lookup os.fds fd <;> simp [sysClose, ignoreErr, closeFds, h]

theorem fds_ignoreErr_dup2 (os : OS) (old new : Nat) (fault : Option Errno) :
    (ignoreErr os (sysDup2 os old new fault)).fds = dup2Fds os.fds old new fault := by
  cases fault with
  | some e => rfl
  | none => cases h : lookup os.fds old <;> simp [sysDup2, ignoreErr, dup2Fds, h]

theorem lookup_closeFds (t : FdTable) (fd x : Nat) (fault : Option Errno) :
    lookup (closeFds t fd fault) x = if fault = none ∧ x = fd then none else lookup t x := by
  have h := lookup_ignoreErr_close ⟨t, []⟩ fd x fault
  rw [fds_ignoreErr_close] at h
  exact h

theorem lookup_dup2Fds (t : FdTable) (old new x : Nat) (fault : Option Errno) :
    lookup (dup2Fds t old new fault) x =
      if fault = none ∧ x = new ∧ lookup t old ≠ none then lookup t old else lookup t x := by
  have h := lookup_ignoreErr_dup2 ⟨t, []⟩ old new x fault
  rw [fds_ignoreErr_dup2] at h
  exact h

/-! ### The drain loop -/

theorem readFrom_eq_some (acc : Bytes) (reads : List ReadResult) (b : Bytes)
    (e : Option GoError) (h : readFrom acc reads = some (b, e)) : b = acc ++ dataOf reads := by
  induction reads generalizing acc with
  | nil => simp [readFrom] at h
  | cons r rest ih =>
    cases r with
    | data c =>
      simp only [readFrom] at h
      rw [ih _ h]
      simp [dataOf]
    | eof =>
      simp only [readFrom, Option.some.injEq, Prod.mk.injEq] at h
      simp [dataOf, h.1]
    | err x =>
      simp only [readFrom, Option.some.injEq, Prod.mk.injEq] at h
      simp [dataOf, h.1]

theorem readFrom_append_of_some (acc : Bytes) (reads more : List ReadResult)
    (r : Bytes × Option GoError) (h : readFrom acc reads = some r) :
    readFrom acc (reads ++ more) = some r := by
  induction reads generalizing acc with
  | nil => simp [readFrom] at h
  | cons x rest ih =>
    cases x with
    | data c =>
      simp only [readFrom] at h
      simpa [readFrom] using ih _ h
    | eof => simpa [readFrom] using h
    | err e => simpa [readFrom] using h

theorem readFrom_append_err_of_none (acc : Bytes) (reads : List ReadResult) (e : GoError)
    (h : readFrom acc reads = none) :
    readFrom acc (reads ++ [.err e]) = some (acc ++ dataOf reads, some e) := by
  induction reads generalizing acc with
  | nil => simp [readFrom, dataOf]
  | cons x rest ih =>
    cases x with
    | data c =>
      simp only [readFrom] at h
      simp [readFrom, dataOf, ih _ h]
    | eof => simp [readFrom] at h
    | err x => simp [readFrom] at h

theorem dataOf_append_of_none (acc : Bytes) (reads more : List ReadResult)
    (h : readFrom acc reads = none) : dataOf (reads ++ more) = dataOf reads ++ dataOf more := by
  induction reads generalizing acc with
  | nil => simp [dataOf]
  | cons x rest ih =>
    cases x with
    | data c =>
      simp only [readFrom] at h
      simp [dataOf, ih _ h]
    | eof => simp [readFrom] at h
    | err x => simp [readFrom] at h

theorem dataOf_append_of_some (acc : Bytes) (reads more : List ReadResult)
    (r : Bytes × Option GoError) (h : readFrom acc reads = some r) :
    dataOf (reads ++ more) = dataOf reads := by
  induction reads generalizing acc with
  | nil => simp [readFrom] at h
  | cons x rest ih =>
    cases x with
    | data c =>
      simp only [readFrom] at h
      simp [dataOf, ih _ h]
    | eof => simp [dataOf]
    | err x => simp [dataOf]

theorem dataOf_chunks (chunks : List Bytes) (rest : List ReadResult) :
    dataOf (chunks.map ReadResult.data ++ rest) = chunks.flatten ++ dataOf rest := by
  induction chunks with
  | nil => simp
  | cons c cs ih => simp [dataOf, ih]

theorem readFrom_chunks (acc : Bytes) (chunks : List Bytes) (rest : List ReadResult) :
    readFrom acc (chunks.map ReadResult.data ++ rest) = readFrom (acc ++ chunks.flatten) rest := by
  induction chunks generalizing acc with
  | nil => simp
  | cons c cs ih => simp [readFrom, ih]

theorem drain_eq_some (reads : List ReadResult) (d : Delivery) (h : drain reads = some d) :
    d.sent = dataOf reads := by
  unfold drain at h
  cases hr : readFrom [] reads with
  | none => simp [hr] at h
  | some r =>
    obtain ⟨b, e⟩ := r
    simp only [hr, Option.some.injEq] at h
    rw [← h]
    simpa using readFrom_eq_some [] reads b e hr

theorem drain_finish (t : Task) :
    ∃ e, drain t.finish.reads = some ⟨dataOf t.reads, e⟩ := by
  cases hr : readFrom [] t.reads with
  | none =>
    have hd : drain t.reads = none := by simp [drain, hr]
    have hf : t.finish = { t with reads := t.reads ++ [.err .closed] } := by
      simp [Task.finish, hd]
    refine ⟨some .closed, ?_⟩
    rw [hf]
    simp [drain, readFrom_append_err_of_none [] t.reads .closed hr]
  | some r =>
    obtain ⟨b, e⟩ := r
    have hd : drain t.reads = some ⟨b, e⟩ := by simp [drain, hr]
    have hf : t.finish = t := by simp [Task.finish, hd]
    have hb := readFrom_eq_some [] t.reads b e hr
    simp only [List.nil_append] at hb
    refine ⟨e, ?_⟩
    rw [hf, hd, hb]

theorem step_of_closed (os : OS) (t : Task) (fault : Option Errno) (hc : t.closed = true) :
    t.step os fault = (os, t.finish) := by
  unfold Task.step Task.finish
  by_cases h : (drain t.reads).isSome
  · simp [h]
  · simp [h, hc]

theorem finish_of_isSome (t : Task) (h : (drain t.reads).isSome = true) : t.finish = t := by
  simp [Task.finish, h]

theorem finish_finish (t : Task) : t.finish.finish = t.finish := by
  obtain ⟨e, h⟩ := drain_finish t
  exact finish_of_isSome t.finish (by simp [h])

theorem finish_closed (t : Task) : t.finish.closed = t.closed := by
  unfold Task.finish
  split <;> rfl

theorem finish_fd (t : Task) : t.finish.fd = t.fd := by
  unfold Task.finish
  split <;> rfl

theorem dataOf_finish (t : Task) : dataOf t.finish.reads = dataOf t.reads := by
  obtain ⟨e, h⟩ := drain_finish t
  exact (drain_eq_some _ _ h).symm

/-! ### Events leave the descriptor table alone -/

theorem sysRead_fds (os : OS) (fd : Nat) : (sysRead os fd).1.fds = os.fds := by
  unfold sysRead
  split
  · split
    · split <;> rfl
    · rfl
  · rfl
  · rfl

theorem step_fds (os : OS) (t : Task) (fault : Option Errno) :
    (t.step os fault).1.fds = os.fds := by
  unfold Task.step
  split
  · rfl
  · split
    · rfl
    · split
      · rfl
      · have h := sysRead_fds os t.fd
        split <;> rename_i heq <;> rw [heq] at h <;> exact h

theorem step_task (os : OS) (t : Task) (fault : Option Errno) :
    (t.step os fault).2.fd = t.fd ∧ (t.step os fault).2.closed = t.closed := by
  unfold Task.step
  split
  · exact ⟨rfl, rfl⟩
  · split
    · exact ⟨rfl, rfl⟩
    · split
      · exact ⟨rfl, rfl⟩
      · split <;> exact ⟨rfl, rfl⟩

theorem sysWrite_fds (os os1 : OS) (fd : Nat) (b : Bytes) (h : sysWrite os fd b = .ok os1) :
    os1.fds = os.fds := by
  unfold sysWrite at h
  split at h
  · split at h
    · simp only [Except.ok.injEq] at h
      rw [← h]
    · simp at h
  · simp only [Except.ok.injEq] at h
    rw [← h]
  · simp at h

theorem write_fds (w : World) (fd : Nat) (b : Bytes) :
    (World.write w fd b).os.fds = w.os.fds := by
  unfold World.write
  cases hs : sysWrite w.os fd b with
  | error e =>
    simp only
    split <;> rfl
  | ok os1 => exact sysWrite_fds _ _ _ _ hs

theorem write_tasks (w : World) (fd : Nat) (b : Bytes) :
    (World.write w fd b).tasks = w.tasks := by
  unfold World.write
  cases hs : sysWrite w.os fd b with
  | error e =>
    simp only
    split <;> rfl
  | ok os1 => rfl

theorem write_of_closed (w : World) (fd : Nat) (b : Bytes) (h : lookup w.os.fds fd = none) :
    World.write w fd b = w := by
  unfold World.write
  simp [sysWrite, h]

theorem logNow_fds (w : World) (i : Nat) (line : Bytes) :
    (w.logNow i line).os.fds = w.os.fds := by
  unfold World.logNow
  split
  · rfl
  · split
    · rw [write_fds]
    · rfl

theorem logNow_task (w : World) (i : Nat) (line : Bytes) (j : Nat) (t : Task)
    (h : w.tasks[j]? = some t) :
    ∃ t1, (w.logNow i line).tasks[j]? = some t1 ∧ t1.fd = t.fd ∧ t1.closed = t.closed ∧
      t1.reads = t.reads := by
  have hlen : j < w.tasks.length := by
    rcases List.getElem?_eq_some.1 h with ⟨h, _⟩
    exact h
  unfold World.logNow
  cases hi : w.tasks[i]? with
  | none => exact ⟨t, h, rfl, rfl, rfl⟩
  | some u =>
    simp only
    split
    · rw [write_tasks]
      by_cases hij : i = j
      · subst hij
        rw [h] at hi
        cases hi
        exact ⟨{ t with logged := true }, by simp [List.getElem?_set, hlen], rfl, rfl, rfl⟩
      · exact ⟨t, by simp [List.getElem?_set, hij, h], rfl, rfl, rfl⟩
    · exact ⟨t, h, rfl, rfl, rfl⟩

theorem logNow_of_closed (w : World) (i : Nat) (line : Bytes)
    (h2 : lookup w.os.fds stderrFd = none) :
    (w.logNow i line).os = w.os ∧ (w.logNow i line).killed = w.killed := by
  unfold World.logNow
  split
  · exact ⟨rfl, rfl⟩
  · rename_i t _
    split
    · have hw := write_of_closed
        { w with tasks := w.tasks.set i { t with logged := true } } stderrFd line h2
      rw [hw]
      exact ⟨rfl, rfl⟩
    · exact ⟨rfl, rfl⟩

theorem apply_fds (w : World) (ev : Event) : (Event.apply w ev).os.fds = w.os.fds := by
  unfold Event.apply
  split
  · rfl
  · cases ev with
    | write fd b => exact write_fds _ _ _
    | read i fault =>
      simp only
      cases hi : w.tasks[i]? with
      | none => rfl
      | some t => exact step_fds _ _ _
    | log i line => exact logNow_fds _ _ _

theorem apply_task (w : World) (ev : Event) (i : Nat) (t : Task) (h : w.tasks[i]? = some t) :
    ∃ t1, (Event.apply w ev).tasks[i]? = some t1 ∧ t1.fd = t.fd ∧ t1.closed = t.closed := by
  have hlen : i < w.tasks.length := by
    rcases List.getElem?_eq_some.1 h with ⟨h, _⟩
    exact h
  unfold Event.apply
  split
  · exact ⟨t, h, rfl, rfl⟩
  · cases ev with
    | write fd b =>
      refine ⟨t, ?_, rfl, rfl⟩
      simp only [write_tasks]
      exact h
    | read j fault =>
      simp only
      cases hj : w.tasks[j]? with
      | none => exact ⟨t, h, rfl, rfl⟩
      | some u =>
        by_cases hij : j = i
        · subst hij
          rw [h] at hj
          cases hj
          exact ⟨(Task.step w.os t fault).2, by simp [List.getElem?_set, hlen],
            (step_task _ _ _).1, (step_task _ _ _).2⟩
        · exact ⟨t, by simp [List.getElem?_set, hij, h], rfl, rfl⟩
    | log j line =>
      obtain ⟨t1, h1, hf, hc, -⟩ := logNow_task w j line i t h
      exact ⟨t1, h1, hf, hc⟩

theorem run_fds (w : World) (evs : List Event) : (run w evs).os.fds = w.os.fds := by
  induction evs generalizing w with
  | nil => rfl
  | cons ev rest ih =>
    show (run (Event.apply w ev) rest).os.fds = w.os.fds
    rw [ih, apply_fds]

theorem run_task (w : World) (evs : List Event) (i : Nat) (t : Task)
    (h : w.tasks[i]? = some t) :
    ∃ t1, (run w evs).tasks[i]? = some t1 ∧ t1.fd = t.fd ∧ t1.closed = t.closed := by
  induction evs generalizing w t with
  | nil => exact ⟨t, h, rfl, rfl⟩
  | cons ev rest ih =>
    obtain ⟨t1, h1, hf, hc⟩ := apply_task w ev i t h
    obtain ⟨t2, h2, hf2, hc2⟩ := ih (Event.apply w ev) t1 h1
    exact ⟨t2, h2, by rw [hf2, hf], by rw [hc2, hc]⟩

theorem apply_of_killed (w : World) (ev : Event) (h : w.killed = true) :
    Event.apply w ev = w := by
  unfold Event.apply
  simp [h]

theorem run_of_killed (w : World) (evs : List Event) (h : w.killed = true) :
    run w evs = w := by
  induction evs with
  | nil => rfl
  | cons ev rest ih =>
    show run (Event.apply w ev) rest = w
    rw [apply_of_killed w ev h, ih]

theorem run_nil (w : World) : run w [] = w := rfl

/-! ### Closing the readers and receiving -/

theorem fileClose_tasks (w : World) (r : Nat) (fault : Option Errno) (t : Task)
    (ht : w.tasks[r]? = some t) (i : Nat) :
    (fileClose w r fault).1.tasks[i]? =
      if i = r then some { t with closed := true } else w.tasks[i]? := by
  have hlen : r < w.tasks.length := by
    rcases List.getElem?_eq_some.1 ht with ⟨h, _⟩
    exact h
  unfold fileClose
  simp only [ht]
  by_cases hc : t.closed = true
  · simp only [hc, if_true]
    by_cases hi : i = r
    · subst hi
      simp only [if_true, ht, Option.some.injEq]
      cases t
      simp_all
    · simp [hi]
  · simp only [hc]
    cases sysClose w.os t.fd fault <;>
    · by_cases hi : i = r
      · subst hi
        simp [List.getElem?_set, hlen]
      · have hne : r ≠ i := fun h => hi h.symm
        simp [List.getElem?_set, hi, hne]

theorem fileClose_os (w : World) (r : Nat) (fault : Option Errno) (t : Task)
    (ht : w.tasks[r]? = some t) :
    (fileClose w r fault).1.os =
      if t.closed = true then w.os else ignoreErr w.os (sysClose w.os t.fd fault) := by
  unfold fileClose
  simp only [ht]
  by_cases hc : t.closed = true
  · simp [hc]
  · simp only [hc]
    cases sysClose w.os t.fd fault <;> simp [ignoreErr]

theorem fileClose_killed (w : World) (r : Nat) (fault : Option Errno) :
    (fileClose w r fault).1.killed = w.killed := by
  unfold fileClose
  split
  · rfl
  · split
    · rfl
    · simp only
      split <;> rfl

theorem fileClose_fds (w : World) (r : Nat) (fault : Option Errno) (t : Task)
    (ht : w.tasks[r]? = some t) (hc : t.closed = false) :
    (fileClose w r fault).1.os.fds = closeFds w.os.fds t.fd fault := by
  rw [fileClose_os w r fault t ht]
  simp [hc, fds_ignoreErr_close]

theorem closedWith_fileClose_self (w : World) (r : Nat) (fault : Option Errno) (t : Task)
    (ht : w.tasks[r]? = some t) :
    ClosedWith (fileClose w r fault).1.tasks r (dataOf t.reads) :=
  ⟨{ t with closed := true }, by simp [fileClose_tasks w r fault t ht], rfl, rfl⟩

theorem closedWith_fileClose (w : World) (r : Nat) (fault : Option Errno) (t : Task)
    (ht : w.tasks[r]? = some t) (c : Nat) (D : Bytes) (h : ClosedWith w.tasks c D) :
    ClosedWith (fileClose w r fault).1.tasks c D := by
  obtain ⟨u, hu, hc, hd⟩ := h
  by_cases hcr : c = r
  · subst hcr
    rw [ht] at hu
    cases hu
    exact ⟨{ t with closed := true }, by simp [fileClose_tasks w c fault t ht], rfl, hd⟩
  · exact ⟨u, by simp [fileClose_tasks w r fault t ht, hcr, hu], hc, hd⟩

/-- A receive leaves the descriptor table as it is, and returns only in a live process. -/
theorem recv_fds (w w1 : World) (ch : Nat) (line b : Bytes)
    (h : recv w ch line = some (w1, b)) : w1.os.fds = w.os.fds ∧ w1.killed = false := by
  unfold recv at h
  split at h
  · cases h
  · rename_i t ht
    simp only at h
    split at h
    · rename_i d hd
      split at h
      · cases h
      · rename_i hk
        simp only [Option.some.injEq, Prod.mk.injEq] at h
        rw [← h.1]
        refine ⟨?_, by simpa using hk⟩
        rw [logNow_fds]
        simp only [step_fds]
    · cases h

/-- The receive from a goroutine whose file is closed, while descriptor 2 is closed: the
goroutine's next `Read` fails, its log line goes nowhere, and it sends what it had read. -/
theorem recv_of_closedWith (w : World) (ch : Nat) (D line : Bytes) (hk : w.killed = false)
    (h2 : lookup w.os.fds stderrFd = none) (h : ClosedWith w.tasks ch D) :
    ∃ w1, recv w ch line = some (w1, D) ∧ w1.os = w.os ∧ w1.killed = false ∧
      ∀ c E, ClosedWith w.tasks c E → ClosedWith w1.tasks c E := by
  obtain ⟨u, hu, hc, hd⟩ := h
  have hlen : ch < w.tasks.length := by
    rcases List.getElem?_eq_some.1 hu with ⟨h, _⟩
    exact h
  have hc2 : u.finish.closed = true := by rw [finish_closed, hc]
  obtain ⟨e, he⟩ := drain_finish u
  have hW := logNow_of_closed { w with os := w.os, tasks := w.tasks.set ch u.finish } ch line h2
  refine ⟨World.logNow { w with os := w.os, tasks := w.tasks.set ch u.finish } ch line,
    ?_, hW.1, by rw [hW.2]; exact hk, ?_⟩
  · unfold recv
    simp only [hu, step_of_closed _ u _ hc, step_of_closed _ u.finish _ hc2, finish_finish, he]
    rw [hW.2]
    simp [hk, hd]
  · rintro c E ⟨v, hv, hvc, hvd⟩
    have hset : ClosedWith (w.tasks.set ch u.finish) c E := by
      by_cases hcc : c = ch
      · subst hcc
        rw [hu] at hv
        cases hv
        exact ⟨u.finish, by simp [List.getElem?_set, hlen], by rw [finish_closed, hc],
          by rw [dataOf_finish, hvd]⟩
      · have hne : ch ≠ c := fun h => hcc h.symm
        exact ⟨v, by simp [List.getElem?_set, hne, hv], hvc, hvd⟩
    obtain ⟨v1, hv1, hvc1, hvd1⟩ := hset
    obtain ⟨v2, hv2, -, hc3, hr3⟩ :=
      logNow_task { w with os := w.os, tasks := w.tasks.set ch u.finish } ch line c v1 hv1
    exact ⟨v2, hv2, by rw [hc3, hvc1], by rw [hr3, hvd1]⟩

/-- The two halves of `ReadAndRestore` when both readers are set. -/
theorem ReadAndRestore_split (w : World) (sf : FakeStdOutErr) (f : RestoreFaults)
    (r1 r2 : Nat) (h1 : sf.stdoutReader = some r1) (h2 : sf.stderrReader = some r2) :
    ReadAndRestore w sf f =
      receiveAndRestore (closeAll w r1 r2 f)
        { sf with stdoutReader := none, stderrReader := none } f := by
  unfold ReadAndRestore receiveAndRestore closeAll
  simp only [h1, h2]

/-- When the second half of `ReadAndRestore` returns, the error is nil and the descriptor
table is the one the four restoring calls make of the table at the first receive. -/
theorem receiveAndRestore_fds (w4 : World) (sf : FakeStdOutErr) (f : RestoreFaults) (r : Ret)
    (h : receiveAndRestore w4 sf f = some r) :
    r.err = none ∧ r.sf = sf ∧ (∃ b1 b2, r.stdout = some b1 ∧ r.stderr = some b2) ∧
    r.world.killed = false ∧
    r.world.os.fds =
      closeFds (dup2Fds (closeFds (dup2Fds w4.os.fds sf.origStdout stdoutFd f.dup2Out)
        sf.origStdout f.closeOrigOut) sf.origStderr stderrFd f.dup2Err)
        sf.origStderr f.closeOrigErr := by
  unfold receiveAndRestore at h
  split at h
  · cases h
  · split at h
    · cases h
    · rename_i w5 b1 h5
      split at h
      · cases h
      · rename_i w6 b2 h6
        simp only [Option.some.injEq] at h
        rw [← h]
        have e5 := recv_fds _ _ _ _ _ h5
        have e6 := recv_fds _ _ _ _ _ h6
        refine ⟨rfl, rfl, ⟨b1, b2, rfl, rfl⟩, e6.2, ?_⟩
        simp only [fds_ignoreErr_close, fds_ignoreErr_dup2, e6.1, e5.1]

/-- The second half of `ReadAndRestore` on two goroutines whose files are closed, while
descriptor 2 is closed: it returns what they had read, with a nil error. -/
theorem receiveAndRestore_closed (w4 : World) (sf : FakeStdOutErr) (f : RestoreFaults)
    (D1 D2 : Bytes) (hk : w4.killed = false) (h2 : lookup w4.os.fds stderrFd = none)
    (hA : ClosedWith w4.tasks sf.stdoutCh D1) (hB : ClosedWith w4.tasks sf.stderrCh D2) :
    ∃ r, receiveAndRestore w4 sf f = some r ∧ r.err = none ∧
      r.stdout = some D1 ∧ r.stderr = some D2 ∧ r.sf = sf := by
  obtain ⟨w5, h5, o5, k5, p5⟩ := recv_of_closedWith w4 sf.stdoutCh D1 f.logLine hk h2 hA
  obtain ⟨w6, h6, o6, k6, p6⟩ := recv_of_closedWith w5 sf.stderrCh D2 f.logLine k5
    (by rw [o5]; exact h2) (p5 _ _ hB)
  have key : ∃ wz, receiveAndRestore w4 sf f = some ⟨wz, sf, some D1, some D2, none⟩ := by
    unfold receiveAndRestore
    simp only [hk, Bool.false_eq_true, if_false, h5, h6]
    exact ⟨_, rfl⟩
  obtain ⟨wz, key⟩ := key
  exact ⟨_, key, rfl, rfl, rfl, rfl⟩

/-- The first half of `ReadAndRestore` under a plan that lets the goroutines run only at the
receives. -/
theorem closeAll_atReceive (w : World) (r1 r2 : Nat) (f : RestoreFaults)
    (hs : f.atReceive) :
    (closeAll w r1 r2 f).tasks
      = (fileClose (fileClose w r1 f.closeOutReader).1 r2 f.closeErrReader).1.tasks ∧
    (closeAll w r1 r2 f).killed = w.killed ∧
    lookup (closeAll w r1 r2 f).os.fds stderrFd = none := by
  obtain ⟨s0, s1, s2, s3, c4⟩ := hs
  unfold closeAll
  rw [s0, s1, s2, s3, c4]
  refine ⟨?_, ?_, ?_⟩
  · rfl
  · show (fileClose (fileClose w r1 f.closeOutReader).1 r2 f.closeErrReader).1.killed = _
    rw [fileClose_killed, fileClose_killed]
  · simp only [run_nil, lookup_ignoreErr_close]
    simp

/-- The descriptor table at the first receive of `ReadAndRestore`. -/
theorem closeAll_fds (w : World) (r1 r2 : Nat) (f : RestoreFaults) (t1 t2 : Task)
    (ht1 : w.tasks[r1]? = some t1) (ht2 : w.tasks[r2]? = some t2)
    (hc1 : t1.closed = false) (hc2 : t2.closed = false) (hne : r2 ≠ r1) :
    (closeAll w r1 r2 f).os.fds =
      closeFds (closeFds (closeFds (closeFds w.os.fds t1.fd f.closeOutReader) t2.fd
        f.closeErrReader) stdoutFd f.closeStdout) stderrFd f.closeStderr := by
  have k1 := fileClose_fds w r1 f.closeOutReader t1 ht1 hc1
  have ht2a : (fileClose w r1 f.closeOutReader).1.tasks[r2]? = some t2 := by
    rw [fileClose_tasks w _ _ t1 ht1, if_neg hne, ht2]
  obtain ⟨t2b, ht2b, hf2b, hc2b⟩ := run_task _ f.afterOutClose r2 t2 ht2a
  have k2 := fileClose_fds (run (fileClose w r1 f.closeOutReader).1 f.afterOutClose) r2
    f.closeErrReader t2b ht2b (by rw [hc2b, hc2])
  unfold closeAll
  simp only [run_fds, fds_ignoreErr_close, k2, k1, hf2b]

/-- What `ReadAndRestore` does on a live session under a plan that lets the goroutines run
only at the receives: it returns, with a nil error, what the two goroutines have read so
far. -/
theorem ReadAndRestore_live (w : World) (sf : FakeStdOutErr) (f : RestoreFaults)
    (t1 t2 : Task) (hk : w.killed = false) (hs : f.atReceive)
    (hr1 : sf.stdoutReader = some sf.stdoutCh) (hr2 : sf.stderrReader = some sf.stderrCh)
    (ht1 : w.tasks[sf.stdoutCh]? = some t1) (ht2 : w.tasks[sf.stderrCh]? = some t2) :
    ∃ r, ReadAndRestore w sf f = some r ∧ r.err = none ∧
      r.stdout = some (dataOf t1.reads) ∧ r.stderr = some (dataOf t2.reads) ∧
      r.sf = { sf with stdoutReader := none, stderrReader := none } := by
  have hA1 := closedWith_fileClose_self w sf.stdoutCh f.closeOutReader t1 ht1
  obtain ⟨t2a, ht2a, hd2a⟩ : ∃ t2a,
      (fileClose w sf.stdoutCh f.closeOutReader).1.tasks[sf.stderrCh]? = some t2a ∧
      dataOf t2a.reads = dataOf t2.reads := by
    rw [fileClose_tasks w _ _ t1 ht1]
    by_cases h : sf.stderrCh = sf.stdoutCh
    · rw [h] at ht2
      rw [ht1] at ht2
      cases ht2
      exact ⟨{ t1 with closed := true }, by simp [h], rfl⟩
    · exact ⟨t2, by simp [h, ht2], rfl⟩
  have hB2 := closedWith_fileClose_self _ sf.stderrCh f.closeErrReader t2a ht2a
  rw [hd2a] at hB2
  have hB1 := closedWith_fileClose _ sf.stderrCh f.closeErrReader t2a ht2a _ _ hA1
  obtain ⟨e1, e2, e3⟩ := closeAll_atReceive w sf.stdoutCh sf.stderrCh f hs
  rw [← e1] at hB1 hB2
  rw [ReadAndRestore_split w sf f _ _ hr1 hr2]
  exact receiveAndRestore_closed (closeAll w sf.stdoutCh sf.stderrCh f)
    { sf with stdoutReader := none, stderrReader := none } f _ _ (by rw [e2]; exact hk) e3
    hB1 hB2

/-- When `ReadAndRestore` returns on a session whose two reader files are open and
distinct, its error is nil and the descriptor table is the one its eight system calls make
of the table it was called on, whatever the goroutines did in between. -/
theorem ReadAndRestore_fds (w : World) (sf : FakeStdOutErr) (f : RestoreFaults)
    (t1 t2 : Task) (r1 r2 : Nat) (r : Ret)
    (hr1 : sf.stdoutReader = some r1) (hr2 : sf.stderrReader = some r2)
    (ht1 : w.tasks[r1]? = some t1) (ht2 : w.tasks[r2]? = some t2)
    (hc1 : t1.closed = false) (hc2 : t2.closed = false) (hne : r2 ≠ r1)
    (hret : ReadAndRestore w sf f = some r) :
    r.err = none ∧ r.sf = { sf with stdoutReader := none, stderrReader := none } ∧
    r.world.killed = false ∧
    r.world.os.fds = restoreFds w.os.fds t1.fd t2.fd sf f := by
  rw [ReadAndRestore_split w sf f _ _ hr1 hr2] at hret
  obtain ⟨a1, a2, -, a4, a5⟩ := receiveAndRestore_fds _ _ _ _ hret
  refine ⟨a1, a2, a4, ?_⟩
  rw [a5, closeAll_fds w r1 r2 f t1 t2 ht1 ht2 hc1 hc2 hne]
  rfl

/-! ### Concrete runs -/

theorem New_stdWorld : New stdWorld NewFaults.none = (liveWorld, .ok liveSession) := by
  rfl

theorem ReadAndRestore_liveWorld :
    ReadAndRestore liveWorld liveSession RestoreFaults.none = some doneRet := by
  decide

/-! ### Finalization: errors -/

/-- On a session with a nil reader `ReadAndRestore` returns the "closed" error at once. -/
theorem ReadAndRestore_finalized (w : World) (sf : FakeStdOutErr) (f : RestoreFaults)
    (h : sf.stdoutReader = none ∨ sf.stderrReader = none) :
    ReadAndRestore w sf f = some
      { world := w, sf := sf, stdout := none, stderr := none,
        err := some (.errorf "ReadAndRestore from closed FakeStdio") } := by
  unfold ReadAndRestore
  rcases h with h | h
  · simp [h]
  · cases h1 : sf.stdoutReader <;> simp [h]

/-- When `ReadAndRestore` returns, its error is non-nil exactly when a reader was nil at the
time of the call. -/
theorem ReadAndRestore_error_iff (w : World) (sf : FakeStdOutErr) (f : RestoreFaults)
    (r : Ret) (h : ReadAndRestore w sf f = some r) :
    r.err ≠ none ↔ (sf.stdoutReader = none ∨ sf.stderrReader = none) := by
  by_cases hfin : sf.stdoutReader = none ∨ sf.stderrReader = none
  · rw [ReadAndRestore_finalized w sf f hfin] at h
    simp only [Option.some.injEq] at h
    rw [← h]
    simp [hfin]
  · cases h1 : sf.stdoutReader with
    | none => exact absurd (Or.inl h1) hfin
    | some r1 =>
      cases h2 : sf.stderrReader with
      | none => exact absurd (Or.inr h2) hfin
      | some r2 =>
        rw [ReadAndRestore_split w sf f r1 r2 h1 h2] at h
        obtain ⟨a1, -⟩ := receiveAndRestore_fds _ _ _ _ h
        simp [a1]

/-- C3: once `ReadAndRestore` has returned with a nil error, a later `ReadAndRestore` on the
same session, in whatever state the process is by then, returns the "closed" error with nil
buffers and changes neither the session nor the process. -/
theorem C3_second_ReadAndRestore_rejected (w : World) (sf : FakeStdOutErr) (f : RestoreFaults)
    (r : Ret) (h : ReadAndRestore w sf f = some r) (hok : r.err = none)
    (w2 : World) (f2 : RestoreFaults) :
    r.sf.stdoutReader = none ∧ r.sf.stderrReader = none ∧
    ReadAndRestore w2 r.sf f2 = some
      { world := w2, sf := r.sf, stdout := none, stderr := none,
        err := some (.errorf "ReadAndRestore from closed FakeStdio") } := by
  have hnil : r.sf.stdoutReader = none ∧ r.sf.stderrReader = none := by
    by_cases hfin : sf.stdoutReader = none ∨ sf.stderrReader = none
    · exact absurd hok ((ReadAndRestore_error_iff w sf f r h).2 hfin)
    · cases h1 : sf.stdoutReader with
      | none => exact absurd (Or.inl h1) hfin
      | some r1 =>
        cases h2 : sf.stderrReader with
        | none => exact absurd (Or.inr h2) hfin
        | some r2 =>
          rw [ReadAndRestore_split w sf f r1 r2 h1 h2] at h
          obtain ⟨-, a2, -⟩ := receiveAndRestore_fds _ _ _ _ h
          rw [a2]
          exact ⟨rfl, rfl⟩
  exact ⟨hnil.1, hnil.2, ReadAndRestore_finalized w2 r.sf f2 (Or.inl hnil.1)⟩

/-- C3 on the usual table: `New`, `ReadAndRestore`, then `ReadAndRestore` again. -/
theorem C3_second_ReadAndRestore_rejected_witness :
    ReadAndRestore liveWorld liveSession RestoreFaults.none = some doneRet ∧
    doneRet.err = none ∧
    (doneRet.sf.stdoutReader = none ∧ doneRet.sf.stderrReader = none ∧
     ReadAndRestore doneRet.world doneRet.sf RestoreFaults.none = some
      { world := doneRet.world, sf := doneRet.sf, stdout := none, stderr := none,
        err := some (.errorf "ReadAndRestore from closed FakeStdio") }) :=
  ⟨by decide, rfl,
   C3_second_ReadAndRestore_rejected liveWorld liveSession RestoreFaults.none doneRet
     (by decide) rfl doneRet.world RestoreFaults.none⟩

/-- On a session the package can produce, in a live process, and under a plan that lets the
goroutines run only at the receives, `ReadAndRestore` returns, whatever the outcome of its
other system calls. -/
theorem ReadAndRestore_returns_atReceive (w : World) (sf : FakeStdOutErr)
    (f : RestoreFaults) (hp : Paired w sf) (hk : w.killed = false) (hs : f.atReceive) :
    ∃ r, ReadAndRestore w sf f = some r := by
  rcases hp with hp | ⟨hr1, hr2, hl1, hl2⟩
  · exact ⟨_, ReadAndRestore_finalized w sf f hp⟩
  · have ht1 : w.tasks[sf.stdoutCh]? = some w.tasks[sf.stdoutCh] := List.getElem?_eq_getElem hl1
    have ht2 : w.tasks[sf.stderrCh]? = some w.tasks[sf.stderrCh] := List.getElem?_eq_getElem hl2
    obtain ⟨r, h, -⟩ := ReadAndRestore_live w sf f _ _ hk hs hr1 hr2 ht1 ht2
    exact ⟨r, h⟩

/-- The plan of `ReadAndRestore` in which every system call succeeds and the stderr
goroutine, woken by the `Close` of its file (line 120), runs before the foreground closes
descriptor 2 (line 123): its `Read` fails with `os.ErrClosed` and it logs the error
(line 93). -/
def stderrWokenPlan : RestoreFaults :=
  { RestoreFaults.none with afterErrClose := [.read 1 none, .log 1 [108, 111, 103, 10]] }

/-- C4: `New` on descriptors 0, 1, 2 succeeds and returns a session with both readers
non-nil; on it, with every system call succeeding, a `ReadAndRestore` during which the
stderr goroutine is woken by the `Close` of its file before descriptor 2 is closed does not
return at all, with or without an error: the goroutine's `log.Println` writes to descriptor
2, the write end of a pipe whose reader has just been closed, and the process is killed by
SIGPIPE when `ReadAndRestore` has made only its two reader closes. When the goroutines run
only once the foreground waits on the channels, the same call returns a nil error. -/
theorem C4_ReadAndRestore_killed_by_log_write :
    New stdWorld NewFaults.none = (liveWorld, .ok liveSession) ∧
    liveSession.stdoutReader = some 0 ∧ liveSession.stderrReader = some 1 ∧
    (run (fileClose (fileClose liveWorld 0 none).1 1 none).1
      [.read 1 none, .log 1 [108, 111, 103, 10]]).killed = true ∧
    (closeAll liveWorld 0 1 stderrWokenPlan).killed = true ∧
    ReadAndRestore liveWorld liveSession stderrWokenPlan = none ∧
    ReadAndRestore liveWorld liveSession RestoreFaults.none = some doneRet ∧
    doneRet.err = none :=
  ⟨rfl, rfl, rfl, by decide, by decide, by decide, by decide, rfl⟩

/-! ### Drain errors -/

theorem drain_chunks (chunks : List Bytes) (stop : Option GoError) :
    drain (chunks.map ReadResult.data ++ [lastRead stop]) = some ⟨chunks.flatten, stop⟩ := by
  unfold drain
  rw [readFrom_chunks]
  cases stop <;> simp [lastRead, readFrom]

/-- A drain goroutine whose read loop has ended, after a sequence of successful reads, with
end of stream or a read error, before `ReadAndRestore` is called in a live process: under a
plan that lets the goroutines run only at the receives, `ReadAndRestore` returns the
concatenation of the chunks read, with a nil error. -/
theorem ended_loops_deliver (w : World) (sf : FakeStdOutErr) (f : RestoreFaults)
    (t1 t2 : Task) (chunks1 chunks2 : List Bytes) (stop1 stop2 : Option GoError)
    (hk : w.killed = false) (hs : f.atReceive)
    (hr1 : sf.stdoutReader = some sf.stdoutCh) (hr2 : sf.stderrReader = some sf.stderrCh)
    (ht1 : w.tasks[sf.stdoutCh]? = some t1) (ht2 : w.tasks[sf.stderrCh]? = some t2)
    (h1 : t1.reads = chunks1.map ReadResult.data ++ [lastRead stop1])
    (h2 : t2.reads = chunks2.map ReadResult.data ++ [lastRead stop2]) :
    drain t1.reads = some ⟨chunks1.flatten, stop1⟩ ∧
    drain t2.reads = some ⟨chunks2.flatten, stop2⟩ ∧
    ∃ r, ReadAndRestore w sf f = some r ∧ r.err = none ∧
      r.stdout = some chunks1.flatten ∧ r.stderr = some chunks2.flatten := by
  have hd1 : drain t1.reads = some ⟨chunks1.flatten, stop1⟩ := by rw [h1, drain_chunks]
  have hd2 : drain t2.reads = some ⟨chunks2.flatten, stop2⟩ := by rw [h2, drain_chunks]
  obtain ⟨r, h, he, ho, hb, -⟩ := ReadAndRestore_live w sf f t1 t2 hk hs hr1 hr2 ht1 ht2
  refine ⟨hd1, hd2, r, h, he, ?_, ?_⟩
  · rw [ho]
    simp only [Option.some.injEq]
    exact (drain_eq_some _ _ hd1).symm
  · rw [hb]
    simp only [Option.some.injEq]
    exact (drain_eq_some _ _ hd2).symm

/-- The process in which, after `New` on descriptors 0, 1, 2, `[65]` and `[67]` were written
to descriptor 1 and the stdout goroutine has read both chunks. -/
def readWorld : World :=
  run liveWorld [.write 1 [65], .read 0 none, .write 1 [67], .read 0 none]

/-- The plan of `ReadAndRestore` in which every system call succeeds and the stdout
goroutine, woken by the `Close` of its file (line 117), runs after the foreground has closed
the stderr reader (line 120) and before it closes descriptor 2 (line 123): its `Read` fails
with `os.ErrClosed` and it logs the error (line 61). -/
def stdoutWokenPlan : RestoreFaults :=
  { RestoreFaults.none with afterErrClose := [.read 0 none, .log 0 [108, 111, 103, 10]] }

/-- C9: a read loop that ends with a read error after two successful reads, and delivers
nothing. After `New` on descriptors 0, 1, 2 the stdout goroutine reads `[65]` and `[67]`;
`ReadAndRestore` closes its file, so its third `Read` fails with `os.ErrClosed`: the
sequence of reads is two successful reads followed by a read error, for which the buffer to
deliver is `[65, 67]`. Before the send the goroutine logs the error to descriptor 2, the
write end of the stderr pipe, whose reader `ReadAndRestore` has closed by then: the process
is killed by SIGPIPE, no buffer is delivered and `ReadAndRestore` does not return. -/
theorem C9_read_error_prevents_delivery :
    (readWorld.tasks[0]?).map Task.reads = some [.data [65], .data [67]] ∧
    ((closeAll readWorld 0 1 stdoutWokenPlan).tasks[0]?).map Task.reads
      = some [.data [65], .data [67], .err .closed] ∧
    drain [.data [65], .data [67], .err .closed] = some ⟨[65, 67], some .closed⟩ ∧
    (closeAll readWorld 0 1 stdoutWokenPlan).killed = true ∧
    recv (closeAll readWorld 0 1 stdoutWokenPlan) 0 [108, 111, 103, 10] = none ∧
    ReadAndRestore readWorld liveSession stdoutWokenPlan = none :=
  ⟨by decide, by decide, by decide, by decide, by decide, by decide⟩

/-! ### The system calls of `New` -/

theorem osPipe_ok (os os1 : OS) (fault : Option Errno) (r wfd : Nat)
    (h : osPipe os fault = .ok (os1, r, wfd)) :
    fault = none ∧ lookup os.fds r = none ∧ lookup os.fds wfd = none ∧ r ≠ wfd ∧
    os1.pipes = os.pipes ++ [[]] ∧
    ∀ x, lookup os1.fds x =
      if x = wfd then some (.pipeW os.pipes.length)
      else if x = r then some (.pipeR os.pipes.length) else lookup os.fds x := by
  cases fault with
  | some e => simp [osPipe, sysPipe] at h
  | none =>
    simp only [osPipe, sysPipe, Except.ok.injEq, Prod.mk.injEq] at h
    obtain ⟨h1, h2, h3⟩ := h
    have hr : lookup os.fds r = none := by rw [← h2]; exact lookup_lowestFree _
    have hw0 : lookup (setFd os.fds r (some (.pipeR os.pipes.length))) wfd = none := by
      rw [← h3, h2]; exact lookup_lowestFree _
    have hne : r ≠ wfd := by
      intro he
      rw [lookup_setFd, he] at hw0
      simp at hw0
    have hw : lookup os.fds wfd = none := by
      rw [lookup_setFd, if_neg (fun h => hne (Eq.symm h))] at hw0
      exact hw0
    refine ⟨rfl, hr, hw, hne, by rw [← h1], ?_⟩
    intro x
    rw [← h1]
    subst h2
    subst h3
    simp only [lookup_setFd]

theorem osPipe_error (os : OS) (fault : Option Errno) (err : GoError)
    (h : osPipe os fault = .error err) : ∃ e, fault = some e ∧ err = .syscallError "pipe2" e := by
  cases fault with
  | some e =>
    simp only [osPipe, sysPipe, Except.error.injEq] at h
    exact ⟨e, rfl, h.symm⟩
  | none => simp [osPipe, sysPipe] at h

theorem sysDup_ok (os os1 : OS) (fd d : Nat) (fault : Option Errno)
    (h : sysDup os fd fault = .ok (os1, d)) :
    fault = none ∧ lookup os.fds d = none ∧ lookup os.fds fd ≠ none ∧ os1.pipes = os.pipes ∧
    ∀ x, lookup os1.fds x = if x = d then lookup os.fds fd else lookup os.fds x := by
  cases fault with
  | some e => simp [sysDup] at h
  | none =>
    cases hl : lookup os.fds fd with
    | none => simp [sysDup, hl] at h
    | some v =>
      simp only [sysDup, hl, Except.ok.injEq, Prod.mk.injEq] at h
      obtain ⟨h1, h2⟩ := h
      refine ⟨rfl, by rw [← h2]; exact lookup_lowestFree _, by simp, by rw [← h1], ?_⟩
      intro x
      rw [← h1]
      simp only [h2, lookup_setFd]

theorem sysDup_error (os : OS) (fd : Nat) (fault : Option Errno) (e : Errno)
    (h : sysDup os fd fault = .error e) :
    fault = some e ∨ (fault = none ∧ e = .EBADF ∧ lookup os.fds fd = none) := by
  cases fault with
  | some e1 =>
    simp only [sysDup, Except.error.injEq] at h
    exact Or.inl (by rw [h])
  | none =>
    cases hl : lookup os.fds fd with
    | none =>
      simp only [sysDup, hl, Except.error.injEq] at h
      exact Or.inr ⟨rfl, h.symm, rfl⟩
    | some v => simp [sysDup, hl] at h

theorem sysDup2_ok (os os1 : OS) (old new : Nat) (fault : Option Errno)
    (h : sysDup2 os old new fault = .ok os1) :
    fault = none ∧ lookup os.fds old ≠ none ∧ os1.pipes = os.pipes ∧
    ∀ x, lookup os1.fds x = if x = new then lookup os.fds old else lookup os.fds x := by
  cases fault with
  | some e => simp [sysDup2] at h
  | none =>
    cases hl : lookup os.fds old with
    | none => simp [sysDup2, hl] at h
    | some v =>
      simp only [sysDup2, hl, Except.ok.injEq] at h
      refine ⟨rfl, by simp, by rw [← h], ?_⟩
      intro x
      rw [← h]
      simp only [lookup_setFd]

theorem sysDup2_error (os : OS) (old new : Nat) (fault : Option Errno) (e : Errno)
    (h : sysDup2 os old new fault = .error e) :
    fault = some e ∨ (fault = none ∧ e = .EBADF ∧ lookup os.fds old = none) := by
  cases fault with
  | some e1 =>
    simp only [sysDup2, Except.error.injEq] at h
    exact Or.inl (by rw [h])
  | none =>
    cases hl : lookup os.fds old with
    | none =>
      simp only [sysDup2, hl, Except.error.injEq] at h
      exact Or.inr ⟨rfl, h.symm, rfl⟩
    | some v => simp [sysDup2, hl] at h

/-! ### Counting open descriptors -/

theorem nodup_openFdsFrom (base : Nat) (t : FdTable) : (openFdsFrom base t).Nodup := by
  induction t generalizing base with
  | nil => simp [openFdsFrom]
  | cons a rest ih =>
    cases a with
    | none => simpa [openFdsFrom] using ih (base + 1)
    | some v =>
      simp only [openFdsFrom, List.nodup_cons]
      refine ⟨?_, ih (base + 1)⟩
      intro hm
      have hb := ((mem_openFdsFrom (base + 1) rest base).1 hm).1
      omega

theorem nodup_openFds (t : FdTable) : (openFds t).Nodup := nodup_openFdsFrom 0 t

theorem length_openFds_of_insert (t t1 : FdTable) (a : Nat) (ha : lookup t a = none)
    (h : ∀ x, lookup t1 x ≠ none ↔ (x = a ∨ lookup t x ≠ none)) :
    (openFds t1).length = (openFds t).length + 1 := by
  have hs : (openFds t1).toFinset = insert a (openFds t).toFinset := by
    ext x
    simp only [List.mem_toFinset, Finset.mem_insert, mem_openFds]
    exact h x
  have hn : a ∉ (openFds t).toFinset := by
    simp only [List.mem_toFinset, mem_openFds]
    exact fun hc => hc ha
  rw [← List.toFinset_card_of_nodup (nodup_openFds t1),
    ← List.toFinset_card_of_nodup (nodup_openFds t), hs, Finset.card_insert_of_not_mem hn]

theorem length_openFds_of_same (t t1 : FdTable)
    (h : ∀ x, lookup t1 x ≠ none ↔ lookup t x ≠ none) :
    (openFds t1).length = (openFds t).length := by
  have hs : (openFds t1).toFinset = (openFds t).toFinset := by
    ext x
    simp only [List.mem_toFinset, mem_openFds]
    exact h x
  rw [← List.toFinset_card_of_nodup (nodup_openFds t1),
    ← List.toFinset_card_of_nodup (nodup_openFds t), hs]

/-- A successful `os.Pipe` opens two descriptors. -/
theorem osPipe_count (os os1 : OS) (fault : Option Errno) (r wfd : Nat)
    (h : osPipe os fault = .ok (os1, r, wfd)) :
    (openFds os1.fds).length = (openFds os.fds).length + 2 := by
  obtain ⟨_, hr, hw, hne, _, hl⟩ := osPipe_ok os os1 fault r wfd h
  have hs : (openFds os1.fds).toFinset = insert wfd (insert r (openFds os.fds).toFinset) := by
    ext x
    simp only [List.mem_toFinset, Finset.mem_insert, mem_openFds, hl]
    by_cases h1 : x = wfd
    · simp [h1]
    · by_cases h2 : x = r
      · subst h2
        simp [h1]
      · simp [h1, h2]
  have hn1 : r ∉ (openFds os.fds).toFinset := by
    simp only [List.mem_toFinset, mem_openFds]
    exact fun hc => hc hr
  have hn2 : wfd ∉ insert r (openFds os.fds).toFinset := by
    simp only [Finset.mem_insert, List.mem_toFinset, mem_openFds]
    rintro (hc | hc)
    · exact hne hc.symm
    · exact hc hw
  rw [← List.toFinset_card_of_nodup (nodup_openFds os1.fds),
    ← List.toFinset_card_of_nodup (nodup_openFds os.fds), hs,
    Finset.card_insert_of_not_mem hn2, Finset.card_insert_of_not_mem hn1]

/-- A successful `unix.Dup` opens one descriptor. -/
theorem sysDup_count (os os1 : OS) (fd d : Nat) (fault : Option Errno)
    (h : sysDup os fd fault = .ok (os1, d)) :
    (openFds os1.fds).length = (openFds os.fds).length + 1 := by
  obtain ⟨_, hd, hfd, _, hl⟩ := sysDup_ok os os1 fd d fault h
  refine length_openFds_of_insert os.fds os1.fds d hd ?_
  intro x
  rw [hl]
  by_cases hx : x = d
  · simp [hx, hfd]
  · simp [hx]

/-- A successful `unix.Dup2` onto an open descriptor opens none. -/
theorem sysDup2_count (os os1 : OS) (old new : Nat) (fault : Option Errno)
    (h : sysDup2 os old new fault = .ok os1) (hnew : lookup os.fds new ≠ none) :
    (openFds os1.fds).length = (openFds os.fds).length := by
  obtain ⟨_, ho, _, hl⟩ := sysDup2_ok os os1 old new fault h
  refine length_openFds_of_same os.fds os1.fds ?_
  intro x
  rw [hl]
  by_cases hx : x = new
  · simp [hx, ho, hnew]
  · simp [hx]

/-! ### Failure of `New` -/

/-- The ways `New` can fail, with the calls made up to the failing one. -/
theorem NewAt_error_inv (w : World) (f : NewFaults) (w1 : World) (step : NewStep)
    (err : GoError) (h : NewAt w f = (w1, .error (step, err))) :
    (step = .pipeOut ∧ w1 = w ∧ osPipe w.os f.pipeOut = .error err) ∨
    (∃ os1 r wfd, osPipe w.os f.pipeOut = .ok (os1, r, wfd) ∧
      ((∃ e, step = .dupOut ∧ w1 = { w with os := os1 } ∧ err = .errno e ∧
          sysDup os1 stdoutFd f.dupOut = .error e) ∨
       (∃ os2 d, sysDup os1 stdoutFd f.dupOut = .ok (os2, d) ∧
        ((∃ e, step = .dup2Out ∧ w1 = { w with os := os2 } ∧ err = .errno e ∧
            sysDup2 os2 wfd stdoutFd f.dup2Out = .error e) ∨
         (∃ os3, sysDup2 os2 wfd stdoutFd f.dup2Out = .ok os3 ∧
          ((step = .pipeErr ∧ w1.os = os3 ∧ osPipe os3 f.pipeErr = .error err) ∨
           (∃ os4 r2 wfd2, osPipe os3 f.pipeErr = .ok (os4, r2, wfd2) ∧
            ((∃ e, step = .dupErr ∧ w1.os = os4 ∧ err = .errno e ∧
                sysDup os4 stderrFd f.dupErr = .error e) ∨
             (∃ os5 d2 e, sysDup os4 stderrFd f.dupErr = .ok (os5, d2) ∧
                step = .dup2Err ∧ w1.os = os5 ∧ err = .errno e ∧
                sysDup2 os5 wfd2 stderrFd f.dup2Err = .error e))))))))) := by
  unfold NewAt at h
  split at h
  · simp only [Prod.mk.injEq, Except.error.injEq] at h
    obtain ⟨rfl, rfl, rfl⟩ := h
    exact Or.inl ⟨rfl, rfl, by assumption⟩
  · rename_i os1 r wfd hp1
    refine Or.inr ⟨os1, r, wfd, hp1, ?_⟩
    split at h
    · simp only [Prod.mk.injEq, Except.error.injEq] at h
      obtain ⟨rfl, rfl, rfl⟩ := h
      exact Or.inl ⟨_, rfl, rfl, rfl, by assumption⟩
    · rename_i os2 d hd1
      refine Or.inr ⟨os2, d, hd1, ?_⟩
      split at h
      · simp only [Prod.mk.injEq, Except.error.injEq] at h
        obtain ⟨rfl, rfl, rfl⟩ := h
        exact Or.inl ⟨_, rfl, rfl, rfl, by assumption⟩
      · rename_i os3 hd2
        refine Or.inr ⟨os3, hd2, ?_⟩
        dsimp only at h
        split at h
        · simp only [Prod.mk.injEq, Except.error.injEq] at h
          obtain ⟨rfl, rfl, rfl⟩ := h
          exact Or.inl ⟨rfl, rfl, by assumption⟩
        · rename_i os4 r2 wfd2 hp2
          refine Or.inr ⟨os4, r2, wfd2, hp2, ?_⟩
          split at h
          · simp only [Prod.mk.injEq, Except.error.injEq] at h
            obtain ⟨rfl, rfl, rfl⟩ := h
            exact Or.inl ⟨_, rfl, rfl, rfl, by assumption⟩
          · rename_i os5 d2 hd3
            split at h
            · simp only [Prod.mk.injEq, Except.error.injEq] at h
              obtain ⟨rfl, rfl, rfl⟩ := h
              exact Or.inr ⟨os5, d2, _, hd3, rfl, rfl, rfl, by assumption⟩
            · simp at h

theorem osPipe_frame (os os1 : OS) (fault : Option Errno) (r wfd : Nat)
    (h : osPipe os fault = .ok (os1, r, wfd)) (x : Nat) (hx : lookup os.fds x ≠ none) :
    lookup os1.fds x = lookup os.fds x := by
  obtain ⟨_, hr, hw, _, _, hl⟩ := osPipe_ok os os1 fault r wfd h
  have h1 : x ≠ wfd := fun he => hx (he ▸ hw)
  have h2 : x ≠ r := fun he => hx (he ▸ hr)
  rw [hl, if_neg h1, if_neg h2]

theorem osPipe_reader_open (os os1 : OS) (fault : Option Errno) (r wfd : Nat)
    (h : osPipe os fault = .ok (os1, r, wfd)) : lookup os1.fds r ≠ none := by
  obtain ⟨_, _, _, hne, _, hl⟩ := osPipe_ok os os1 fault r wfd h
  rw [hl, if_neg hne, if_pos rfl]
  simp

theorem osPipe_mono (os os1 : OS) (fault : Option Errno) (r wfd : Nat)
    (h : osPipe os fault = .ok (os1, r, wfd)) (x : Nat) (hx : lookup os.fds x ≠ none) :
    lookup os1.fds x ≠ none := by
  rw [osPipe_frame os os1 fault r wfd h x hx]
  exact hx

theorem sysDup_frame (os os1 : OS) (fd d : Nat) (fault : Option Errno)
    (h : sysDup os fd fault = .ok (os1, d)) (x : Nat) (hx : lookup os.fds x ≠ none) :
    lookup os1.fds x = lookup os.fds x := by
  obtain ⟨_, hd, _, _, hl⟩ := sysDup_ok os os1 fd d fault h
  have h1 : x ≠ d := fun he => hx (he ▸ hd)
  rw [hl, if_neg h1]

theorem sysDup_mono (os os1 : OS) (fd d : Nat) (fault : Option Errno)
    (h : sysDup os fd fault = .ok (os1, d)) (x : Nat) (hx : lookup os.fds x ≠ none) :
    lookup os1.fds x ≠ none := by
  rw [sysDup_frame os os1 fd d fault h x hx]
  exact hx

theorem sysDup2_frame (os os1 : OS) (old new : Nat) (fault : Option Errno)
    (h : sysDup2 os old new fault = .ok os1) (x : Nat) (hx : x ≠ new) :
    lookup os1.fds x = lookup os.fds x := by
  obtain ⟨_, _, _, hl⟩ := sysDup2_ok os os1 old new fault h
  rw [hl, if_neg hx]

theorem sysDup2_mono (os os1 : OS) (old new : Nat) (fault : Option Errno)
    (h : sysDup2 os old new fault = .ok os1) (x : Nat) (hx : lookup os.fds x ≠ none) :
    lookup os1.fds x ≠ none := by
  obtain ⟨_, ho, _, hl⟩ := sysDup2_ok os os1 old new fault h
  rw [hl]
  split
  · exact ho
  · exact hx

theorem New_of_NewAt_error (w : World) (f : NewFaults) (w1 : World) (step : NewStep)
    (err : GoError) (h : NewAt w f = (w1, .error (step, err))) :
    New w f = (w1, .error err) := by
  unfold New
  rw [h]

/-- C8, as the code has it: when `New` fails, it returns the error of the first failing call
exactly as that call returned it, with nothing added that says which step failed. No earlier
step had an injected failure, and the error is the step's call error for the injected errno
(or for `EBADF` when the call fails on its own): an `os.SyscallError` naming `pipe2` for the
two pipe creations, a bare errno for `Dup` and `Dup2`. -/
theorem C8_error_is_first_failure_untagged (w : World) (f : NewFaults) (w1 : World)
    (step : NewStep) (err : GoError) (h : NewAt w f = (w1, .error (step, err))) :
    New w f = (w1, .error err) ∧
    (∀ s : NewStep, s.index < step.index → f.get s = none) ∧
    ∃ e, err = step.callError e ∧ (f.get step = some e ∨ (f.get step = none ∧ e = .EBADF)) := by
  refine ⟨New_of_NewAt_error w f w1 step err h, ?_⟩
  rcases NewAt_error_inv w f w1 step err h with
    ⟨rfl, _, hp⟩ | ⟨os1, r, wfd, hp1, hrest⟩
  · obtain ⟨e, he, rfl⟩ := osPipe_error _ _ _ hp
    exact ⟨by intro s hs; cases s <;> simp [NewStep.index] at hs,
      e, rfl, Or.inl he⟩
  have f1 := (osPipe_ok _ _ _ _ _ hp1).1
  rcases hrest with ⟨e, rfl, _, rfl, hd⟩ | ⟨os2, d, hd1, hrest⟩
  · refine ⟨by intro s hs; cases s <;> simp_all [NewStep.index, NewFaults.get], e, rfl, ?_⟩
    rcases sysDup_error _ _ _ _ hd with h | ⟨h, he, _⟩
    · exact Or.inl h
    · exact Or.inr ⟨h, he⟩
  have f2 := (sysDup_ok _ _ _ _ _ hd1).1
  rcases hrest with ⟨e, rfl, _, rfl, hd⟩ | ⟨os3, hd2, hrest⟩
  · refine ⟨by intro s hs; cases s <;> simp_all [NewStep.index, NewFaults.get], e, rfl, ?_⟩
    rcases sysDup2_error _ _ _ _ _ hd with h | ⟨h, he, _⟩
    · exact Or.inl h
    · exact Or.inr ⟨h, he⟩
  have f3 := (sysDup2_ok _ _ _ _ _ hd2).1
  rcases hrest with ⟨rfl, _, hp⟩ | ⟨os4, r2, wfd2, hp2, hrest⟩
  · obtain ⟨e, he, rfl⟩ := osPipe_error _ _ _ hp
    exact ⟨by intro s hs; cases s <;> simp_all [NewStep.index, NewFaults.get],
      e, rfl, Or.inl he⟩
  have f4 := (osPipe_ok _ _ _ _ _ hp2).1
  rcases hrest with ⟨e, rfl, _, rfl, hd⟩ | ⟨os5, d2, e, hd3, rfl, _, rfl, hd⟩
  · refine ⟨by intro s hs; cases s <;> simp_all [NewStep.index, NewFaults.get], e, rfl, ?_⟩
    rcases sysDup_error _ _ _ _ hd with h | ⟨h, he, _⟩
    · exact Or.inl h
    · exact Or.inr ⟨h, he⟩
  · have f5 := (sysDup_ok _ _ _ _ _ hd3).1
    refine ⟨by intro s hs; cases s <;> simp_all [NewStep.index, NewFaults.get], e, rfl, ?_⟩
    rcases sysDup2_error _ _ _ _ _ hd with h | ⟨h, he, _⟩
    · exact Or.inl h
    · exact Or.inr ⟨h, he⟩

theorem openFds_ne (t t1 : FdTable) (r : Nat) (h0 : lookup t r = none)
    (h1 : lookup t1 r ≠ none) : openFds t1 ≠ openFds t := by
  intro he
  have hm : r ∈ openFds t1 := (mem_openFds t1 r).2 h1
  rw [he, mem_openFds] at hm
  exact hm h0

/-- C5, as the code has it: on a table with descriptors 1 and 2 open, when a step of `New`
fails, `New` returns a nil session and that step's error; descriptor 2 still refers to its
pre-call target, and so does descriptor 1 when the failing step is one of the three stdout
steps. -/
theorem C5_failed_New_redirection (w : World) (f : NewFaults) (w1 : World) (step : NewStep)
    (err : GoError) (h1 : lookup w.os.fds stdoutFd ≠ none) (h2 : lookup w.os.fds stderrFd ≠ none)
    (h : NewAt w f = (w1, .error (step, err))) :
    New w f = (w1, .error err) ∧
    lookup w1.os.fds stderrFd = lookup w.os.fds stderrFd ∧
    (step.isStdoutStep = true → lookup w1.os.fds stdoutFd = lookup w.os.fds stdoutFd) := by
  refine ⟨New_of_NewAt_error w f w1 step err h, ?_⟩
  rcases NewAt_error_inv w f w1 step err h with
    ⟨rfl, rfl, _⟩ | ⟨os1, r, wfd, hp1, hrest⟩
  · exact ⟨rfl, fun _ => rfl⟩
  have a1 : lookup os1.fds stdoutFd = lookup w.os.fds stdoutFd := osPipe_frame _ _ _ _ _ hp1 _ h1
  have b1 : lookup os1.fds stderrFd = lookup w.os.fds stderrFd := osPipe_frame _ _ _ _ _ hp1 _ h2
  rcases hrest with ⟨e, rfl, rfl, rfl, _⟩ | ⟨os2, d, hd1, hrest⟩
  · exact ⟨b1, fun _ => a1⟩
  have a2 : lookup os2.fds stdoutFd = lookup w.os.fds stdoutFd := by
    rw [sysDup_frame _ _ _ _ _ hd1 _ (by rw [a1]; exact h1), a1]
  have b2 : lookup os2.fds stderrFd = lookup w.os.fds stderrFd := by
    rw [sysDup_frame _ _ _ _ _ hd1 _ (by rw [b1]; exact h2), b1]
  rcases hrest with ⟨e, rfl, rfl, rfl, _⟩ | ⟨os3, hd2, hrest⟩
  · exact ⟨b2, fun _ => a2⟩
  have b3 : lookup os3.fds stderrFd = lookup w.os.fds stderrFd := by
    rw [sysDup2_frame _ _ _ _ _ hd2 _ (by decide), b2]
  rcases hrest with ⟨rfl, hw, _⟩ | ⟨os4, r2, wfd2, hp2, hrest⟩
  · rw [hw]
    exact ⟨b3, fun hs => by simp [NewStep.isStdoutStep] at hs⟩
  have b4 : lookup os4.fds stderrFd = lookup w.os.fds stderrFd := by
    rw [osPipe_frame _ _ _ _ _ hp2 _ (by rw [b3]; exact h2), b3]
  rcases hrest with ⟨e, rfl, hw, rfl, _⟩ | ⟨os5, d2, e, hd3, rfl, hw, rfl, _⟩
  · rw [hw]
    exact ⟨b4, fun hs => by simp [NewStep.isStdoutStep] at hs⟩
  · rw [hw]
    refine ⟨?_, fun hs => by simp [NewStep.isStdoutStep] at hs⟩
    rw [sysDup_frame _ _ _ _ _ hd3 _ (by rw [b4]; exact h2), b4]

/-- C6, as the code has it: when a step of `New` fails, `New` returns that step's error and
has closed nothing: every descriptor open before the call is open after it, and the number
of open descriptors has grown by the number of descriptors handed out before the failing
step, each of them still open: none when the creation of the stdout pipe fails, 2 (the ends
of the stdout pipe) when the first `Dup` fails, 3 (with the duplicate of stdout) when the
first `Dup2` or the creation of the stderr pipe fails, 5 (with the ends of the stderr pipe)
when the second `Dup` fails, 6 (with the duplicate of stderr) when the second `Dup2` fails.
So the set of open descriptors after the call equals the set before the call exactly when
the failing step is the first one. -/
theorem C6_failed_New_open_descriptors (w : World) (f : NewFaults) (w1 : World)
    (step : NewStep) (err : GoError) (h : NewAt w f = (w1, .error (step, err))) :
    New w f = (w1, .error err) ∧
    (∀ x, lookup w.os.fds x ≠ none → lookup w1.os.fds x ≠ none) ∧
    (openFds w1.os.fds).length = (openFds w.os.fds).length + step.acquired ∧
    (openFds w1.os.fds = openFds w.os.fds ↔ step = .pipeOut) := by
  refine ⟨New_of_NewAt_error w f w1 step err h, ?_⟩
  rcases NewAt_error_inv w f w1 step err h with
    ⟨rfl, rfl, _⟩ | ⟨os1, r, wfd, hp1, hrest⟩
  · exact ⟨fun _ hx => hx, rfl, by simp⟩
  have hr0 : lookup w.os.fds r = none := (osPipe_ok _ _ _ _ _ hp1).2.1
  have m1 : lookup os1.fds r ≠ none := osPipe_reader_open _ _ _ _ _ hp1
  have s1 : ∀ x, lookup w.os.fds x ≠ none → lookup os1.fds x ≠ none :=
    fun x hx => osPipe_mono _ _ _ _ _ hp1 x hx
  have c1 : (openFds os1.fds).length = (openFds w.os.fds).length + 2 :=
    osPipe_count _ _ _ _ _ hp1
  rcases hrest with ⟨e, rfl, rfl, rfl, _⟩ | ⟨os2, d, hd1, hrest⟩
  · exact ⟨s1, c1, fun he => absurd he (openFds_ne _ _ r hr0 m1), fun hs => by cases hs⟩
  have m2 : lookup os2.fds r ≠ none := sysDup_mono _ _ _ _ _ hd1 _ m1
  have s2 : ∀ x, lookup w.os.fds x ≠ none → lookup os2.fds x ≠ none :=
    fun x hx => sysDup_mono _ _ _ _ _ hd1 x (s1 x hx)
  have c2 : (openFds os2.fds).length = (openFds w.os.fds).length + 3 := by
    rw [sysDup_count _ _ _ _ _ hd1, c1]
  have o2 : lookup os2.fds stdoutFd ≠ none :=
    sysDup_mono _ _ _ _ _ hd1 _ (sysDup_ok _ _ _ _ _ hd1).2.2.1
  rcases hrest with ⟨e, rfl, rfl, rfl, _⟩ | ⟨os3, hd2, hrest⟩
  · exact ⟨s2, c2, fun he => absurd he (openFds_ne _ _ r hr0 m2), fun hs => by cases hs⟩
  have m3 : lookup os3.fds r ≠ none := sysDup2_mono _ _ _ _ _ hd2 _ m2
  have s3 : ∀ x, lookup w.os.fds x ≠ none → lookup os3.fds x ≠ none :=
    fun x hx => sysDup2_mono _ _ _ _ _ hd2 x (s2 x hx)
  have c3 : (openFds os3.fds).length = (openFds w.os.fds).length + 3 := by
    rw [sysDup2_count _ _ _ _ _ hd2 o2, c2]
  rcases hrest with ⟨rfl, hw, _⟩ | ⟨os4, r2, wfd2, hp2, hrest⟩
  · rw [hw]
    exact ⟨s3, c3, fun he => absurd he (openFds_ne _ _ r hr0 m3), fun hs => by cases hs⟩
  have m4 : lookup os4.fds r ≠ none := osPipe_mono _ _ _ _ _ hp2 _ m3
  have s4 : ∀ x, lookup w.os.fds x ≠ none → lookup os4.fds x ≠ none :=
    fun x hx => osPipe_mono _ _ _ _ _ hp2 x (s3 x hx)
  have c4 : (openFds os4.fds).length = (openFds w.os.fds).length + 5 := by
    rw [osPipe_count _ _ _ _ _ hp2, c3]
  rcases hrest with ⟨e, rfl, hw, rfl, _⟩ | ⟨os5, d2, e, hd3, rfl, hw, rfl, _⟩
  · rw [hw]
    exact ⟨s4, c4, fun he => absurd he (openFds_ne _ _ r hr0 m4), fun hs => by cases hs⟩
  · rw [hw]
    have m5 : lookup os5.fds r ≠ none := sysDup_mono _ _ _ _ _ hd3 _ m4
    have s5 : ∀ x, lookup w.os.fds x ≠ none → lookup os5.fds x ≠ none :=
      fun x hx => sysDup_mono _ _ _ _ _ hd3 x (s4 x hx)
    have c5 : (openFds os5.fds).length = (openFds w.os.fds).length + 6 := by
      rw [sysDup_count _ _ _ _ _ hd3, c4]
    exact ⟨s5, c5, fun he => absurd he (openFds_ne _ _ r hr0 m5), fun hs => by cases hs⟩

theorem NewAt_dupOutFails :
    NewAt stdWorld dupOutFails = (pipedWorld, .error (.dupOut, .errno .EMFILE)) := by
  rfl

theorem NewAt_dup2OutFails :
    NewAt stdWorld dup2OutFails = (dupedWorld, .error (.dup2Out, .errno .EMFILE)) := by
  rfl

theorem NewAt_pipeErrFails :
    NewAt stdWorld pipeErrFails = (halfWorld, .error (.pipeErr, .syscallError "pipe2" .EMFILE)) := by
  rfl

theorem NewAt_pipeOutFails :
    NewAt stdWorld pipeOutFails = (stdWorld, .error (.pipeOut, .syscallError "pipe2" .EMFILE)) := by
  rfl

/-- C5 fails as stated: on the usual table, when the creation of the stderr pipe fails, `New`
returns the error and descriptor 1 refers to the write end of the stdout pipe, not to its
pre-call target. -/
theorem C5_counterexample_stderr_pipe_fails :
    New stdWorld pipeErrFails = (halfWorld, .error (.syscallError "pipe2" .EMFILE)) ∧
    lookup stdWorld.os.fds stdoutFd = some (.file 1) ∧
    lookup halfWorld.os.fds stdoutFd = some (.pipeW 0) ∧
    lookup halfWorld.os.fds stdoutFd ≠ lookup stdWorld.os.fds stdoutFd :=
  ⟨rfl, rfl, rfl, by decide⟩

/-- C5 on the usual table when the `Dup` of the original stdout descriptor fails. -/
theorem C5_failed_New_redirection_witness :
    lookup stdWorld.os.fds stdoutFd ≠ none ∧ lookup stdWorld.os.fds stderrFd ≠ none ∧
    NewAt stdWorld dupOutFails = (pipedWorld, .error (.dupOut, .errno .EMFILE)) ∧
    (New stdWorld dupOutFails = (pipedWorld, .error (.errno .EMFILE)) ∧
     lookup pipedWorld.os.fds stderrFd = lookup stdWorld.os.fds stderrFd ∧
     (NewStep.dupOut.isStdoutStep = true →
       lookup pipedWorld.os.fds stdoutFd = lookup stdWorld.os.fds stdoutFd)) :=
  ⟨by decide, by decide, rfl,
   C5_failed_New_redirection stdWorld dupOutFails pipedWorld .dupOut (.errno .EMFILE)
     (by decide) (by decide) rfl⟩

/-- C6 fails as stated: on the usual table, when the `Dup` of the original stdout descriptor
fails, `New` returns the error and both ends of the stdout pipe (descriptors 3 and 4) are
still open. -/
theorem C6_counterexample_pipe_left_open :
    New stdWorld dupOutFails = (pipedWorld, .error (.errno .EMFILE)) ∧
    openFds stdWorld.os.fds = [0, 1, 2] ∧
    openFds pipedWorld.os.fds = [0, 1, 2, 3, 4] ∧
    openFds pipedWorld.os.fds ≠ openFds stdWorld.os.fds :=
  ⟨rfl, rfl, rfl, by decide⟩

/-- C6 on the usual table when the creation of the stderr pipe fails: descriptors 0, 1, 2
are still open and so are the three handed out before, 3 and 4 (the stdout pipe) and 5 (the
duplicate of stdout). -/
theorem C6_failed_New_open_descriptors_witness :
    NewAt stdWorld pipeErrFails
      = (halfWorld, .error (.pipeErr, .syscallError "pipe2" .EMFILE)) ∧
    openFds stdWorld.os.fds = [0, 1, 2] ∧
    openFds halfWorld.os.fds = [0, 1, 2, 3, 4, 5] ∧
    (New stdWorld pipeErrFails = (halfWorld, .error (.syscallError "pipe2" .EMFILE)) ∧
     (∀ x, lookup stdWorld.os.fds x ≠ none → lookup halfWorld.os.fds x ≠ none) ∧
     (openFds halfWorld.os.fds).length
       = (openFds stdWorld.os.fds).length + NewStep.pipeErr.acquired ∧
     (openFds halfWorld.os.fds = openFds stdWorld.os.fds ↔ NewStep.pipeErr = .pipeOut)) :=
  ⟨rfl, rfl, rfl, C6_failed_New_open_descriptors stdWorld pipeErrFails halfWorld .pipeErr
     (.syscallError "pipe2" .EMFILE) rfl⟩

/-- C8 fails as stated: on the usual table, a failure of `Dup` and a failure of `Dup2` with
the same errno make `New` return equal errors. -/
theorem C8_counterexample_dup_and_dup2_alike :
    NewAt stdWorld dupOutFails = (pipedWorld, .error (.dupOut, .errno .EMFILE)) ∧
    NewAt stdWorld dup2OutFails = (dupedWorld, .error (.dup2Out, .errno .EMFILE)) ∧
    NewStep.dupOut ≠ NewStep.dup2Out ∧
    (New stdWorld dupOutFails).2 = (New stdWorld dup2OutFails).2 :=
  ⟨rfl, rfl, by decide, rfl⟩

/-- C8 on the usual table when the `Dup2` onto stdout fails. -/
theorem C8_error_is_first_failure_untagged_witness :
    NewAt stdWorld dup2OutFails = (dupedWorld, .error (.dup2Out, .errno .EMFILE)) ∧
    (New stdWorld dup2OutFails = (dupedWorld, .error (.errno .EMFILE)) ∧
     (∀ s : NewStep, s.index < NewStep.dup2Out.index → dup2OutFails.get s = none) ∧
     ∃ e, GoError.errno .EMFILE = NewStep.dup2Out.callError e ∧
       (dup2OutFails.get .dup2Out = some e ∨ (dup2OutFails.get .dup2Out = none ∧ e = .EBADF))) :=
  ⟨rfl, C8_error_is_first_failure_untagged stdWorld dup2OutFails dupedWorld .dup2Out
     (.errno .EMFILE) rfl⟩

/-! ### A whole cycle on the usual table -/

/-- C7 at the usual table: after `New` and `ReadAndRestore` with every call succeeding,
descriptors 4 and 7, the write ends that `os.Pipe` returned, are still open. -/
theorem C7_pipe_writers_left_open :
    New stdWorld NewFaults.none = (liveWorld, .ok liveSession) ∧
    ReadAndRestore liveWorld liveSession RestoreFaults.none = some doneRet ∧
    doneRet.err = none ∧
    openFds stdWorld.os.fds = [0, 1, 2] ∧
    openFds doneRet.world.os.fds = [0, 1, 2, 4, 7] ∧
    lookup doneRet.world.os.fds 4 = some (.pipeW 0) ∧
    lookup doneRet.world.os.fds 7 = some (.pipeW 1) :=
  ⟨rfl, by decide, rfl, rfl, rfl, rfl, rfl⟩

/-- C1 at the usual table: `"A"` is written to stdout, `"B"` to stderr and `"C"` to stdout,
and `ReadAndRestore` is called before the drain goroutines have read the pipes. It returns
two empty buffers and a nil error; the three bytes are still in the pipes. -/
theorem C1_unread_writes_are_lost :
    New stdWorld NewFaults.none = (liveWorld, .ok liveSession) ∧
    (ReadAndRestore (run liveWorld [.write 1 [65], .write 2 [66], .write 1 [67]])
        liveSession RestoreFaults.none).map
      (fun r => (r.stdout, r.stderr, r.err, r.world.os.pipes))
      = some (some [], some [], none, [[65, 67], [66]]) :=
  ⟨rfl, by decide⟩

/-- The same writes with the goroutines scheduled before `ReadAndRestore`: the buffers are
`"AC"` and `"B"`. -/
theorem capture_after_reads :
    (ReadAndRestore
        (run liveWorld [.write 1 [65], .write 2 [66], .write 1 [67], .read 0 none, .read 1 none])
        liveSession RestoreFaults.none).map
      (fun r => (r.stdout, r.stderr, r.err, r.world.os.pipes))
      = some (some [65, 67], some [66], none, [[], []]) := by
  decide

/-- No writes: both buffers are empty and the error is nil. -/
theorem capture_nothing :
    (ReadAndRestore liveWorld liveSession RestoreFaults.none).map
      (fun r => (r.stdout, r.stderr, r.err)) = some (some [], some [], none) := by
  decide

/-! ### Success of `New` -/

/-- The calls `New` makes when it succeeds, and what it returns. -/
theorem NewAt_ok_inv (w : World) (f : NewFaults) (w1 : World) (sf : FakeStdOutErr)
    (h : NewAt w f = (w1, .ok sf)) :
    ∃ os1 r wfd os2 d os3 os4 r2 wfd2 os5 d2 os6,
      osPipe w.os f.pipeOut = .ok (os1, r, wfd) ∧
      sysDup os1 stdoutFd f.dupOut = .ok (os2, d) ∧
      sysDup2 os2 wfd stdoutFd f.dup2Out = .ok os3 ∧
      osPipe os3 f.pipeErr = .ok (os4, r2, wfd2) ∧
      sysDup os4 stderrFd f.dupErr = .ok (os5, d2) ∧
      sysDup2 os5 wfd2 stderrFd f.dup2Err = .ok os6 ∧
      w1 = { w with os := os6,
                    tasks := w.tasks ++ [⟨r, false, [], false⟩] ++ [⟨r2, false, [], false⟩] } ∧
      sf = { origStdout := d, stdoutReader := some w.tasks.length, stdoutCh := w.tasks.length,
             origStderr := d2, stderrReader := some (w.tasks.length + 1),
             stderrCh := w.tasks.length + 1 } := by
  unfold NewAt at h
  split at h
  · simp at h
  · rename_i os1 r wfd hp1
    split at h
    · simp at h
    · rename_i os2 d hd1
      split at h
      · simp at h
      · rename_i os3 hd2
        dsimp only at h
        split at h
        · simp at h
        · rename_i os4 r2 wfd2 hp2
          split at h
          · simp at h
          · rename_i os5 d2 hd3
            split at h
            · simp at h
            · rename_i os6 hd4
              simp only [Prod.mk.injEq, Except.ok.injEq] at h
              obtain ⟨hw, hs⟩ := h
              refine ⟨os1, r, wfd, os2, d, os3, os4, r2, wfd2, os5, d2, os6,
                hp1, hd1, hd2, hp2, hd3, hd4, hw.symm, ?_⟩
              rw [← hs]
              simp

theorem NewAt_of_New_ok (w : World) (f : NewFaults) (w1 : World) (sf : FakeStdOutErr)
    (h : New w f = (w1, .ok sf)) : NewAt w f = (w1, .ok sf) := by
  unfold New at h
  split at h
  · rename_i w2 sf2 heq
    simp only [Prod.mk.injEq, Except.ok.injEq] at h
    rw [heq, h.1, h.2]
  · simp at h

theorem ne_of_lookup (t : FdTable) (x y : Nat) (hx : lookup t x = none)
    (hy : lookup t y ≠ none) : x ≠ y := by
  intro he
  rw [he] at hx
  exact hy hx

theorem New_installed (w : World) (f : NewFaults) (w1 : World) (sf : FakeStdOutErr)
    (h1 : lookup w.os.fds stdoutFd ≠ none) (h2 : lookup w.os.fds stderrFd ≠ none)
    (h : New w f = (w1, .ok sf)) :
    ∃ r wfd r2 wfd2, Installed w w1 sf r wfd r2 wfd2 := by
  obtain ⟨os1, r, wfd, os2, d, os3, os4, r2, wfd2, os5, d2, os6,
    hp1, hd1, hd2, hp2, hd3, hd4, hw, hs⟩ := NewAt_ok_inv w f w1 sf (NewAt_of_New_ok w f w1 sf h)
  obtain ⟨-, fr, fw, nrw, pp1, l1⟩ := osPipe_ok _ _ _ _ _ hp1
  obtain ⟨-, fd1, -, pp2, l2⟩ := sysDup_ok _ _ _ _ _ hd1
  obtain ⟨-, -, pp3, l3⟩ := sysDup2_ok _ _ _ _ _ hd2
  obtain ⟨-, fr2, fw2, nrw2, pp4, l4⟩ := osPipe_ok _ _ _ _ _ hp2
  obtain ⟨-, fd2, -, pp5, l5⟩ := sysDup_ok _ _ _ _ _ hd3
  obtain ⟨-, -, pp6, l6⟩ := sysDup2_ok _ _ _ _ _ hd4
  -- distinctness, in the order the descriptors are allocated
  have r_1 : r ≠ stdoutFd := ne_of_lookup _ _ _ fr h1
  have r_2 : r ≠ stderrFd := ne_of_lookup _ _ _ fr h2
  have w_1 : wfd ≠ stdoutFd := ne_of_lookup _ _ _ fw h1
  have w_2 : wfd ≠ stderrFd := ne_of_lookup _ _ _ fw h2
  have n12 : stdoutFd ≠ stderrFd := by decide
  have o1 : ∀ x, x = stdoutFd ∨ x = stderrFd ∨ x = r ∨ x = wfd → lookup os1.fds x ≠ none := by
    intro x hx
    rw [l1]
    rcases hx with rfl | rfl | rfl | rfl
    · rw [if_neg (Ne.symm w_1), if_neg (Ne.symm r_1)]; exact h1
    · rw [if_neg (Ne.symm w_2), if_neg (Ne.symm r_2)]; exact h2
    · rw [if_neg nrw, if_pos rfl]; simp
    · rw [if_pos rfl]; simp
  have d_1 : d ≠ stdoutFd := ne_of_lookup _ _ _ fd1 (o1 _ (Or.inl rfl))
  have d_2 : d ≠ stderrFd := ne_of_lookup _ _ _ fd1 (o1 _ (Or.inr (Or.inl rfl)))
  have d_r : d ≠ r := ne_of_lookup _ _ _ fd1 (o1 _ (Or.inr (Or.inr (Or.inl rfl))))
  have d_w : d ≠ wfd := ne_of_lookup _ _ _ fd1 (o1 _ (Or.inr (Or.inr (Or.inr rfl))))
  have o3 : ∀ x, x = stdoutFd ∨ x = stderrFd ∨ x = r ∨ x = wfd ∨ x = d →
      lookup os3.fds x ≠ none := by
    intro x hx
    rcases hx with rfl | rfl | rfl | rfl | rfl
    · exact sysDup2_mono _ _ _ _ _ hd2 _ (sysDup_mono _ _ _ _ _ hd1 _ (o1 _ (by simp)))
    · exact sysDup2_mono _ _ _ _ _ hd2 _ (sysDup_mono _ _ _ _ _ hd1 _ (o1 _ (by simp)))
    · exact sysDup2_mono _ _ _ _ _ hd2 _ (sysDup_mono _ _ _ _ _ hd1 _ (o1 _ (by simp)))
    · exact sysDup2_mono _ _ _ _ _ hd2 _ (sysDup_mono _ _ _ _ _ hd1 _ (o1 _ (by simp)))
    · refine sysDup2_mono _ _ _ _ _ hd2 _ ?_
      rw [l2, if_pos rfl]
      exact o1 _ (Or.inl rfl)
  have r2_1 : r2 ≠ stdoutFd := ne_of_lookup _ _ _ fr2 (o3 _ (by simp))
  have r2_2 : r2 ≠ stderrFd := ne_of_lookup _ _ _ fr2 (o3 _ (by simp))
  have r2_r : r2 ≠ r := ne_of_lookup _ _ _ fr2 (o3 _ (by simp))
  have r2_w : r2 ≠ wfd := ne_of_lookup _ _ _ fr2 (o3 _ (by simp))
  have r2_d : r2 ≠ d := ne_of_lookup _ _ _ fr2 (o3 _ (by simp))
  have w2_1 : wfd2 ≠ stdoutFd := ne_of_lookup _ _ _ fw2 (o3 _ (by simp))
  have w2_2 : wfd2 ≠ stderrFd := ne_of_lookup _ _ _ fw2 (o3 _ (by simp))
  have w2_r : wfd2 ≠ r := ne_of_lookup _ _ _ fw2 (o3 _ (by simp))
  have w2_w : wfd2 ≠ wfd := ne_of_lookup _ _ _ fw2 (o3 _ (by simp))
  have w2_d : wfd2 ≠ d := ne_of_lookup _ _ _ fw2 (o3 _ (by simp))
  have o4 : ∀ x, x = stdoutFd ∨ x = stderrFd ∨ x = r ∨ x = wfd ∨ x = d ∨ x = r2 ∨ x = wfd2 →
      lookup os4.fds x ≠ none := by
    intro x hx
    rcases hx with rfl | rfl | rfl | rfl | rfl | rfl | rfl
    · exact osPipe_mono _ _ _ _ _ hp2 _ (o3 _ (by simp))
    · exact osPipe_mono _ _ _ _ _ hp2 _ (o3 _ (by simp))
    · exact osPipe_mono _ _ _ _ _ hp2 _ (o3 _ (by simp))
    · exact osPipe_mono _ _ _ _ _ hp2 _ (o3 _ (by simp))
    · exact osPipe_mono _ _ _ _ _ hp2 _ (o3 _ (by simp))
    · exact osPipe_reader_open _ _ _ _ _ hp2
    · rw [l4, if_pos rfl]; simp
  have d2_1 : d2 ≠ stdoutFd := ne_of_lookup _ _ _ fd2 (o4 _ (by simp))
  have d2_2 : d2 ≠ stderrFd := ne_of_lookup _ _ _ fd2 (o4 _ (by simp))
  have d2_r : d2 ≠ r := ne_of_lookup _ _ _ fd2 (o4 _ (by simp))
  have d2_w : d2 ≠ wfd := ne_of_lookup _ _ _ fd2 (o4 _ (by simp))
  have d2_d : d2 ≠ d := ne_of_lookup _ _ _ fd2 (o4 _ (by simp))
  have d2_r2 : d2 ≠ r2 := ne_of_lookup _ _ _ fd2 (o4 _ (by simp))
  have d2_w2 : d2 ≠ wfd2 := ne_of_lookup _ _ _ fd2 (o4 _ (by simp))
  -- freedom in the original table
  have free_d : lookup w.os.fds d = none := by
    have := fd1
    rw [l1, if_neg d_w, if_neg d_r] at this
    exact this
  have free_r2 : lookup w.os.fds r2 = none := by
    have := fr2
    rw [l3, if_neg r2_1, l2, if_neg r2_d, l1, if_neg r2_w, if_neg r2_r] at this
    exact this
  have free_w2 : lookup w.os.fds wfd2 = none := by
    have := fw2
    rw [l3, if_neg w2_1, l2, if_neg w2_d, l1, if_neg w2_w, if_neg w2_r] at this
    exact this
  have free_d2 : lookup w.os.fds d2 = none := by
    have := fd2
    rw [l4, if_neg d2_w2, if_neg d2_r2, l3, if_neg d2_1, l2, if_neg d2_d, l1, if_neg d2_w,
      if_neg d2_r] at this
    exact this
  have hd : sf.origStdout = d := by rw [hs]
  have hd' : sf.origStderr = d2 := by rw [hs]
  refine ⟨r, wfd, r2, wfd2, ?_⟩
  constructor
  · rw [hw]
  · rw [hs]
  · rw [hw]
    simp only
    rw [pp6, pp5, pp4, pp3, pp2, pp1]
  · rw [hd, hd']
    simp only [List.nodup_cons, List.mem_cons, List.mem_singleton, List.not_mem_nil,
      List.nodup_nil, not_or, or_false, and_true, not_false_eq_true]
    exact ⟨⟨n12, Ne.symm r_1, Ne.symm w_1, Ne.symm d_1, Ne.symm r2_1, Ne.symm w2_1, Ne.symm d2_1⟩,
      ⟨Ne.symm r_2, Ne.symm w_2, Ne.symm d_2, Ne.symm r2_2, Ne.symm w2_2, Ne.symm d2_2⟩,
      ⟨nrw, Ne.symm d_r, Ne.symm r2_r, Ne.symm w2_r, Ne.symm d2_r⟩,
      ⟨Ne.symm d_w, Ne.symm r2_w, Ne.symm w2_w, Ne.symm d2_w⟩,
      ⟨Ne.symm r2_d, Ne.symm w2_d, Ne.symm d2_d⟩,
      ⟨nrw2, Ne.symm d2_r2⟩, Ne.symm d2_w2⟩
  · rw [hd, hd']
    intro x hx
    simp only [List.mem_cons, List.mem_singleton, List.not_mem_nil, or_false] at hx
    rcases hx with rfl | rfl | rfl | rfl | rfl | rfl
    · exact fr
    · exact fw
    · exact free_d
    · exact free_r2
    · exact free_w2
    · exact free_d2
  · intro x
    rw [hd, hd', hw]
    simp only
    rw [l6]
    by_cases x2 : x = stderrFd
    · subst x2
      rw [if_pos rfl, if_neg (Ne.symm n12), if_pos rfl, l5, if_neg (Ne.symm d2_w2), l4,
        if_pos rfl, pp3, pp2, pp1]
      simp
    rw [if_neg x2, l5]
    by_cases x1 : x = stdoutFd
    · subst x1
      rw [if_pos rfl, if_neg (Ne.symm d2_1), l4, if_neg (Ne.symm w2_1), if_neg (Ne.symm r2_1), l3,
        if_pos rfl, l2, if_neg (Ne.symm d_w), l1, if_pos rfl]
    rw [if_neg x1, if_neg x2]
    by_cases xr : x = r
    · subst xr
      rw [if_pos rfl, if_neg (Ne.symm d2_r), l4, if_neg (Ne.symm w2_r), if_neg (Ne.symm r2_r), l3,
        if_neg r_1, l2, if_neg (Ne.symm d_r), l1, if_neg nrw, if_pos rfl]
    rw [if_neg xr]
    by_cases xw : x = wfd
    · subst xw
      rw [if_pos rfl, if_neg (Ne.symm d2_w), l4, if_neg (Ne.symm w2_w), if_neg (Ne.symm r2_w), l3,
        if_neg w_1, l2, if_neg (Ne.symm d_w), l1, if_pos rfl]
    rw [if_neg xw]
    by_cases xd : x = d
    · subst xd
      rw [if_pos rfl, if_neg (Ne.symm d2_d), l4, if_neg (Ne.symm w2_d), if_neg (Ne.symm r2_d), l3,
        if_neg d_1, l2, if_pos rfl, l1, if_neg (Ne.symm w_1), if_neg (Ne.symm r_1)]
    rw [if_neg xd]
    by_cases xr2 : x = r2
    · subst xr2
      rw [if_pos rfl, if_neg (Ne.symm d2_r2), l4, if_neg nrw2, if_pos rfl, pp3, pp2, pp1]
      simp
    rw [if_neg xr2]
    by_cases xw2 : x = wfd2
    · subst xw2
      rw [if_pos rfl, if_neg (Ne.symm d2_w2), l4, if_pos rfl, pp3, pp2, pp1]
      simp
    rw [if_neg xw2]
    by_cases xd2 : x = d2
    · subst xd2
      rw [if_pos rfl, if_pos rfl, l4, if_neg (Ne.symm w2_2), if_neg (Ne.symm r2_2), l3,
        if_neg (Ne.symm n12), l2, if_neg (Ne.symm d_2), l1, if_neg (Ne.symm w_2),
        if_neg (Ne.symm r_2)]
    rw [if_neg xd2, if_neg xd2, l4, if_neg xw2, if_neg xr2, l3, if_neg x1, l2, if_neg xd, l1,
      if_neg xw, if_neg xr]
  · rw [hw]

/-! ### A whole cycle -/

/-- The descriptor table after the eight system calls of `ReadAndRestore`, at the four
descriptors it is meant to leave restored or closed, when the two duplicates are open and
the four restoring calls succeed. -/
theorem restore_table (t : FdTable) (sf : FakeStdOutErr) (f : RestoreFaults) (ra rb : Nat)
    (hf : f.dup2Out = none ∧ f.closeOrigOut = none ∧ f.dup2Err = none ∧ f.closeOrigErr = none)
    (hnd : [stdoutFd, stderrFd, ra, rb, sf.origStdout, sf.origStderr].Nodup)
    (ho1 : lookup t sf.origStdout ≠ none) (ho2 : lookup t sf.origStderr ≠ none) :
    lookup (restoreFds t ra rb sf f) stdoutFd = lookup t sf.origStdout ∧
    lookup (restoreFds t ra rb sf f) stderrFd = lookup t sf.origStderr ∧
    lookup (restoreFds t ra rb sf f) sf.origStdout = none ∧
    lookup (restoreFds t ra rb sf f) sf.origStderr = none ∧
    ∀ x, x ∉ [stdoutFd, stderrFd, ra, rb, sf.origStdout, sf.origStderr] →
      lookup (restoreFds t ra rb sf f) x = lookup t x := by
  obtain ⟨f5, f6, f7, f8⟩ := hf
  simp only [List.nodup_cons, List.mem_cons, List.mem_singleton, List.not_mem_nil,
    List.nodup_nil, not_or, or_false, and_true, not_false_eq_true] at hnd
  obtain ⟨⟨n12, n1a, n1b, n1d, n1e⟩, ⟨n2a, n2b, n2d, n2e⟩, ⟨nab, nad, nae⟩, ⟨nbd, nbe⟩, nde⟩ := hnd
  have s1 := Ne.symm n1d
  have s2 := Ne.symm n1e
  have s3 := Ne.symm n2d
  have s4 := Ne.symm n2e
  have s5 := Ne.symm nad
  have s6 := Ne.symm nae
  have s7 := Ne.symm nbd
  have s8 := Ne.symm nbe
  have s9 := Ne.symm nde
  have s10 := Ne.symm n12
  refine ⟨?_, ?_, ?_, ?_, ?_⟩
  · simp [restoreFds, lookup_closeFds, lookup_dup2Fds, f5, f6, f7, f8, *]
  · simp [restoreFds, lookup_closeFds, lookup_dup2Fds, f5, f6, f7, f8, *]
  · simp [restoreFds, lookup_closeFds, lookup_dup2Fds, f5, f6, f7, f8, *]
  · simp [restoreFds, lookup_closeFds, lookup_dup2Fds, f5, f6, f7, f8, *]
  · intro x hx
    simp only [List.mem_cons, List.mem_singleton, List.not_mem_nil, not_or, or_false] at hx
    obtain ⟨x1, x2, xa, xb, xd, xe⟩ := hx
    simp [restoreFds, lookup_closeFds, lookup_dup2Fds, f5, f6, f7, f8, *]

theorem wf_lookup (os : OS) (hwf : os.wf = true) (x : Nat) (t : Target)
    (h : lookup os.fds x = some t) (p : Nat) (hp : os.pipes.length ≤ p) :
    t ≠ .pipeR p ∧ t ≠ .pipeW p := by
  have hm := lookup_mem os.fds x t h
  unfold OS.wf at hwf
  rw [List.all_eq_true] at hwf
  have := hwf _ hm
  constructor
  · rintro rfl
    simp only [decide_eq_true_eq] at this
    omega
  · rintro rfl
    simp only [decide_eq_true_eq] at this
    omega

theorem getElem?_tasks_fst (l : List Task) (a b : Task) :
    (l ++ [a] ++ [b])[l.length]? = some a := by
  rw [List.append_assoc, List.getElem?_append_right (Nat.le_refl _)]
  simp

theorem getElem?_tasks_snd (l : List Task) (a b : Task) :
    (l ++ [a] ++ [b])[l.length + 1]? = some b := by
  rw [List.append_assoc, List.getElem?_append_right (Nat.le_succ _)]
  simp

/-- A live session after any active phase: the two tasks are there, with the descriptors
`New` gave them and their files open. -/
theorem installed_after_run {w w1 : World} {sf : FakeStdOutErr} {r wfd r2 wfd2 : Nat}
    (hi : Installed w w1 sf r wfd r2 wfd2) (evs : List Event) :
    sf.stdoutReader = some sf.stdoutCh ∧ sf.stderrReader = some sf.stderrCh ∧
    sf.stderrCh ≠ sf.stdoutCh ∧
    ∃ t1 t2, (run w1 evs).tasks[sf.stdoutCh]? = some t1 ∧
      (run w1 evs).tasks[sf.stderrCh]? = some t2 ∧
      t1.fd = r ∧ t1.closed = false ∧ t2.fd = r2 ∧ t2.closed = false := by
  have hs := hi.session
  have c1 : sf.stdoutCh = w.tasks.length := by rw [hs]
  have c2 : sf.stderrCh = w.tasks.length + 1 := by rw [hs]
  have q1 : sf.stdoutReader = some w.tasks.length := by rw [hs]
  have q2 : sf.stderrReader = some (w.tasks.length + 1) := by rw [hs]
  have g1 : w1.tasks[w.tasks.length]? = some ⟨r, false, [], false⟩ := by
    rw [hi.tasks]; exact getElem?_tasks_fst _ _ _
  have g2 : w1.tasks[w.tasks.length + 1]? = some ⟨r2, false, [], false⟩ := by
    rw [hi.tasks]; exact getElem?_tasks_snd _ _ _
  obtain ⟨t1, k1, kf1, kc1⟩ := run_task w1 evs _ _ g1
  obtain ⟨t2, k2, kf2, kc2⟩ := run_task w1 evs _ _ g2
  refine ⟨by rw [q1, c1], by rw [q2, c2], by rw [c1, c2]; omega, t1, t2, ?_, ?_,
    kf1, kc1, kf2, kc2⟩ <;> simp only [c1, c2, k1, k2]

/-- Where the four pipe ends that matter are after a successful `New`. -/
theorem installed_ends {w w1 : World} {sf : FakeStdOutErr} {r wfd r2 wfd2 : Nat}
    (hi : Installed w w1 sf r wfd r2 wfd2) :
    lookup w1.os.fds stdoutFd = some (.pipeW w.os.pipes.length) ∧
    lookup w1.os.fds stderrFd = some (.pipeW (w.os.pipes.length + 1)) ∧
    lookup w1.os.fds r = some (.pipeR w.os.pipes.length) ∧
    lookup w1.os.fds r2 = some (.pipeR (w.os.pipes.length + 1)) := by
  have hnd := hi.nodup
  simp only [List.nodup_cons, List.mem_cons, List.mem_singleton, List.not_mem_nil,
    List.nodup_nil, not_or, or_false, and_true, not_false_eq_true] at hnd
  obtain ⟨⟨n12, n1r, n1w, n1d, n1r2, n1w2, n1e⟩, ⟨n2r, n2w, n2d, n2r2, n2w2, n2e⟩,
    ⟨nrw, nrd, nrr2, nrw2, nre⟩, ⟨nwd, nwr2, nww2, nwe⟩, ⟨ndr2, ndw2, nde⟩, ⟨nr2w2, nr2e⟩,
    nw2e⟩ := hnd
  refine ⟨?_, ?_, ?_, ?_⟩
  · rw [hi.table, if_pos rfl]
  · rw [hi.table, if_neg (Ne.symm n12), if_pos rfl]
  · rw [hi.table, if_neg (Ne.symm n1r), if_neg (Ne.symm n2r), if_pos rfl]
  · rw [hi.table, if_neg (Ne.symm n1r2), if_neg (Ne.symm n2r2), if_neg (Ne.symm nrr2),
      if_neg (Ne.symm nwr2), if_neg (Ne.symm ndr2), if_pos rfl]

theorem hasReader_of_lookup (t : FdTable) (x p : Nat) (h : lookup t x = some (.pipeR p)) :
    hasReader t p = true := by
  unfold hasReader
  rw [List.contains_iff_exists_mem_beq]
  exact ⟨_, lookup_mem t x _ h, by simp⟩

/-- A write is refused with `EPIPE` only on the write end of a pipe without a reader. -/
theorem sysWrite_epipe (os : OS) (fd : Nat) (b : Bytes)
    (h : sysWrite os fd b = .error .EPIPE) :
    ∃ p, lookup os.fds fd = some (.pipeW p) ∧ hasReader os.fds p = false := by
  unfold sysWrite at h
  split at h
  · rename_i p hp
    split at h
    · cases h
    · rename_i hr
      exact ⟨p, hp, by simpa using hr⟩
  · cases h
  · simp at h

/-- While descriptors 1 and 2 are not write ends of a pipe without a reader, no write kills
the process. -/
theorem write_killed (w : World) (fd : Nat) (b : Bytes)
    (h1 : ∀ p, lookup w.os.fds stdoutFd = some (.pipeW p) → hasReader w.os.fds p = true)
    (h2 : ∀ p, lookup w.os.fds stderrFd = some (.pipeW p) → hasReader w.os.fds p = true) :
    (World.write w fd b).killed = w.killed := by
  unfold World.write
  cases hs : sysWrite w.os fd b with
  | ok os1 => rfl
  | error e =>
    simp only
    split
    · rename_i hc
      obtain ⟨he, hfd⟩ := hc
      subst he
      obtain ⟨p, hp, hr⟩ := sysWrite_epipe _ _ _ hs
      rcases hfd with rfl | rfl
      · rw [h1 p hp] at hr
        cases hr
      · rw [h2 p hp] at hr
        cases hr
    · rfl

theorem logNow_killed (w : World) (i : Nat) (line : Bytes)
    (h1 : ∀ p, lookup w.os.fds stdoutFd = some (.pipeW p) → hasReader w.os.fds p = true)
    (h2 : ∀ p, lookup w.os.fds stderrFd = some (.pipeW p) → hasReader w.os.fds p = true) :
    (w.logNow i line).killed = w.killed := by
  unfold World.logNow
  split
  · rfl
  · rename_i t _
    split
    · exact write_killed { w with tasks := w.tasks.set i { t with logged := true } }
        stderrFd line h1 h2
    · rfl

theorem apply_killed (w : World) (ev : Event)
    (h1 : ∀ p, lookup w.os.fds stdoutFd = some (.pipeW p) → hasReader w.os.fds p = true)
    (h2 : ∀ p, lookup w.os.fds stderrFd = some (.pipeW p) → hasReader w.os.fds p = true) :
    (Event.apply w ev).killed = w.killed := by
  unfold Event.apply
  split
  · rfl
  · cases ev with
    | write fd b => exact write_killed _ _ _ h1 h2
    | read i fault =>
      simp only
      cases hi : w.tasks[i]? with
      | none => rfl
      | some t => rfl
    | log i line => exact logNow_killed _ _ _ h1 h2

theorem run_killed (w : World) (evs : List Event)
    (h1 : ∀ p, lookup w.os.fds stdoutFd = some (.pipeW p) → hasReader w.os.fds p = true)
    (h2 : ∀ p, lookup w.os.fds stderrFd = some (.pipeW p) → hasReader w.os.fds p = true) :
    (run w evs).killed = w.killed := by
  induction evs generalizing w with
  | nil => rfl
  | cons ev rest ih =>
    show (run (Event.apply w ev) rest).killed = w.killed
    rw [ih (Event.apply w ev) (by rw [apply_fds]; exact h1) (by rw [apply_fds]; exact h2),
      apply_killed w ev h1 h2]

/-- During the active phase of a session, whatever is written and whatever the goroutines
do, the process is not killed: descriptors 1 and 2 are write ends of pipes whose readers
are open. -/
theorem installed_run_killed {w w1 : World} {sf : FakeStdOutErr} {r wfd r2 wfd2 : Nat}
    (hi : Installed w w1 sf r wfd r2 wfd2) (evs : List Event) :
    (run w1 evs).killed = w.killed := by
  obtain ⟨T1, T2, Tr, Tr2⟩ := installed_ends hi
  rw [run_killed w1 evs, hi.alive]
  · intro p hp
    rw [T1] at hp
    simp only [Option.some.injEq, Target.pipeW.injEq] at hp
    rw [← hp]
    exact hasReader_of_lookup _ _ _ Tr
  · intro p hp
    rw [T2] at hp
    simp only [Option.some.injEq, Target.pipeW.injEq] at hp
    rw [← hp]
    exact hasReader_of_lookup _ _ _ Tr2

/-- The descriptor table after a successful `New`, any active phase and a `ReadAndRestore`
that returns, on a table in which descriptors 1 and 2 were open, when the four restoring
calls succeed. -/
theorem cycle_table (w0 : World) (nf : NewFaults) (w1 : World)
    (sf : FakeStdOutErr) (evs : List Event) (f : RestoreFaults) (r : Ret)
    (h1 : lookup w0.os.fds stdoutFd ≠ none) (h2 : lookup w0.os.fds stderrFd ≠ none)
    (hnew : New w0 nf = (w1, .ok sf))
    (hf : f.dup2Out = none ∧ f.closeOrigOut = none ∧ f.dup2Err = none ∧ f.closeOrigErr = none)
    (hret : ReadAndRestore (run w1 evs) sf f = some r) :
    r.err = none ∧
    lookup r.world.os.fds stdoutFd = lookup w0.os.fds stdoutFd ∧
    lookup r.world.os.fds stderrFd = lookup w0.os.fds stderrFd ∧
    lookup r.world.os.fds sf.origStdout = none ∧
    lookup r.world.os.fds sf.origStderr = none ∧
    ∃ x, lookup w0.os.fds x = none ∧
      lookup r.world.os.fds x = some (.pipeW w0.os.pipes.length) := by
  obtain ⟨ra, wfd, rb, wfd2, hi⟩ := New_installed w0 nf w1 sf h1 h2 hnew
  obtain ⟨hr1, hr2, hne, t1, t2, ht1, ht2, tf1, tc1, tf2, tc2⟩ := installed_after_run hi evs
  obtain ⟨herr, -, -, hos⟩ :=
    ReadAndRestore_fds (run w1 evs) sf f t1 t2 _ _ r hr1 hr2 ht1 ht2 tc1 tc2 hne hret
  have hnd := hi.nodup
  simp only [List.nodup_cons, List.mem_cons, List.mem_singleton, List.not_mem_nil,
    List.nodup_nil, not_or, or_false, and_true, not_false_eq_true] at hnd
  obtain ⟨⟨n12, n1r, n1w, n1d, n1r2, n1w2, n1e⟩, ⟨n2r, n2w, n2d, n2r2, n2w2, n2e⟩,
    ⟨nrw, nrd, nrr2, nrw2, nre⟩, ⟨nwd, nwr2, nww2, nwe⟩, ⟨ndr2, ndw2, nde⟩, ⟨nr2w2, nr2e⟩,
    nw2e⟩ := hnd
  have hd : lookup (run w1 evs).os.fds sf.origStdout = lookup w0.os.fds stdoutFd := by
    rw [run_fds, hi.table, if_neg (Ne.symm n1d), if_neg (Ne.symm n2d), if_neg (Ne.symm nrd),
      if_neg (Ne.symm nwd), if_pos rfl]
  have he : lookup (run w1 evs).os.fds sf.origStderr = lookup w0.os.fds stderrFd := by
    rw [run_fds, hi.table, if_neg (Ne.symm n1e), if_neg (Ne.symm n2e), if_neg (Ne.symm nre),
      if_neg (Ne.symm nwe), if_neg (Ne.symm nde), if_neg (Ne.symm nr2e), if_neg (Ne.symm nw2e),
      if_pos rfl]
  have hnd2 : [stdoutFd, stderrFd, t1.fd, t2.fd, sf.origStdout, sf.origStderr].Nodup := by
    rw [tf1, tf2]
    simp only [List.nodup_cons, List.mem_cons, List.mem_singleton, List.not_mem_nil,
      List.nodup_nil, not_or, or_false, and_true, not_false_eq_true]
    exact ⟨⟨n12, n1r, n1r2, n1d, n1e⟩, ⟨n2r, n2r2, n2d, n2e⟩, ⟨nrr2, nrd, nre⟩,
      ⟨Ne.symm ndr2, nr2e⟩, nde⟩
  obtain ⟨k1, k2, k3, k4, k5⟩ := restore_table (run w1 evs).os.fds sf f t1.fd t2.fd hf hnd2
    (by rw [hd]; exact h1) (by rw [he]; exact h2)
  rw [← hos] at k1 k2 k3 k4 k5
  have kw : lookup r.world.os.fds wfd = some (.pipeW w0.os.pipes.length) := by
    rw [k5 wfd (by
      rw [tf1, tf2]
      simp only [List.mem_cons, List.mem_singleton, List.not_mem_nil, not_or, or_false]
      exact ⟨Ne.symm n1w, Ne.symm n2w, Ne.symm nrw, nwr2, nwd, nwe⟩)]
    rw [run_fds, hi.table, if_neg (Ne.symm n1w), if_neg (Ne.symm n2w), if_neg (Ne.symm nrw),
      if_pos rfl]
  have fw : lookup w0.os.fds wfd = none := hi.free wfd (by simp)
  exact ⟨herr, by rw [k1, hd], by rw [k2, he], k3, k4, wfd, fw, kw⟩

/-- C2, as the code has it: on a table in which descriptors 1 and 2 are open, after a
successful `New`, any active phase, and a `ReadAndRestore` that returns and whose two
restoring `Dup2` calls and two closes of the duplicates succeed, the error returned is nil,
descriptors 1 and 2 refer to the targets they had before `New`, not to an end of either new
pipe, and `origStdout` and `origStderr` are closed. -/
theorem C2_descriptors_restored (w0 : World) (nf : NewFaults) (w1 : World)
    (sf : FakeStdOutErr) (evs : List Event) (f : RestoreFaults) (r : Ret)
    (h1 : lookup w0.os.fds stdoutFd ≠ none) (h2 : lookup w0.os.fds stderrFd ≠ none)
    (hwf : w0.os.wf = true) (hnew : New w0 nf = (w1, .ok sf))
    (hf : f.dup2Out = none ∧ f.closeOrigOut = none ∧ f.dup2Err = none ∧ f.closeOrigErr = none)
    (hret : ReadAndRestore (run w1 evs) sf f = some r) :
    r.err = none ∧
    lookup r.world.os.fds stdoutFd = lookup w0.os.fds stdoutFd ∧
    lookup r.world.os.fds stderrFd = lookup w0.os.fds stderrFd ∧
    (∀ p, w0.os.pipes.length ≤ p →
      lookup r.world.os.fds stdoutFd ≠ some (.pipeR p) ∧
      lookup r.world.os.fds stdoutFd ≠ some (.pipeW p) ∧
      lookup r.world.os.fds stderrFd ≠ some (.pipeR p) ∧
      lookup r.world.os.fds stderrFd ≠ some (.pipeW p)) ∧
    lookup r.world.os.fds sf.origStdout = none ∧
    lookup r.world.os.fds sf.origStderr = none := by
  obtain ⟨herr, k1, k2, k3, k4, -⟩ := cycle_table w0 nf w1 sf evs f r h1 h2 hnew hf hret
  refine ⟨herr, k1, k2, ?_, k3, k4⟩
  intro p hp
  rw [k1, k2]
  cases q1 : lookup w0.os.fds stdoutFd with
  | none => exact absurd q1 h1
  | some a =>
    cases q2 : lookup w0.os.fds stderrFd with
    | none => exact absurd q2 h2
    | some b =>
      have wa := wf_lookup w0.os hwf _ a q1 p hp
      have wb := wf_lookup w0.os hwf _ b q2 p hp
      simp only [ne_eq, Option.some.injEq]
      exact ⟨wa.1, wa.2, wb.1, wb.2⟩

/-- Sessions made by `New` are `Paired`, whatever happens in the active phase. -/
theorem New_paired (w : World) (f : NewFaults) (w1 : World) (sf : FakeStdOutErr)
    (h : New w f = (w1, .ok sf)) (evs : List Event) : Paired (run w1 evs) sf := by
  obtain ⟨os1, r, wfd, os2, d, os3, os4, r2, wfd2, os5, d2, os6,
    -, -, -, -, -, -, hw, hs⟩ := NewAt_ok_inv w f w1 sf (NewAt_of_New_ok w f w1 sf h)
  have g1 : w1.tasks[w.tasks.length]? = some ⟨r, false, [], false⟩ := by
    rw [hw]; exact getElem?_tasks_fst _ _ _
  have g2 : w1.tasks[w.tasks.length + 1]? = some ⟨r2, false, [], false⟩ := by
    rw [hw]; exact getElem?_tasks_snd _ _ _
  obtain ⟨t1, k1, -, -⟩ := run_task w1 evs _ _ g1
  obtain ⟨t2, k2, -, -⟩ := run_task w1 evs _ _ g2
  have l1 : w.tasks.length < (run w1 evs).tasks.length := by
    rcases List.getElem?_eq_some.1 k1 with ⟨h, _⟩
    exact h
  have l2 : w.tasks.length + 1 < (run w1 evs).tasks.length := by
    rcases List.getElem?_eq_some.1 k2 with ⟨h, _⟩
    exact h
  right
  rw [hs]
  exact ⟨rfl, rfl, l1, l2⟩

/-- The leak of C7 on every table with descriptors 1 and 2 open: after a successful `New`,
any active phase and a `ReadAndRestore` in which every call succeeds and the goroutines run
only at the receives, some descriptor that was closed before `New` is open, on the write end
of the stdout pipe; the set of open descriptors is not the one before `New`. -/
theorem cycle_leaves_writer_open (w0 : World) (nf : NewFaults) (w1 : World)
    (sf : FakeStdOutErr) (evs : List Event)
    (h1 : lookup w0.os.fds stdoutFd ≠ none) (h2 : lookup w0.os.fds stderrFd ≠ none)
    (hk : w0.killed = false) (hnew : New w0 nf = (w1, .ok sf)) :
    ∃ r, ReadAndRestore (run w1 evs) sf RestoreFaults.none = some r ∧ r.err = none ∧
      (∃ x, lookup w0.os.fds x = none ∧
        lookup r.world.os.fds x = some (.pipeW w0.os.pipes.length)) ∧
      openFds r.world.os.fds ≠ openFds w0.os.fds := by
  obtain ⟨ra, wfd, rb, wfd2, hi⟩ := New_installed w0 nf w1 sf h1 h2 hnew
  obtain ⟨hr1, hr2, hne, t1, t2, ht1, ht2, tf1, tc1, tf2, tc2⟩ := installed_after_run hi evs
  obtain ⟨r, hr, -⟩ := ReadAndRestore_live (run w1 evs) sf RestoreFaults.none t1 t2
    (by rw [installed_run_killed hi evs, hk]) ⟨rfl, rfl, rfl, rfl, rfl⟩ hr1 hr2 ht1 ht2
  obtain ⟨herr, -, -, -, -, x, fx, kx⟩ := cycle_table w0 nf w1 sf evs RestoreFaults.none r
    h1 h2 hnew ⟨rfl, rfl, rfl, rfl⟩ hr
  exact ⟨r, hr, herr, ⟨x, fx, kx⟩, openFds_ne _ _ x fx (by rw [kx]; simp)⟩

/-! ### The active phase: what the goroutines read -/

theorem pipeBuf_nil (q : Nat) : pipeBuf [] q = [] := by
  cases q <;> rfl

theorem length_setPipe (l : List Bytes) (p : Nat) (v : Bytes) :
    (setPipe l p v).length = l.length := by
  induction l generalizing p with
  | nil => rfl
  | cons a rest ih => cases p <;> simp [setPipe, ih]

theorem pipeBuf_setPipe (l : List Bytes) (p q : Nat) (v : Bytes) (hp : p < l.length) :
    pipeBuf (setPipe l p v) q = if q = p then v else pipeBuf l q := by
  induction l generalizing p q with
  | nil => simp at hp
  | cons a rest ih =>
    cases p with
    | zero => cases q <;> simp [setPipe, pipeBuf]
    | succ n =>
      cases q with
      | zero => simp [setPipe, pipeBuf]
      | succ m =>
        simp only [List.length_cons, Nat.add_lt_add_iff_right] at hp
        simp [setPipe, pipeBuf, ih n m hp]

theorem hasWriter_of_lookup (t : FdTable) (x p : Nat) (h : lookup t x = some (.pipeW p)) :
    hasWriter t p = true := by
  unfold hasWriter
  rw [List.contains_iff_exists_mem_beq]
  exact ⟨_, lookup_mem t x _ h, by simp⟩

theorem readFrom_append_data_of_none (acc : Bytes) (reads : List ReadResult) (b : Bytes)
    (h : readFrom acc reads = none) : readFrom acc (reads ++ [.data b]) = none := by
  induction reads generalizing acc with
  | nil => simp [readFrom]
  | cons x rest ih =>
    cases x with
    | data c =>
      simp only [readFrom] at h
      simpa [readFrom] using ih _ h
    | eof => simp [readFrom] at h
    | err e => simp [readFrom] at h

/-- One `Read` of a goroutine that is reading pipe `p` through descriptor `r`, while a write
end of the pipe is open: what it has read, followed by what the pipe holds, stays the same. -/
theorem step_reading (os : OS) (t : Task) (p : Nat) (hp : p < os.pipes.length)
    (hr : lookup os.fds t.fd = some (.pipeR p)) (hw : hasWriter os.fds p = true)
    (hc : t.closed = false) (hn : readFrom [] t.reads = none) :
    (t.step os none).1.fds = os.fds ∧
    (t.step os none).1.pipes.length = os.pipes.length ∧
    (t.step os none).2.fd = t.fd ∧ (t.step os none).2.closed = false ∧
    readFrom [] (t.step os none).2.reads = none ∧
    dataOf (t.step os none).2.reads ++ pipeBuf (t.step os none).1.pipes p
      = dataOf t.reads ++ pipeBuf os.pipes p ∧
    ∀ q, q ≠ p → pipeBuf (t.step os none).1.pipes q = pipeBuf os.pipes q := by
  have hd : (drain t.reads).isSome = false := by simp [drain, hn]
  cases hb : pipeBuf os.pipes p with
  | nil =>
    have hs : t.step os none = (os, t) := by
      simp [Task.step, hd, hc, sysRead, hr, hb, hw]
    rw [hs]
    exact ⟨rfl, rfl, rfl, hc, hn, by rw [hb], fun _ _ => rfl⟩
  | cons b bs =>
    have hs : t.step os none = ({ os with pipes := setPipe os.pipes p [] },
        { t with reads := t.reads ++ [.data (b :: bs)] }) := by
      simp [Task.step, hd, hc, sysRead, hr, hb]
    rw [hs]
    refine ⟨rfl, length_setPipe _ _ _, rfl, hc, readFrom_append_data_of_none _ _ _ hn, ?_, ?_⟩
    · simp only
      rw [pipeBuf_setPipe _ _ _ _ hp, if_pos rfl, dataOf_append_of_none [] _ _ hn]
      simp [dataOf]
    · intro q hq
      simp only
      rw [pipeBuf_setPipe _ _ _ _ hp, if_neg hq]

theorem written_append (fd : Nat) (xs ys : List Event) :
    written fd (xs ++ ys) = written fd xs ++ written fd ys := by
  induction xs with
  | nil => rfl
  | cons ev rest ih =>
    cases ev with
    | write fd1 b =>
      by_cases h : fd1 = fd <;> simp [written, h, ih]
    | read i fault => simp [written, ih]
    | log i line => simp [written, ih]

/-- One event of the active phase keeps the session active and accounts for the bytes. -/
theorem active_apply {T : FdTable} {p c1 c2 r r2 : Nat} {W : World} {a1 a2 : Bytes}
    {sf : FakeStdOutErr}
    (ha : Active T p c1 c2 r r2 W a1 a2) (ev : Event)
    (hc1 : sf.stdoutCh = c1) (hc2 : sf.stderrCh = c2) (hne : c1 ≠ c2)
    (hT1 : lookup T stdoutFd = some (.pipeW p)) (hT2 : lookup T stderrFd = some (.pipeW (p + 1)))
    (hTr : lookup T r = some (.pipeR p)) (hTr2 : lookup T r2 = some (.pipeR (p + 1)))
    (hev : ev.inSession sf) :
    Active T p c1 c2 r r2 (Event.apply W ev)
      (a1 ++ written stdoutFd [ev]) (a2 ++ written stderrFd [ev]) := by
  obtain ⟨hk, hfds, hlen, t1, t2, g1, g2, f1, k1, n1, d1, f2, k2, n2, d2⟩ := ha
  have hR1 : hasReader T p = true := hasReader_of_lookup _ r _ hTr
  have hR2 : hasReader T (p + 1) = true := hasReader_of_lookup _ r2 _ hTr2
  have hl1 : c1 < W.tasks.length := by
    rcases List.getElem?_eq_some.1 g1 with ⟨h, _⟩
    exact h
  have hl2 : c2 < W.tasks.length := by
    rcases List.getElem?_eq_some.1 g2 with ⟨h, _⟩
    exact h
  cases ev with
  | write fd b =>
    rcases hev with rfl | rfl
    · have hs : sysWrite W.os stdoutFd b
          = .ok ⟨W.os.fds, setPipe W.os.pipes p (pipeBuf W.os.pipes p ++ b)⟩ := by
        simp [sysWrite, hfds, hT1, hR1]
      simp only [Event.apply, hk, Bool.false_eq_true, if_false, World.write, hs]
      refine ⟨rfl, hfds, by simp only [length_setPipe]; exact hlen, t1, t2, g1, g2, f1, k1, n1,
        ?_, f2, k2, n2, ?_⟩
      · simp only
        rw [pipeBuf_setPipe _ _ _ _ (by omega), if_pos rfl, ← d1]
        simp [written]
      · simp only
        rw [pipeBuf_setPipe _ _ _ _ (by omega), if_neg (by omega), ← d2]
        simp [written, stdoutFd, stderrFd]
    · have hs : sysWrite W.os stderrFd b
          = .ok ⟨W.os.fds, setPipe W.os.pipes (p + 1) (pipeBuf W.os.pipes (p + 1) ++ b)⟩ := by
        simp [sysWrite, hfds, hT2, hR2]
      simp only [Event.apply, hk, Bool.false_eq_true, if_false, World.write, hs]
      refine ⟨rfl, hfds, by simp only [length_setPipe]; exact hlen, t1, t2, g1, g2, f1, k1, n1,
        ?_, f2, k2, n2, ?_⟩
      · simp only
        rw [pipeBuf_setPipe _ _ _ _ hlen, if_neg (by omega), ← d1]
        simp [written, stdoutFd, stderrFd]
      · simp only
        rw [pipeBuf_setPipe _ _ _ _ hlen, if_pos rfl, ← d2]
        simp [written]
  | read i fault =>
    obtain ⟨hi, rfl⟩ := hev
    rw [hc1, hc2] at hi
    simp only [written, List.append_nil]
    rcases hi with rfl | rfl
    · obtain ⟨s1, s2, s3, s4, s5, s6, s7⟩ := step_reading W.os t1 p (by omega)
        (by rw [hfds, f1]; exact hTr) (hasWriter_of_lookup _ _ _ (by rw [hfds]; exact hT1)) k1 n1
      simp only [Event.apply, hk, Bool.false_eq_true, if_false, g1]
      refine ⟨rfl, by rw [s1, hfds], by rw [s2]; exact hlen, (t1.step W.os none).2, t2,
        by simp [List.getElem?_set, hl1], by simp [List.getElem?_set, hne, g2],
        by rw [s3, f1], s4, s5, by rw [s6, d1], f2, k2, n2, ?_⟩
      simp only
      rw [s7 _ (by omega), d2]
    · obtain ⟨s1, s2, s3, s4, s5, s6, s7⟩ := step_reading W.os t2 (p + 1) hlen
        (by rw [hfds, f2]; exact hTr2) (hasWriter_of_lookup _ _ _ (by rw [hfds]; exact hT2)) k2 n2
      simp only [Event.apply, hk, Bool.false_eq_true, if_false, g2]
      refine ⟨rfl, by rw [s1, hfds], by rw [s2]; exact hlen, t1, (t2.step W.os none).2,
        by simp [List.getElem?_set, Ne.symm hne, g1], by simp [List.getElem?_set, hl2],
        f1, k1, n1, ?_, by rw [s3, f2], s4, s5, by rw [s6, d2]⟩
      simp only
      rw [s7 _ (by omega), d1]
  | log i line => exact absurd hev (by simp [Event.inSession])

/-- A schedule of the active phase keeps the session active and accounts for the bytes. -/
theorem active_run {T : FdTable} {p c1 c2 r r2 : Nat} {sf : FakeStdOutErr}
    (hc1 : sf.stdoutCh = c1) (hc2 : sf.stderrCh = c2) (hne : c1 ≠ c2)
    (hT1 : lookup T stdoutFd = some (.pipeW p)) (hT2 : lookup T stderrFd = some (.pipeW (p + 1)))
    (hTr : lookup T r = some (.pipeR p)) (hTr2 : lookup T r2 = some (.pipeR (p + 1)))
    (evs : List Event) (hev : ∀ ev ∈ evs, ev.inSession sf)
    (W : World) (a1 a2 : Bytes) (ha : Active T p c1 c2 r r2 W a1 a2) :
    Active T p c1 c2 r r2 (YtTranscribe.run W evs)
      (a1 ++ written stdoutFd evs) (a2 ++ written stderrFd evs) := by
  induction evs generalizing W a1 a2 with
  | nil => simpa [YtTranscribe.run, written] using ha
  | cons ev rest ih =>
    have h1 := active_apply ha ev hc1 hc2 hne hT1 hT2 hTr hTr2 (hev ev (by simp))
    have h2 := ih (fun e he => hev e (by simp [he])) _ _ _ h1
    have e1 : ∀ fd, written fd (ev :: rest) = written fd [ev] ++ written fd rest :=
      fun fd => written_append fd [ev] rest
    rw [e1, e1, ← List.append_assoc, ← List.append_assoc]
    exact h2

theorem pipeBuf_append_right (l m : List Bytes) (k : Nat) :
    pipeBuf (l ++ m) (l.length + k) = pipeBuf m k := by
  induction l with
  | nil => simp
  | cons a rest ih =>
    have : (a :: rest).length + k = (rest.length + k) + 1 := by simp; omega
    rw [this]
    simpa [pipeBuf] using ih

/-- What a cycle returns, on every table with descriptors 1 and 2 open: after a successful
`New` and a schedule of writes to descriptors 1 and 2 and of reads by the two goroutines, a
`ReadAndRestore` during which the goroutines run only at the receives returns with a nil
error the bytes that the goroutines had read; followed by the bytes still in the pipes, they
are the bytes written, in write order. -/
theorem capture_returns_what_was_read (w0 : World) (nf : NewFaults) (w1 : World)
    (sf : FakeStdOutErr) (evs : List Event) (f : RestoreFaults)
    (h1 : lookup w0.os.fds stdoutFd ≠ none) (h2 : lookup w0.os.fds stderrFd ≠ none)
    (hk : w0.killed = false) (hs : f.atReceive)
    (hnew : New w0 nf = (w1, .ok sf)) (hev : ∀ ev ∈ evs, ev.inSession sf) :
    ∃ r b1 b2, ReadAndRestore (run w1 evs) sf f = some r ∧ r.err = none ∧
      r.stdout = some b1 ∧ r.stderr = some b2 ∧
      b1 ++ pipeBuf (run w1 evs).os.pipes w0.os.pipes.length = written stdoutFd evs ∧
      b2 ++ pipeBuf (run w1 evs).os.pipes (w0.os.pipes.length + 1) = written stderrFd evs := by
  obtain ⟨ra, wfd, rb, wfd2, hi⟩ := New_installed w0 nf w1 sf h1 h2 hnew
  obtain ⟨T1, T2, Tr, Tr2⟩ := installed_ends hi
  have hss := hi.session
  have c1 : sf.stdoutCh = w0.tasks.length := by rw [hss]
  have c2 : sf.stderrCh = w0.tasks.length + 1 := by rw [hss]
  have q1 : sf.stdoutReader = some sf.stdoutCh := by rw [hss]
  have q2 : sf.stderrReader = some sf.stderrCh := by rw [hss]
  have h0 : Active w1.os.fds w0.os.pipes.length w0.tasks.length (w0.tasks.length + 1) ra rb
      w1 [] [] := by
    refine ⟨by rw [hi.alive, hk], rfl, by rw [hi.pipes]; simp, ⟨ra, false, [], false⟩,
      ⟨rb, false, [], false⟩,
      by rw [hi.tasks]; exact getElem?_tasks_fst _ _ _,
      by rw [hi.tasks]; exact getElem?_tasks_snd _ _ _,
      rfl, rfl, rfl, ?_, rfl, rfl, rfl, ?_⟩
    · rw [hi.pipes, List.append_assoc]
      have := pipeBuf_append_right w0.os.pipes ([[]] ++ [[]]) 0
      simpa [pipeBuf, dataOf] using this
    · rw [hi.pipes, List.append_assoc]
      have := pipeBuf_append_right w0.os.pipes ([[]] ++ [[]]) 1
      simpa [pipeBuf, dataOf] using this
  have hA := active_run c1 c2 (by omega) T1 T2 Tr Tr2 evs hev w1 [] [] h0
  obtain ⟨hk1, -, -, t1, t2, g1, g2, -, -, -, d1, -, -, -, d2⟩ := hA
  rw [← c1] at g1
  rw [← c2] at g2
  obtain ⟨r, h, he, ho, hb, -⟩ := ReadAndRestore_live (run w1 evs) sf f t1 t2 hk1 hs q1 q2 g1 g2
  exact ⟨r, dataOf t1.reads, dataOf t2.reads, h, he, ho, hb, by simpa using d1,
    by simpa using d2⟩

/-- C2 fails as stated: on a table with descriptor 2 closed, `New` puts the read end of the
stdout pipe on descriptor 2, duplicates it as `origStderr`, and `ReadAndRestore` "restores"
it: descriptor 2, closed before `New`, then refers to the read end of the stdout pipe. -/
theorem C2_counterexample_stderr_closed :
    lookup noStderrWorld.os.fds stderrFd = none ∧
    (capture noStderrWorld NewFaults.none [] RestoreFaults.none).map
      (fun r => (r.err, lookup r.world.os.fds stderrFd)) = some (none, some (.pipeR 0)) := by
  decide

/-- C2 on the usual table: `New`, then `ReadAndRestore` with every call succeeding. -/
theorem C2_descriptors_restored_witness :
    lookup stdWorld.os.fds stdoutFd ≠ none ∧ lookup stdWorld.os.fds stderrFd ≠ none ∧
    stdWorld.os.wf = true ∧ New stdWorld NewFaults.none = (liveWorld, .ok liveSession) ∧
    ReadAndRestore (run liveWorld []) liveSession RestoreFaults.none = some doneRet ∧
    (doneRet.err = none ∧
      lookup doneRet.world.os.fds stdoutFd = lookup stdWorld.os.fds stdoutFd ∧
      lookup doneRet.world.os.fds stderrFd = lookup stdWorld.os.fds stderrFd ∧
      (∀ p, stdWorld.os.pipes.length ≤ p →
        lookup doneRet.world.os.fds stdoutFd ≠ some (.pipeR p) ∧
        lookup doneRet.world.os.fds stdoutFd ≠ some (.pipeW p) ∧
        lookup doneRet.world.os.fds stderrFd ≠ some (.pipeR p) ∧
        lookup doneRet.world.os.fds stderrFd ≠ some (.pipeW p)) ∧
      lookup doneRet.world.os.fds liveSession.origStdout = none ∧
      lookup doneRet.world.os.fds liveSession.origStderr = none) :=
  ⟨by decide, by decide, by decide, rfl, by decide,
   C2_descriptors_restored stdWorld NewFaults.none liveWorld liveSession
     [] RestoreFaults.none doneRet (by decide) (by decide) (by decide) rfl
     ⟨rfl, rfl, rfl, rfl⟩ (by decide)⟩

/-! ### windows.go: which slot is rebound -/

theorem Windows_New_winStdWorld :
    Windows.New winStdWorld WinFaults.none = (winLiveWorld, .ok winLiveSession) := by
  rfl

theorem GetStdHandle_ok (os : WinOS) (which : StdHandle) (fault : Option Errno) (h : Nat)
    (hg : GetStdHandle os which fault = .ok h) : h = os.slot which := by
  cases fault with
  | some e => simp [GetStdHandle] at hg
  | none =>
    simp only [GetStdHandle, Except.ok.injEq] at hg
    exact hg.symm

theorem SetStdHandle_err_slot (os os1 : WinOS) (h : Nat) (fault : Option Errno)
    (hs : SetStdHandle os .STD_ERROR_HANDLE h fault = .ok os1) :
    os1.stdOut = os.stdOut ∧ os1.stdIn = os.stdIn ∧ os1.stdErr = h ∧ os1.objs = os.objs := by
  cases fault with
  | some e => simp [SetStdHandle] at hs
  | none =>
    simp only [SetStdHandle, Except.ok.injEq] at hs
    rw [← hs]
    exact ⟨rfl, rfl, rfl, rfl⟩

theorem winPipe_ok (os os1 : WinOS) (fault : Option Errno) (r wfd : Nat)
    (h : winPipe os fault = .ok (os1, r, wfd)) :
    os1.stdOut = os.stdOut ∧ os1.stdIn = os.stdIn ∧ os1.stdErr = os.stdErr ∧
    osPipe os.objs fault = .ok (os1.objs, r, wfd) := by
  unfold winPipe at h
  cases hp : sysPipe os.objs fault with
  | error e => simp [hp] at h
  | ok v =>
    obtain ⟨objs1, r1, w1⟩ := v
    simp only [hp, Except.ok.injEq, Prod.mk.injEq] at h
    obtain ⟨h1, h2, h3⟩ := h
    rw [← h1, ← h2, ← h3]
    exact ⟨rfl, rfl, rfl, by simp [osPipe, hp]⟩

/-- The calls that the Windows `New` makes when it succeeds, and what it returns. -/
theorem Windows_NewAt_ok_inv (w : WinWorld) (f : WinFaults) (w1 : WinWorld)
    (sf : FakeStdOutErr) (h : Windows.NewAt w f = (w1, .ok sf)) :
    ∃ os1 r wfd os3 os4 r2 wfd2 os6,
      winPipe w.os f.pipeOut = .ok (os1, r, wfd) ∧
      GetStdHandle os1 .STD_OUTPUT_HANDLE f.getOut = .ok sf.origStdout ∧
      SetStdHandle os1 .STD_ERROR_HANDLE wfd f.setOut = .ok os3 ∧
      winPipe os3 f.pipeErr = .ok (os4, r2, wfd2) ∧
      GetStdHandle os4 .STD_ERROR_HANDLE f.getErr = .ok sf.origStderr ∧
      SetStdHandle os4 .STD_ERROR_HANDLE wfd2 f.setErr = .ok os6 ∧
      w1.os = os6 := by
  unfold Windows.NewAt at h
  split at h
  · simp at h
  · rename_i os1 r wfd hp1
    split at h
    · simp at h
    · rename_i d hd1
      split at h
      · simp at h
      · rename_i os3 hd2
        dsimp only at h
        split at h
        · simp at h
        · rename_i os4 r2 wfd2 hp2
          split at h
          · simp at h
          · rename_i d2 hd3
            split at h
            · simp at h
            · rename_i os6 hd4
              simp only [Prod.mk.injEq, Except.ok.injEq] at h
              obtain ⟨hw, hs⟩ := h
              refine ⟨os1, r, wfd, os3, os4, r2, wfd2, os6, hp1, ?_, hd2, hp2, ?_, hd4, ?_⟩
              · rw [← hs]; exact hd1
              · rw [← hs]; exact hd3
              · rw [← hw]

theorem Windows_NewAt_of_New_ok (w : WinWorld) (f : WinFaults) (w1 : WinWorld)
    (sf : FakeStdOutErr) (h : Windows.New w f = (w1, .ok sf)) :
    Windows.NewAt w f = (w1, .ok sf) := by
  unfold Windows.New at h
  split at h
  · rename_i w2 sf2 heq
    simp only [Prod.mk.injEq, Except.ok.injEq] at h
    rw [heq, h.1, h.2]
  · simp at h

/-- On every Windows state, a successful `New` leaves the standard-output slot holding the
handle it held before, puts the write end of the stderr pipe in the standard-error slot, and
records as `origStderr` the write end of the stdout pipe, which the first `SetStdHandle` had
put in the standard-error slot. -/
theorem Windows_New_output_slot_kept (w : WinWorld) (f : WinFaults) (w1 : WinWorld)
    (sf : FakeStdOutErr) (h : Windows.New w f = (w1, .ok sf)) :
    w1.os.stdOut = w.os.stdOut ∧ sf.origStdout = w.os.stdOut ∧
    w1.os.target .STD_ERROR_HANDLE = some (.pipeW (w.os.objs.pipes.length + 1)) ∧
    lookup w1.os.objs.fds sf.origStderr = some (.pipeW w.os.objs.pipes.length) := by
  obtain ⟨os1, r, wfd, os3, os4, r2, wfd2, os6, hp1, hg1, hs1, hp2, hg2, hs2, hw⟩ :=
    Windows_NewAt_ok_inv w f w1 sf (Windows_NewAt_of_New_ok w f w1 sf h)
  obtain ⟨a1, -, -, p1⟩ := winPipe_ok _ _ _ _ _ hp1
  obtain ⟨b1, -, b3, b4⟩ := SetStdHandle_err_slot _ _ _ _ hs1
  obtain ⟨c1, -, c3, p2⟩ := winPipe_ok _ _ _ _ _ hp2
  obtain ⟨d1, -, d3, d4⟩ := SetStdHandle_err_slot _ _ _ _ hs2
  have g1 := GetStdHandle_ok _ _ _ _ hg1
  have g2 := GetStdHandle_ok _ _ _ _ hg2
  obtain ⟨-, -, -, -, pp1, l1⟩ := osPipe_ok _ _ _ _ _ p1
  obtain ⟨-, fr2, fw2, nrw2, pp2, l2⟩ := osPipe_ok _ _ _ _ _ p2
  have hw1 : lookup os3.objs.fds wfd = some (.pipeW w.os.objs.pipes.length) := by
    rw [b4, l1, if_pos rfl]
  refine ⟨by rw [hw, d1, c1, b1, a1], by rw [g1]; exact a1, ?_, ?_⟩
  · rw [hw]
    show lookup os6.objs.fds os6.stdErr = _
    rw [d3, d4, l2, if_pos rfl, b4, pp1]
    simp
  · rw [hw, g2]
    show lookup os6.objs.fds os4.stdErr = _
    rw [c3, b3, d4]
    exact (osPipe_frame _ _ _ _ _ p2 wfd (by rw [hw1]; simp)).trans hw1

/-- C11 at the usual process: before `New` the Unix and the Windows state correspond; after
a successful `New` the Unix descriptors 1 and 2 are on the write ends of the stdout and
stderr pipes, while on Windows the standard-output slot still refers to what it referred to
before and only the standard-error slot is on the write end of the stderr pipe: the two
states no longer correspond. -/
theorem C11_windows_stdout_not_rebound :
    SameStd stdWorld winStdWorld ∧
    New stdWorld NewFaults.none = (liveWorld, .ok liveSession) ∧
    Windows.New winStdWorld WinFaults.none = (winLiveWorld, .ok winLiveSession) ∧
    Rebound liveWorld 0 1 ∧
    ¬ Windows.Rebound winLiveWorld 0 1 ∧
    winLiveWorld.os.target .STD_OUTPUT_HANDLE = some (.file 1) ∧
    winLiveWorld.os.target .STD_ERROR_HANDLE = some (.pipeW 1) ∧
    ¬ SameStd liveWorld winLiveWorld :=
  ⟨by decide, rfl, rfl, by decide, by decide, rfl, rfl, by decide⟩

/-! ### whisper.go: is the session finalized -/

theorem run_append (w : World) (xs ys : List Event) : run w (xs ++ ys) = run (run w xs) ys := by
  simp [run, List.foldl_append]

/-- On a session made by `New`, after any active phase, a `ReadAndRestore` that returns
returns a nil error and leaves the readers nil. -/
theorem ReadAndRestore_of_New (w : World) (nf : NewFaults) (w1 : World) (sf : FakeStdOutErr)
    (h : New w nf = (w1, .ok sf)) (evs : List Event) (f : RestoreFaults) (r : Ret)
    (hret : ReadAndRestore (run w1 evs) sf f = some r) :
    r.err = none ∧ r.sf.stdoutReader = none ∧ r.sf.stderrReader = none := by
  rcases New_paired w nf w1 sf h evs with hfin | ⟨hr1, hr2, hl1, hl2⟩
  · obtain ⟨os1, r, wfd, os2, d, os3, os4, r2, wfd2, os5, d2, os6,
      -, -, -, -, -, -, -, hs⟩ := NewAt_ok_inv w nf w1 sf (NewAt_of_New_ok w nf w1 sf h)
    rw [hs] at hfin
    simp at hfin
  · rw [ReadAndRestore_split _ sf f _ _ hr1 hr2] at hret
    obtain ⟨a1, a2, -⟩ := receiveAndRestore_fds _ _ _ _ hret
    rw [a2]
    exact ⟨a1, rfl, rfl⟩

/-- Without `Quiet`, `Transcribe` makes no call on `fakestdio` and has no session. -/
theorem Transcribe_not_quiet (b : whisper.Whisper) (nSamples : Nat) (w : World)
    (nf : NewFaults) (rf : RestoreFaults) (c : Foreign) (hq : b.Quiet = false) :
    (b.Transcribe nSamples w nf rf c).calls = [] ∧
    (b.Transcribe nSamples w nf rf c).stdio = none := by
  unfold whisper.Whisper.Transcribe transcribeBody transcribeTail
  simp only [hq, Bool.false_eq_true, if_false]
  split
  · exact ⟨rfl, rfl⟩
  · split
    · exact ⟨rfl, rfl⟩
    · split <;> exact ⟨rfl, rfl⟩

/-- With `Quiet`, a successful `New`, every foreign call succeeding on a non-empty sample
slice, and a `ReadAndRestore` that returns, `Transcribe` calls `ReadAndRestore` once, after
`New`, and the session it leaves is finalized. -/
theorem Transcribe_quiet_success (b : whisper.Whisper) (nSamples : Nat) (w : World)
    (nf : NewFaults) (rf : RestoreFaults) (c : Foreign) (w1 : World) (sf : FakeStdOutErr)
    (r : Ret)
    (hq : b.Quiet = true) (hnew : New w nf = (w1, .ok sf)) (hinit : c.initOk = true)
    (hn : nSamples ≠ 0) (hfull : c.fullRes = 0)
    (hret : ReadAndRestore (run (run (run w1 c.initEvents) c.fullEvents) c.countEvents) sf rf
      = some r) :
    (b.Transcribe nSamples w nf rf c).calls = [.New, .ReadAndRestore] ∧
    (b.Transcribe nSamples w nf rf c).ending = .ok (buildSegments c.segs) ∧
    ∃ sf1, (b.Transcribe nSamples w nf rf c).stdio = some sf1 ∧
      sf1.stdoutReader = none ∧ sf1.stderrReader = none := by
  have hr := hret
  rw [← run_append, ← run_append] at hret
  obtain ⟨herr, hn1, hn2⟩ := ReadAndRestore_of_New w nf w1 sf hnew _ rf r hret
  have key : b.Transcribe nSamples w nf rf c
      = { world := r.world, calls := [.New, .ReadAndRestore], stdio := some r.sf,
          ending := .ok (buildSegments c.segs) } := by
    unfold whisper.Whisper.Transcribe transcribeBody transcribeTail
    simp [hq, hnew, hinit, hn, hfull, hr, herr]
  rw [key]
  exact ⟨rfl, rfl, r.sf, rfl, hn1, hn2⟩

/-- With `Quiet` and a successful `New`, when `whisper_init_from_file` returns nil, or
`whisper_full` returns non-zero on a non-empty sample slice, `Transcribe` returns an error
without having called `ReadAndRestore`: the session is still live and the descriptor table
is still the one `New` left. -/
theorem Transcribe_quiet_early_return (b : whisper.Whisper) (nSamples : Nat) (w : World)
    (nf : NewFaults) (rf : RestoreFaults) (c : Foreign) (w1 : World) (sf : FakeStdOutErr)
    (hq : b.Quiet = true) (hnew : New w nf = (w1, .ok sf))
    (hfail : c.initOk = false ∨ (nSamples ≠ 0 ∧ c.fullRes ≠ 0)) :
    (b.Transcribe nSamples w nf rf c).calls = [.New] ∧
    (b.Transcribe nSamples w nf rf c).stdio = some sf ∧
    (∃ err, (b.Transcribe nSamples w nf rf c).ending = .fail err) ∧
    (b.Transcribe nSamples w nf rf c).world.os.fds = w1.os.fds := by
  by_cases hi : c.initOk = false
  · have key : b.Transcribe nSamples w nf rf c
        = { world := run w1 c.initEvents, calls := [.New], stdio := some sf,
            ending := .fail (.errorf "unable to init context") } := by
      unfold whisper.Whisper.Transcribe transcribeBody
      simp [hq, hnew, hi]
    rw [key]
    exact ⟨rfl, rfl, ⟨_, rfl⟩, run_fds _ _⟩
  · rcases hfail with h | ⟨hn, hf⟩
    · exact absurd h hi
    · have key : b.Transcribe nSamples w nf rf c
          = { world := run (run w1 c.initEvents) c.fullEvents, calls := [.New],
              stdio := some sf,
              ending := .fail (.errorf ("Failure to convert, code " ++ toString c.fullRes)) } := by
        unfold whisper.Whisper.Transcribe transcribeBody
        simp [hq, hnew, hi, hn, hf]
      rw [key]
      exact ⟨rfl, rfl, ⟨_, rfl⟩, by rw [run_fds, run_fds]⟩

/-- C12 at the usual table with `Quiet` set: when `whisper_init_from_file` returns nil, and
when `whisper_full` returns 1, `Transcribe` returns the error having called `New` and never
`ReadAndRestore`; the session is left live and descriptors 1 and 2 are left on the pipes.
When every foreign call succeeds it calls `ReadAndRestore` once, and without `Quiet` it
makes no call. -/
theorem C12_early_returns_skip_ReadAndRestore :
    ((whisper.Whisper.mk "m" true false).Transcribe 3 stdWorld NewFaults.none
        RestoreFaults.none initFails
      = { world := liveWorld, calls := [.New], stdio := some liveSession,
          ending := .fail (.errorf "unable to init context") }) ∧
    ((whisper.Whisper.mk "m" true false).Transcribe 3 stdWorld NewFaults.none
        RestoreFaults.none fullFails
      = { world := liveWorld, calls := [.New], stdio := some liveSession,
          ending := .fail (.errorf "Failure to convert, code 1") }) ∧
    List.count StdioCall.ReadAndRestore [StdioCall.New] = 0 ∧
    lookup liveWorld.os.fds stdoutFd = some (.pipeW 0) ∧
    lookup liveWorld.os.fds stderrFd = some (.pipeW 1) ∧
    ((whisper.Whisper.mk "m" true false).Transcribe 3 stdWorld NewFaults.none
        RestoreFaults.none allGood).calls = [.New, .ReadAndRestore] ∧
    ((whisper.Whisper.mk "m" false false).Transcribe 3 stdWorld NewFaults.none
        RestoreFaults.none allGood).calls = [] := by
  refine ⟨by decide, by decide, by decide, rfl, rfl, by decide, by decide⟩

/-! ### Segment selection -/

theorem getSegments_foldl (start stop : Int) (segs : List Segment) (acc : List String) :
    segs.foldl (getSegmentsStep start stop) (some acc) = some (acc ++ selectTexts segs start stop) := by
  induction segs generalizing acc with
  | nil => simp [selectTexts]
  | cons seg rest ih =>
    by_cases h : start ≤ Microseconds seg.Start ∧ Microseconds seg.Start < stop
    · have hs : getSegmentsStep start stop (some acc) seg = some (acc ++ [seg.Text]) := by
        simp [getSegmentsStep, goAppend, h]
      have hsel : selectTexts (seg :: rest) start stop = seg.Text :: selectTexts rest start stop := by
        simp [selectTexts, h]
      rw [List.foldl_cons, hs, ih, hsel]
      simp
    · have hs : getSegmentsStep start stop (some acc) seg = some acc := by
        simp only [getSegmentsStep, ge_iff_le]
        rw [if_neg h]
      have hsel : selectTexts (seg :: rest) start stop = selectTexts rest start stop := by
        simp [selectTexts, h]
      rw [List.foldl_cons, hs, ih, hsel]

/-- C10: `Whisper.GetSegments(start, end)` returns a non-nil slice holding exactly the texts
of the segments whose start in microseconds is in `[start, end)`, in the original order; the
slice is empty (and non-nil) when no segment qualifies and when `end <= start`. -/
theorem C10_getSegments_selects (w : Whisper) (start stop : Int) :
    w.GetSegments start stop = some (selectTexts w.segments start stop) ∧
    ((∀ seg ∈ w.segments, ¬ (start ≤ Microseconds seg.Start ∧ Microseconds seg.Start < stop)) →
      w.GetSegments start stop = some []) ∧
    (stop ≤ start → w.GetSegments start stop = some []) := by
  have h1 : w.GetSegments start stop = some (selectTexts w.segments start stop) := by
    simpa [Whisper.GetSegments] using getSegments_foldl start stop w.segments []
  refine ⟨h1, ?_, ?_⟩
  · intro hno
    rw [h1]
    congr 1
    simp only [selectTexts, List.map_eq_nil_iff, List.filter_eq_nil_iff, decide_eq_true_eq]
    exact hno
  · intro hle
    rw [h1]
    congr 1
    simp only [selectTexts, List.map_eq_nil_iff, List.filter_eq_nil_iff, decide_eq_true_eq]
    intro seg _ hin
    omega

/-- C10 on three segments starting at 0.5 ms, 1.5 ms and -0.0005 ms, window 0 to 1000 µs. -/
theorem C10_getSegments_selects_witness :
    (Whisper.mk [⟨"a", 500000, 0⟩, ⟨"b", 1500000, 0⟩, ⟨"c", -500, 0⟩]).GetSegments 0 1000
      = some ["a", "c"] ∧
    (Whisper.mk [⟨"a", 500000, 0⟩]).GetSegments 1000 1000 = some [] :=
  ⟨(C10_getSegments_selects ⟨[⟨"a", 500000, 0⟩, ⟨"b", 1500000, 0⟩, ⟨"c", -500, 0⟩]⟩ 0 1000).1.trans
      (by decide),
   (C10_getSegments_selects ⟨[⟨"a", 500000, 0⟩]⟩ 1000 1000).2.2 (by decide)⟩

end YtTranscribe
